import Mathlib

/-!
# Sound-effect cache (`src/game/sfxcache.c`)

A shallow embedding of the handle layer of the sound-effect cache: the handle
table, open/close, read (with the transparent re-seek decode), seek, tell and
file size.

Conventions of the embedding.

* `int`, `long` and `unsigned int` are 32 bits wide (the program is a 32-bit
  executable).  Values are kept in `Int`/`Nat`; every arithmetic result that is
  stored in a C variable goes through `wrap32` (signed) or `toU32` (unsigned).
* `sfxc_handle_list[i]` is `st.sfxc_handle_list i` for every integer `i`.
  Indices `0 .. SOUND_EFFECTS_MAX_COUNT - 1` are the table; any other index is
  the memory the C expression would address around the table.
* A pointer to bytes is modelled by the memory it addresses (`Int → UInt8`,
  `data i` standing for `data[i]`).
* The collaborators that are not part of `sfxcache.c` (effect directory,
  generic cache, decoder, allocator, configuration) are collected in `Env`;
  the calls made to them are recorded, in order, in the `trace` of the state.
* A function that returns a status and writes through out-parameters returns
  the status together with the written values and the state after the call.
-/

namespace Sfxcache

/-! ## Machine integers -/

/-- Value of an integer after it is stored in a 32-bit signed variable
(two's-complement wrap-around). -/
def wrap32 (x : Int) : Int := (x + 2147483648) % 4294967296 - 2147483648

/-- Value of an integer after it is converted to `unsigned int` / 32-bit
`size_t`. -/
def toU32 (x : Int) : Nat := (x % 4294967296).toNat

/-- The integer is representable in a 32-bit signed variable. -/
def IsInt32 (x : Int) : Prop := -2147483648 ≤ x ∧ x < 2147483648

instance (x : Int) : Decidable (IsInt32 x) := by
  unfold IsInt32; infer_instance

/-- C library `abs` on a 32-bit `int`: the magnitude, wrapped to 32 bits (so
`abs(INT_MIN)` is `INT_MIN`, as the negation instruction computes it). -/
def abs32 (x : Int) : Int := wrap32 (if x < 0 then -x else x)

/-- Origin `SEEK_SET` of `<stdio.h>`. -/
def SEEK_SET : Int := 0
/-- Origin `SEEK_CUR` of `<stdio.h>`. -/
def SEEK_CUR : Int := 1
/-- Origin `SEEK_END` of `<stdio.h>`. -/
def SEEK_END : Int := 2

/-! ## Bytes and buffers -/

/-- The `n` bytes `p[start], ..., p[start + n - 1]`. -/
def readMem (p : Int → UInt8) (start : Int) (n : Nat) : List UInt8 :=
  (List.range n).map (fun (i : Nat) => p (start + Int.ofNat i))

/-- Library `memcpy(buf, src, n)` where `bytes` are the `n` source bytes: they replace
the first `n` bytes of the destination. -/
def memcpy (buf : List UInt8) (bytes : List UInt8) : List UInt8 :=
  bytes ++ buf.drop bytes.length

/-! ## Data model -/

/-- Record `struct SoundEffect` (sfxcache.c:19-32). -/
structure SoundEffect where
  /-- whether the slot is live -/
  used : Bool
  /-- Pointer `CacheEntry*`: the cache entry pinned for this handle, named by its key -/
  cacheHandle : Int
  tag : Int
  dataSize : Int
  fileSize : Int
  position : Int
  dataPosition : Int
  /-- Pointer `unsigned char*`: the raw bytes of the pinned cache entry -/
  data : Int → UInt8

/-- Assignment `soundEffect->used = used`. -/
def SoundEffect.withUsed (e : SoundEffect) (used : Bool) : SoundEffect :=
  { e with used := used }

/-- Assignment `soundEffect->position = position`. -/
def SoundEffect.withPosition (e : SoundEffect) (position : Int) : SoundEffect :=
  { e with position := position }

/-- Assignment `soundEffect->dataPosition = dataPosition`. -/
def SoundEffect.withDataPosition (e : SoundEffect) (dataPosition : Int) : SoundEffect :=
  { e with dataPosition := dataPosition }

/-- Calls made to collaborators, in program order (oldest first). -/
inductive Event where
  | cache_lock (tag : Int)
  | cache_unlock (entry : Int)
  | soundDecoderInit (handle : Int)
  | soundDecoderFree
  | config_get_value
  | strdup_effect_path
  | free_effect_path
  | soundEffectsListInit
  | soundEffectsListExit
  | malloc_handle_list
  | free_handle_list
  | malloc_cache
  | free_cache
  | cache_init
  | cache_exit
  | cache_flush
  deriving DecidableEq, Repr

/-- The collaborators of `sfxcache.c` whose code is outside the file. -/
structure Env where
  /-- Constant `SOUND_EFFECTS_MAX_COUNT` (declared in `sfxcache.h`). -/
  SOUND_EFFECTS_MAX_COUNT : Nat
  /-- True when `internal_strdup` returns a non-null copy of the name. -/
  internal_strdup_ok : String → Bool
  /-- True when `internal_malloc(size)` returns a non-null block. -/
  internal_malloc_ok : Nat → Bool
  /-- True when the allocation of the handle table succeeds. -/
  malloc_handle_list_ok : Bool
  /-- True when the allocation of the cache object succeeds. -/
  malloc_cache_ok : Bool
  /-- Result of `config_get_value` for the debug level key: `some level` when
  the key is present. -/
  config_get_value : Option Int
  /-- True when `soundEffectsListInit(path, cmpr, dlevel)` returns `SFXL_OK`. -/
  soundEffectsListInit_ok : String → Int → Int → Bool
  /-- True when `cache_init` succeeds for the given cache size. -/
  cache_init_ok : Int → Bool
  /-- Result of `soundEffectsListGetTag`: `some tag` when it returns `SFXL_OK`. -/
  soundEffectsListGetTag : String → Option Int
  /-- Result of `soundEffectsListIsValidTag`. -/
  soundEffectsListIsValidTag : Int → Bool
  /-- Result of `soundEffectsListGetDataSize`: `some size` when the out-parameter is
  written. -/
  soundEffectsListGetDataSize : Int → Option Int
  /-- Result of `soundEffectsListGetFileSize`: `some size` when the out-parameter is
  written. -/
  soundEffectsListGetFileSize : Int → Option Int
  /-- What the generic cache hands out for a tag when it can lock it: the raw
  bytes of the entry; `none` when the lock fails. -/
  cache_fetch : Int → Option (Int → UInt8)
  /-- The decoded stream the decoder produces from a raw input. -/
  soundDecoderStream : List UInt8 → List UInt8
  /-- Number of raw bytes the decoder requests from its reader callback when
  it is created. -/
  soundDecoderInitFeed : Nat
  /-- Number of raw bytes the decoder requests from its reader callback while
  it serves a request for `count` decoded bytes. -/
  soundDecoderFeed : Nat → Nat

/-- The file-scope variables of `sfxcache.c` (lines 47-66), the pin counters of
the generic cache `sfxc_pcache` points to, and the calls made so far. -/
structure SfxcState where
  sfxc_initialized : Bool
  sfxc_cmpr : Int
  /-- pin counter of every entry of the cache behind `sfxc_pcache` -/
  sfxc_pcache : Int → Nat
  sfxc_dlevel : Int
  sfxc_effect_path : Option String
  sfxc_handle_list : Int → SoundEffect
  sfxc_files_open : Int
  trace : List Event

/-- Store `e` in `sfxc_handle_list[handle]`. -/
def SfxcState.setSlot (st : SfxcState) (handle : Int) (e : SoundEffect) : SfxcState :=
  { st with sfxc_handle_list := fun i => if i = handle then e else st.sfxc_handle_list i }

/-- Assignment to the pin counters of the cache. -/
def SfxcState.withPcache (st : SfxcState) (pins : Int → Nat) : SfxcState :=
  { st with sfxc_pcache := pins }

/-- Assignment `sfxc_dlevel = level`. -/
def SfxcState.withDlevel (st : SfxcState) (level : Int) : SfxcState :=
  { st with sfxc_dlevel := level }

/-- Assignment `sfxc_effect_path = path`. -/
def SfxcState.withEffectPath (st : SfxcState) (path : Option String) : SfxcState :=
  { st with sfxc_effect_path := path }

/-- Assignment `sfxc_files_open = count`. -/
def SfxcState.withFilesOpen (st : SfxcState) (count : Int) : SfxcState :=
  { st with sfxc_files_open := count }

/-- Assignment `sfxc_initialized = flag`. -/
def SfxcState.withInitialized (st : SfxcState) (flag : Bool) : SfxcState :=
  { st with sfxc_initialized := flag }

/-- Append a collaborator call to the trace. -/
def SfxcState.log (st : SfxcState) (ev : Event) : SfxcState :=
  { st with trace := st.trace ++ [ev] }

/-! ## Generic cache -/

/-- Modelled from the spec: `cache_lock` of the generic byte-buffer cache
(`game/cache.c` is not part of the sources).  A lock pins the entry of the tag
(its pin counter goes up by one) and hands out the raw bytes and the entry
reference; when the bytes cannot be fetched it fails and pins nothing. -/
def cache_lock (env : Env) (st : SfxcState) (tag : Int) :
    Option ((Int → UInt8) × Int) × SfxcState :=
  let st1 := st.log (Event.cache_lock tag)
  match env.cache_fetch tag with
  | none => (none, st1)
  | some data =>
    (some (data, tag),
      st1.withPcache (fun e => if e = tag then st1.sfxc_pcache e + 1 else st1.sfxc_pcache e))

/-- Modelled from the spec: `cache_unlock` of the generic byte-buffer cache
(`game/cache.c` is not part of the sources).  An unlock releases one pin of the
entry; it reports failure, and changes no counter, when the entry has no pin
to release. -/
def cache_unlock (st : SfxcState) (entry : Int) : Bool × SfxcState :=
  let st1 := st.log (Event.cache_unlock entry)
  if st1.sfxc_pcache entry = 0 then (false, st1)
  else
    (true,
      st1.withPcache (fun e => if e = entry then st1.sfxc_pcache e - 1 else st1.sfxc_pcache e))

/-! ## Handle table -/

/-- Function `sfxc_handle_is_legal` (sfxcache.c:449-466). -/
def sfxc_handle_is_legal (env : Env) (st : SfxcState) (handle : Int) : Bool :=
  if handle ≥ (env.SOUND_EFFECTS_MAX_COUNT : Int) then false
  else
    let soundEffect := st.sfxc_handle_list handle
    if !soundEffect.used then false
    else if soundEffect.dataSize < soundEffect.position then false
    else env.soundEffectsListIsValidTag soundEffect.tag

/-- The scan of `sfxc_handle_create` (sfxcache.c:407-412): starting at `index`
with `remaining` slots still to visit, the index at which the loop stops: the
first slot that is not used, or `index + remaining` when every slot is used. -/
def sfxc_handle_create_scan (list : Int → SoundEffect) : Nat → Nat → Nat
  | 0, index => index
  | remaining + 1, index =>
    if !(list (index : Int)).used then index
    else sfxc_handle_create_scan list remaining (index + 1)

/-- Function `sfxc_handle_create` (sfxcache.c:399-433).  The result is `none`
when the function returns -1, and `some (index, st')` when it returns 0 with
`*handlePtr = index`.  A directory size lookup that does not write its
out-parameter leaves the field as it was. -/
def sfxc_handle_create (env : Env) (st : SfxcState) (tag : Int) (data : Int → UInt8)
    (cacheHandle : Int) : Option (Int × SfxcState) :=
  if st.sfxc_files_open ≥ (env.SOUND_EFFECTS_MAX_COUNT : Int) then none
  else
    let index := sfxc_handle_create_scan st.sfxc_handle_list env.SOUND_EFFECTS_MAX_COUNT 0
    if index = env.SOUND_EFFECTS_MAX_COUNT then none
    else
      let soundEffect := st.sfxc_handle_list (index : Int)
      some ((index : Int), st.setSlot (index : Int)
        { used := true
          cacheHandle := cacheHandle
          tag := tag
          dataSize := (env.soundEffectsListGetDataSize tag).getD soundEffect.dataSize
          fileSize := (env.soundEffectsListGetFileSize tag).getD soundEffect.fileSize
          position := 0
          dataPosition := 0
          data := data })

/-- Function `sfxc_handle_destroy` (sfxcache.c:438-446). -/
def sfxc_handle_destroy (env : Env) (st : SfxcState) (handle : Int) : SfxcState :=
  if handle ≤ (env.SOUND_EFFECTS_MAX_COUNT : Int) then
    st.setSlot handle ((st.sfxc_handle_list handle).withUsed false)
  else st

/-! ## Open and close -/

/-- Function `sfxc_cached_open` (sfxcache.c:153-186); the `mode` argument is
not used by the function. -/
def sfxc_cached_open (env : Env) (st : SfxcState) (fname : String) : Int × SfxcState :=
  if st.sfxc_files_open ≥ (env.SOUND_EFFECTS_MAX_COUNT : Int) then (-1, st)
  else if !env.internal_strdup_ok fname then (-1, st)
  else
    match env.soundEffectsListGetTag fname with
    | none => (-1, st)
    | some tag =>
      let st1 := (cache_lock env st tag).2
      match (cache_lock env st tag).1 with
      | none => (-1, st1)
      | some locked =>
        match sfxc_handle_create env st1 tag locked.1 locked.2 with
        | none => (-1, (cache_unlock st1 locked.2).2)
        | some created => (created.1, created.2)

/-- Function `sfxc_cached_close` (sfxcache.c:189-204). -/
def sfxc_cached_close (env : Env) (st : SfxcState) (handle : Int) : Int × SfxcState :=
  if !sfxc_handle_is_legal env st handle then (-1, st)
  else
    let soundEffect := st.sfxc_handle_list handle
    let st1 := (cache_unlock st soundEffect.cacheHandle).2
    if !(cache_unlock st soundEffect.cacheHandle).1 then (-1, st1)
    else (0, sfxc_handle_destroy env st1 handle)

/-! ## Decoder feed and decode -/

/-- Function `sfxc_ad_reader` (sfxcache.c:510-528): the returned value, the
buffer after the call and the state after the call. -/
def sfxc_ad_reader (st : SfxcState) (handle : Int) (buf : List UInt8) (size : Nat) :
    Int × List UInt8 × SfxcState :=
  if size = 0 then (0, buf, st)
  else
    let soundEffect := st.sfxc_handle_list handle
    let bytesToRead : Nat := toU32 (soundEffect.fileSize - soundEffect.dataPosition)
    let bytesToRead : Nat := if size ≤ bytesToRead then size else bytesToRead
    (wrap32 bytesToRead,
      memcpy buf (readMem soundEffect.data soundEffect.dataPosition bytesToRead),
      st.setSlot handle
        (soundEffect.withDataPosition (wrap32 (soundEffect.dataPosition + bytesToRead))))

/-- Modelled from the spec: a decoder object (`sound_decoder.c` is not part of
the sources): the handle its reader callback is bound to and the decoded bytes
it has not produced yet. -/
structure SoundDecoder where
  handle : Int
  pending : List UInt8

/-- Modelled from the spec: `soundDecoderInit(sfxc_ad_reader, handle, ...)`.
The decoder is a sequential producer of the decoded stream of its raw input;
the raw input is what `sfxc_ad_reader` supplies for the handle from the
current raw cursor to the end of the raw data.  Creating the decoder may
already pull raw bytes through the callback. -/
def soundDecoderInit (env : Env) (st : SfxcState) (handle : Int) : SoundDecoder × SfxcState :=
  let raw := (sfxc_ad_reader st handle [] 4294967295).2.1
  ({ handle := handle, pending := env.soundDecoderStream raw },
    (sfxc_ad_reader (st.log (Event.soundDecoderInit handle)) handle []
      env.soundDecoderInitFeed).2.2)

/-- Modelled from the spec: `soundDecoderDecode(decoder, buffer, count)`: the
next `count` bytes of the decoded stream, fewer when the stream ends; the
number of bytes produced, the bytes, the decoder and the state afterwards.
Producing them may pull raw bytes through the reader callback. -/
def soundDecoderDecode (env : Env) (st : SfxcState) (decoder : SoundDecoder) (count : Nat) :
    Nat × List UInt8 × SoundDecoder × SfxcState :=
  let produced := decoder.pending.take count
  (produced.length, produced, { decoder with pending := decoder.pending.drop count },
    (sfxc_ad_reader st decoder.handle [] (env.soundDecoderFeed count)).2.2)

/-- Modelled from the spec: `soundDecoderFree(decoder)`. -/
def soundDecoderFree (st : SfxcState) : SfxcState :=
  st.log Event.soundDecoderFree

/-- Lines 499-506 of `sfxc_decode`: decode the requested block into the
caller's buffer, release the decoder, fail when the block is short. -/
def sfxc_decode_block (env : Env) (st : SfxcState) (decoder : SoundDecoder)
    (buf : List UInt8) (size : Nat) : Int × List UInt8 × SfxcState :=
  let decoded := soundDecoderDecode env st decoder size
  let bytesRead := decoded.1
  if bytesRead ≠ size then (-1, memcpy buf decoded.2.1, soundDecoderFree decoded.2.2.2)
  else (0, memcpy buf decoded.2.1, soundDecoderFree decoded.2.2.2)

/-- Function `sfxc_decode` (sfxcache.c:469-507): the returned value, the
caller's buffer after the call and the state after the call. -/
def sfxc_decode (env : Env) (st : SfxcState) (handle : Int) (buf : List UInt8) (size : Nat) :
    Int × List UInt8 × SfxcState :=
  if !sfxc_handle_is_legal env st handle then (-1, buf, st)
  else
    let st0 := st.setSlot handle ((st.sfxc_handle_list handle).withDataPosition 0)
    let soundDecoder := (soundDecoderInit env st0 handle).1
    let st1 := (soundDecoderInit env st0 handle).2
    if (st1.sfxc_handle_list handle).position ≠ 0 then
      if !env.internal_malloc_ok (toU32 (st1.sfxc_handle_list handle).position) then
        (-1, buf, soundDecoderFree st1)
      else
        let skipped := soundDecoderDecode env st1 soundDecoder
          (toU32 (st1.sfxc_handle_list handle).position)
        let bytesRead := skipped.1
        let st2 := skipped.2.2.2
        if bytesRead ≠ toU32 (st2.sfxc_handle_list handle).position then
          (-1, buf, soundDecoderFree st2)
        else sfxc_decode_block env st2 skipped.2.2.1 buf size
    else sfxc_decode_block env st1 soundDecoder buf size

/-! ## Read, seek, tell, size -/

/-- Lines 243-245 of `sfxc_cached_read`: advance the cursor and return the
count. -/
def sfxc_cached_read_advance (st : SfxcState) (handle : Int) (bytesToRead : Nat) : Int × SfxcState :=
  let soundEffect := st.sfxc_handle_list handle
  (wrap32 bytesToRead,
    st.setSlot handle (soundEffect.withPosition (wrap32 (soundEffect.position + bytesToRead))))

/-- Function `sfxc_cached_read` (sfxcache.c:207-246): the returned value, the
caller's buffer after the call and the state after the call. -/
def sfxc_cached_read (env : Env) (st : SfxcState) (handle : Int) (buf : List UInt8) (size : Nat) :
    Int × List UInt8 × SfxcState :=
  if !sfxc_handle_is_legal env st handle then (-1, buf, st)
  else if size = 0 then (0, buf, st)
  else
    let soundEffect := st.sfxc_handle_list handle
    if wrap32 (soundEffect.dataSize - soundEffect.position) ≤ 0 then (0, buf, st)
    else
      let bytesToRead : Nat :=
        if wrap32 size < wrap32 (soundEffect.dataSize - soundEffect.position) then size
        else toU32 (wrap32 (soundEffect.dataSize - soundEffect.position))
      if st.sfxc_cmpr = 0 then
        let buf1 := memcpy buf (readMem soundEffect.data soundEffect.position bytesToRead)
        ((sfxc_cached_read_advance st handle bytesToRead).1, buf1,
          (sfxc_cached_read_advance st handle bytesToRead).2)
      else if st.sfxc_cmpr = 1 then
        let decoded := sfxc_decode env st handle buf bytesToRead
        if decoded.1 ≠ 0 then (-1, decoded.2.1, decoded.2.2)
        else
          ((sfxc_cached_read_advance decoded.2.2 handle bytesToRead).1, decoded.2.1,
            (sfxc_cached_read_advance decoded.2.2 handle bytesToRead).2)
      else (-1, buf, st)

/-- Function `sfxc_cached_write` (sfxcache.c:249-252): the returned value and
the state after the call. -/
def sfxc_cached_write (st : SfxcState) (_handle : Int) (_buf : List UInt8) (_size : Nat) :
    Int × SfxcState :=
  (-1, st)

/-- Function `sfxc_cached_seek` (sfxcache.c:255-297).  The result is `none`
when `origin` is none of the three origins (the `assert(false)` of the
`default` label). -/
def sfxc_cached_seek (env : Env) (st : SfxcState) (handle : Int) (offset : Int) (origin : Int) :
    Option (Int × SfxcState) :=
  if !sfxc_handle_is_legal env st handle then some (-1, st)
  else
    let soundEffect := st.sfxc_handle_list handle
    let base : Option Int :=
      if origin = SEEK_SET then some 0
      else if origin = SEEK_CUR then some soundEffect.position
      else if origin = SEEK_END then some soundEffect.dataSize
      else none
    match base with
    | none => none
    | some position =>
      let normalizedOffset := abs32 offset
      if offset ≥ 0 then
        let remainingSize := wrap32 (soundEffect.dataSize - soundEffect.position)
        let normalizedOffset :=
          if normalizedOffset > remainingSize then remainingSize else normalizedOffset
        let offset := wrap32 (position + normalizedOffset)
        some (offset, st.setSlot handle (soundEffect.withPosition offset))
      else
        if normalizedOffset > position then some (-1, st)
        else
          let offset := wrap32 (position - normalizedOffset)
          some (offset, st.setSlot handle (soundEffect.withPosition offset))

/-- Function `sfxc_cached_tell` (sfxcache.c:300-308). -/
def sfxc_cached_tell (env : Env) (st : SfxcState) (handle : Int) : Int × SfxcState :=
  if !sfxc_handle_is_legal env st handle then (-1, st)
  else ((st.sfxc_handle_list handle).position, st)

/-- Function `sfxc_cached_file_size` (sfxcache.c:311-319). -/
def sfxc_cached_file_size (env : Env) (st : SfxcState) (handle : Int) : Int × SfxcState :=
  if !sfxc_handle_is_legal env st handle then (0, st)
  else ((st.sfxc_handle_list handle).dataSize, st)

/-! ## Subsystem start -/

/-- Constant `SOUND_EFFECTS_CACHE_MIN_SIZE` (sfxcache.c:17). -/
def SOUND_EFFECTS_CACHE_MIN_SIZE : Int := 0x40000

/-- Function `sfxc_handle_list_create` (sfxcache.c:366-381); the fields of a
slot other than `used` keep whatever the allocated memory holds. -/
def sfxc_handle_list_create (env : Env) (st : SfxcState) : Int × SfxcState :=
  let st1 := st.log Event.malloc_handle_list
  if !env.malloc_handle_list_ok then (-1, st1)
  else
    let st2 := (List.range env.SOUND_EFFECTS_MAX_COUNT).foldl
      (fun s (index : Nat) =>
        s.setSlot (index : Int) ((s.sfxc_handle_list (index : Int)).withUsed false))
      st1
    (0, st2.withFilesOpen 0)

/-- Function `sfxc_handle_list_destroy` (sfxcache.c:384-396). -/
def sfxc_handle_list_destroy (env : Env) (st : SfxcState) : SfxcState :=
  let st1 :=
    if st.sfxc_files_open ≠ 0 then
      (List.range env.SOUND_EFFECTS_MAX_COUNT).foldl
        (fun s (index : Nat) =>
          if !(s.sfxc_handle_list (index : Int)).used then (sfxc_cached_close env s (index : Int)).2
          else s)
        st
    else st
  st1.log Event.free_handle_list

/-- Modelled from the spec: `cache_init` of the generic byte-buffer cache
(`game/cache.c` is not part of the sources): on success the cache is empty, no
entry is pinned. -/
def cache_init (env : Env) (st : SfxcState) (cacheSize : Int) : Bool × SfxcState :=
  let st1 := st.log Event.cache_init
  if env.cache_init_ok cacheSize then (true, st1.withPcache (fun _ => 0))
  else (false, st1)

/-- Function `sfxc_init` (sfxcache.c:69-118); `effectsPath` is `none` for a
null pointer. -/
def sfxc_init (env : Env) (st : SfxcState) (cacheSize : Int) (effectsPath : Option String) :
    Int × SfxcState :=
  let st1 := st.log Event.config_get_value
  let st2 := st1.withDlevel (env.config_get_value.getD 1)
  if cacheSize ≤ SOUND_EFFECTS_CACHE_MIN_SIZE then (-1, st2)
  else
    let effectsPath : String := effectsPath.getD ""
    let st3 := st2.log Event.strdup_effect_path
    if !env.internal_strdup_ok effectsPath then (-1, st3.withEffectPath none)
    else
      let st4 := st3.withEffectPath (some effectsPath)
      let st5 := st4.log Event.soundEffectsListInit
      if !env.soundEffectsListInit_ok effectsPath st5.sfxc_cmpr st5.sfxc_dlevel then
        (-1, st5.log Event.free_effect_path)
      else
        let st6 := (sfxc_handle_list_create env st5).2
        if (sfxc_handle_list_create env st5).1 ≠ 0 then
          (-1, (st6.log Event.soundEffectsListExit).log Event.free_effect_path)
        else
          let st7 := st6.log Event.malloc_cache
          if !env.malloc_cache_ok then
            (-1, (((sfxc_handle_list_destroy env st7).log Event.soundEffectsListExit).log
              Event.free_effect_path))
          else
            let st8 := (cache_init env st7 cacheSize).2
            if !(cache_init env st7 cacheSize).1 then
              (-1, (((sfxc_handle_list_destroy env (st8.log Event.free_cache)).log
                Event.soundEffectsListExit).log Event.free_effect_path))
            else (0, st8.withInitialized true)

/-- Function `sfxc_is_initialized` (sfxcache.c:139-142): the flag as an
`int`. -/
def sfxc_is_initialized (st : SfxcState) : Int :=
  if st.sfxc_initialized then 1 else 0

/-! ## Notions used to state the properties -/

/-- The second state differs from the first at most in the raw cursor
(`dataPosition`) of handle slots and in the trace. -/
def RawCursorOnly (st st' : SfxcState) : Prop :=
  st'.sfxc_initialized = st.sfxc_initialized ∧ st'.sfxc_cmpr = st.sfxc_cmpr ∧
  st'.sfxc_pcache = st.sfxc_pcache ∧ st'.sfxc_dlevel = st.sfxc_dlevel ∧
  st'.sfxc_effect_path = st.sfxc_effect_path ∧ st'.sfxc_files_open = st.sfxc_files_open ∧
  ∀ i, ∃ p, st'.sfxc_handle_list i = (st.sfxc_handle_list i).withDataPosition p

/-- The decoded stream of the effect a slot refers to: what the decoder
produces from the raw bytes `data[0 .. fileSize)`. -/
def decodedStream (env : Env) (e : SoundEffect) : List UInt8 :=
  env.soundDecoderStream (readMem e.data 0 (toU32 e.fileSize))

/-- The bytes a read call delivered: the first `count` bytes of the caller's
buffer after the call, none when the call failed. -/
def delivered (r : Int × List UInt8 × SfxcState) : List UInt8 :=
  r.2.1.take r.1.toNat

/-- A sequence of `sfxc_cached_read` calls on one handle, each with its own
buffer and size; the state after the last call. -/
def sfxc_cached_read_seq (env : Env) (st : SfxcState) (handle : Int) :
    List (List UInt8 × Nat) → SfxcState
  | [] => st
  | (buf, size) :: rest =>
    sfxc_cached_read_seq env (sfxc_cached_read env st handle buf size).2.2 handle rest

/-- The number of bytes a read of `size` bytes is to deliver from a slot:
`min(size, dataSize - position)`. -/
def readCount (e : SoundEffect) (size : Nat) : Nat :=
  min size (e.dataSize - e.position).toNat

/-- The contract of the effect directory: a tag a name resolves to is a valid
tag and has a decoded size, not negative, and a raw size. -/
def DirectoryConsistent (env : Env) : Prop :=
  ∀ (fname : String) (tag : Int), env.soundEffectsListGetTag fname = some tag →
    env.soundEffectsListIsValidTag tag = true ∧
    (∃ d : Int, env.soundEffectsListGetDataSize tag = some d ∧ 0 ≤ d) ∧
    (∃ f : Int, env.soundEffectsListGetFileSize tag = some f)

/-- The sizes for which `sfxc_cached_read` clamps the request: an unsigned
32-bit size below `2^31`, or any unsigned 32-bit size in compressed mode when
the decoded stream of the effect has fewer than `2^31` bytes. -/
def ReadSizeOk (env : Env) (st : SfxcState) (handle : Int) (size : Nat) : Prop :=
  size < 4294967296 ∧
  (size < 2147483648 ∨
    (st.sfxc_cmpr = 1 ∧
      (decodedStream env (st.sfxc_handle_list handle)).length < 2147483648))

/-! ## Concrete inputs -/

/-- A raw block whose byte at offset `i` is `i mod 256`. -/
def demoData : Int → UInt8 := fun i => UInt8.ofNat i.toNat

/-- A directory with the single effect `"explosion"` (tag 7, decoded and raw
size 10), a cache that can always fetch, a decoder that adds 100 to every raw
byte, a table of four handles; `mallocOk` tells whether scratch allocations
succeed. -/
def demoEnv (mallocOk : Bool) : Env where
  SOUND_EFFECTS_MAX_COUNT := 4
  internal_strdup_ok := fun _ => true
  internal_malloc_ok := fun _ => mallocOk
  malloc_handle_list_ok := true
  malloc_cache_ok := true
  config_get_value := none
  soundEffectsListInit_ok := fun _ _ _ => true
  cache_init_ok := fun _ => true
  soundEffectsListGetTag := fun name => if name = "explosion" then some 7 else none
  soundEffectsListIsValidTag := fun tag => tag == 7
  soundEffectsListGetDataSize := fun tag => if tag = 7 then some 10 else none
  soundEffectsListGetFileSize := fun tag => if tag = 7 then some 10 else none
  cache_fetch := fun _ => some demoData
  soundDecoderStream := fun raw => raw.map (fun b => b + 100)
  soundDecoderInitFeed := 4
  soundDecoderFeed := fun count => count

/-- An open slot on tag 7 with ten decoded bytes and the cursor at
`position`. -/
def demoSlot (position : Int) : SoundEffect where
  used := true
  cacheHandle := 7
  tag := 7
  dataSize := 10
  fileSize := 10
  position := position
  dataPosition := 0
  data := demoData

/-- A state whose slot 0 is `demoSlot position`, the other slots unused, one
pin on entry 7, in compression mode `cmpr`. -/
def demoState (cmpr : Int) (position : Int) : SfxcState where
  sfxc_initialized := true
  sfxc_cmpr := cmpr
  sfxc_pcache := fun e => if e = 7 then 1 else 0
  sfxc_dlevel := 1
  sfxc_effect_path := some "sfx/"
  sfxc_handle_list := fun i => if i = 0 then demoSlot position else (demoSlot 0).withUsed false
  sfxc_files_open := 0
  trace := []

/-- The base position a seek origin selects: 0, the current position, or
`dataSize` (0 for any other origin value). -/
def seekBase (e : SoundEffect) (origin : Int) : Int :=
  if origin = SEEK_SET then 0
  else if origin = SEEK_CUR then e.position
  else if origin = SEEK_END then e.dataSize
  else 0

/-- A call of the open/close interface. -/
inductive Call where
  | doOpen (fname : String)
  | doClose (handle : Int)
  deriving DecidableEq, Repr

/-- The state after one call of the open/close interface. -/
def sfxc_call (env : Env) (st : SfxcState) : Call → SfxcState
  | Call.doOpen fname => (sfxc_cached_open env st fname).2
  | Call.doClose handle => (sfxc_cached_close env st handle).2

/-- The state after a finite sequence of open/close calls, made in order. -/
def sfxc_calls (env : Env) (st : SfxcState) (calls : List Call) : SfxcState :=
  calls.foldl (sfxc_call env) st

/-- The number of slots of the handle table that are used and carry the
tag. -/
def openHandles (env : Env) (st : SfxcState) (tag : Int) : Nat :=
  (List.range env.SOUND_EFFECTS_MAX_COUNT).countP
    (fun (i : Nat) =>
      (st.sfxc_handle_list (i : Int)).used && decide ((st.sfxc_handle_list (i : Int)).tag = tag))

/-- Pin accounting of the handle table: every used slot holds the cache entry
of its own tag, and the pin counter of every entry is the number of used slots
that carry it. -/
def PinBalanced (env : Env) (st : SfxcState) : Prop :=
  (∀ i : Nat, i < env.SOUND_EFFECTS_MAX_COUNT → (st.sfxc_handle_list (i : Int)).used = true →
    (st.sfxc_handle_list (i : Int)).cacheHandle = (st.sfxc_handle_list (i : Int)).tag) ∧
  ∀ tag : Int, st.sfxc_pcache tag = openHandles env st tag

/-- The byte count `sfxc_cached_read` passes on (lines 222-228): the clamped
count for a size below `2^31`, the size itself from `2^31` on. -/
def decodeRequest (e : SoundEffect) (size : Nat) : Nat :=
  if size < 2147483648 then readCount e size else size

/-- The state `demoState cmpr 0` in which the memory just before the handle
table (index -1) holds the image of an open slot at position 4. -/
def demoStrayState (cmpr : Int) : SfxcState where
  sfxc_initialized := true
  sfxc_cmpr := cmpr
  sfxc_pcache := fun e => if e = 7 then 1 else 0
  sfxc_dlevel := 1
  sfxc_effect_path := some "sfx/"
  sfxc_handle_list := fun i =>
    if i = -1 then demoSlot 4 else if i = 0 then demoSlot 0 else (demoSlot 0).withUsed false
  sfxc_files_open := 0
  trace := []

/-- The environment `demoEnv true` with the answers of the five steps of
`sfxc_init` that can fail: the copy of the path, the directory, the handle
table, the cache object and `cache_init`. -/
def demoInitEnv (strdupOk listOk tableOk cacheOk initOk : Bool) : Env where
  SOUND_EFFECTS_MAX_COUNT := 4
  internal_strdup_ok := fun _ => strdupOk
  internal_malloc_ok := fun _ => true
  malloc_handle_list_ok := tableOk
  malloc_cache_ok := cacheOk
  config_get_value := none
  soundEffectsListInit_ok := fun _ _ _ => listOk
  cache_init_ok := fun _ => initOk
  soundEffectsListGetTag := (demoEnv true).soundEffectsListGetTag
  soundEffectsListIsValidTag := (demoEnv true).soundEffectsListIsValidTag
  soundEffectsListGetDataSize := (demoEnv true).soundEffectsListGetDataSize
  soundEffectsListGetFileSize := (demoEnv true).soundEffectsListGetFileSize
  cache_fetch := (demoEnv true).cache_fetch
  soundDecoderStream := (demoEnv true).soundDecoderStream
  soundDecoderInitFeed := 4
  soundDecoderFeed := fun count => count

/-- A state before `sfxc_init`: nothing initialised, no table, no trace. -/
def coldState : SfxcState where
  sfxc_initialized := false
  sfxc_cmpr := 1
  sfxc_pcache := fun _ => 0
  sfxc_dlevel := 0
  sfxc_effect_path := none
  sfxc_handle_list := fun _ => (demoSlot 0).withUsed false
  sfxc_files_open := 0
  trace := []

/-! ## Subsystem shutdown -/

/-- Modelled from the spec: `cache_exit` of the generic byte-buffer cache
(`game/cache.c` is not part of the sources): the cache releases every entry it
holds, those still pinned included, so no pin remains. -/
def cache_exit (st : SfxcState) : SfxcState :=
  (st.log Event.cache_exit).withPcache (fun _ => 0)

/-- Modelled from the spec: `cache_flush` of the generic byte-buffer cache
(`game/cache.c` is not part of the sources): it evicts the entries that are not
pinned; the pin counters stay as they are. -/
def cache_flush (st : SfxcState) : SfxcState :=
  st.log Event.cache_flush

/-- Function `sfxc_exit` (sfxcache.c:121-136). -/
def sfxc_exit (env : Env) (st : SfxcState) : SfxcState :=
  if st.sfxc_initialized then
    let st1 := cache_exit st
    let st2 := st1.log Event.free_cache
    let st3 := sfxc_handle_list_destroy env st2
    let st4 := st3.log Event.soundEffectsListExit
    let st5 := st4.log Event.free_effect_path
    st5.withInitialized false
  else st

/-- Function `sfxc_flush` (sfxcache.c:145-150). -/
def sfxc_flush (st : SfxcState) : SfxcState :=
  if st.sfxc_initialized then cache_flush st else st

/-- The number of slots of the handle table with `used == true`. -/
def usedSlots (env : Env) (st : SfxcState) : Nat :=
  (List.range env.SOUND_EFFECTS_MAX_COUNT).countP
    (fun (i : Nat) => (st.sfxc_handle_list (i : Int)).used)

/-- The state after a successful `sfxc_init` on `coldState` followed by
`sfxc_cached_open("explosion")`, which returns handle 0. -/
def openedState : SfxcState :=
  (sfxc_cached_open (demoEnv true)
    (sfxc_init (demoEnv true) coldState 524288 (some "sfx/")).2 "explosion").2

/-! ## Managed windows (`window.c`) -/

/-- Library `stricmp(a, b)`: 0 when the two strings are equal up to the case
of ASCII letters.  The functions embedded here only compare the result with 0,
so every other result is given as 1. -/
def stricmp (a b : String) : Int :=
  if a.data.map Char.toLower = b.data.map Char.toLower then 0 else 1

/-- The fields of `ManagedWindow` (the record is declared in `window.h`) that
`_selectWindowID` and `_selectWindow` read. -/
structure ManagedWindow where
  name : String
  window : Int

/-- The variables of `window.c` the two functions use: the index of the
current managed window (line 28), the table `gManagedWindows` (line 78; indices
outside `0 .. MANAGED_WINDOW_COUNT - 1` stand for the memory around it),
whether the callback pointer `_selectWindowFunc` (line 87) is set, and the
calls made to it so far. -/
structure WindowState where
  gCurrentManagedWindowIndex : Int
  gManagedWindows : Int → ManagedWindow
  selectWindowFuncSet : Bool
  selectWindowFuncCalls : List (Int × String)

/-- Function `_selectWindowID` (window.c:934-952); `count` is the constant
`MANAGED_WINDOW_COUNT` (declared in `window.h`). -/
def _selectWindowID (count : Nat) (st : WindowState) (index : Int) : Bool × WindowState :=
  if index < 0 ∨ index ≥ (count : Int) then (false, st)
  else
    let managedWindow := st.gManagedWindows index
    if managedWindow.window = -1 then (false, st)
    else
      let st1 : WindowState := { st with gCurrentManagedWindowIndex := index }
      let st2 : WindowState :=
        if st1.selectWindowFuncSet then
          { st1 with selectWindowFuncCalls :=
              st1.selectWindowFuncCalls ++ [(index, managedWindow.name)] }
        else st1
      (true, st2)

/-- The loop of `_selectWindow` (window.c:965-972): starting at `index` with
`remaining` entries still to visit, the index at which the loop stops: the
first entry with a window whose name matches, or `index + remaining` when
there is none. -/
def _selectWindow_scan (windows : Int → ManagedWindow) (windowName : String) : Nat → Nat → Nat
  | 0, index => index
  | remaining + 1, index =>
    if (windows (index : Int)).window ≠ -1 then
      if stricmp (windows (index : Int)).name windowName = 0 then index
      else _selectWindow_scan windows windowName remaining (index + 1)
    else _selectWindow_scan windows windowName remaining (index + 1)

/-- Function `_selectWindow` (window.c:955-979); `count` is the constant
`MANAGED_WINDOW_COUNT` (declared in `window.h`). -/
def _selectWindow (count : Nat) (st : WindowState) (windowName : String) : Int × WindowState :=
  if st.gCurrentManagedWindowIndex ≠ -1 ∧
      stricmp (st.gManagedWindows st.gCurrentManagedWindowIndex).name windowName = 0 then
    (st.gCurrentManagedWindowIndex, st)
  else
    let index : Int := (_selectWindow_scan st.gManagedWindows windowName count 0 : Nat)
    let selected := _selectWindowID count st index
    if !selected.1 then (index, selected.2)
    else (-1, selected.2)

/-- A table of 16 managed windows with two existing ones, `"main"` at index 0
(the current one) and `"dialog"` at index 1; no callback is set. -/
def demoWindows : WindowState where
  gCurrentManagedWindowIndex := 0
  gManagedWindows := fun i =>
    if i = 0 then { name := "main", window := 5 }
    else if i = 1 then { name := "dialog", window := 6 }
    else { name := "", window := -1 }
  selectWindowFuncSet := false
  selectWindowFuncCalls := []

/-! ## Dialog stack (`int/dialog.c`) -/

/-- Record `STRUCT_56DAE0` (dialog.c:35-43); pointers are given as
addresses, 0 for a null pointer. -/
structure STRUCT_56DAE0 where
  field_0 : Int
  field_4 : Int
  field_8 : Int
  field_C : Int
  field_10 : Int
  field_14 : Int
  field_18 : Int
  deriving DecidableEq

/-- The variables `tods` (dialog.c:67) and `dialog` (dialog.c:106) of
`int/dialog.c`; indices outside `0 .. 3` stand for the memory around the
4-element array. -/
structure DialogState where
  tods : Int
  dialog : Int → STRUCT_56DAE0

/-- Function `dialogStart` (dialog.c:423-443). -/
def dialogStart (st : DialogState) (a1 : Int) : Int × DialogState :=
  if st.tods = 3 then (1, st)
  else
    let index := st.tods
    let ptr := st.dialog index
    let ptr := { ptr with field_0 := a1 }
    let ptr := { ptr with field_4 := 0 }
    let ptr := { ptr with field_8 := 0 }
    let ptr := { ptr with field_C := -1 }
    let ptr := { ptr with field_10 := -1 }
    let ptr := { ptr with field_14 := 1 }
    let ptr := { ptr with field_10 := 1 }
    (0, { tods := wrap32 (st.tods + 1)
          dialog := fun i => if i = index then ptr else st.dialog i })

/-- The state after a sequence of `dialogStart` calls, made in order. -/
def dialogStarts (st : DialogState) (programs : List Int) : DialogState :=
  programs.foldl (fun s a1 => (dialogStart s a1).2) st

/-- The state of the dialog stack at program start: `tods == -1`, every
record zero, the memory around the array zero as well. -/
def dialogInitial : DialogState where
  tods := -1
  dialog := fun _ =>
    { field_0 := 0, field_4 := 0, field_8 := 0, field_C := 0, field_10 := 0, field_14 := 0,
      field_18 := 0 }

/-- Lines 221-228 of `sfxc_cached_read`: the count `bytesToRead`, chosen by
the signed comparison of `(int)size` with `dataSize - position`. -/
def sfxc_cached_read_count (e : SoundEffect) (size : Nat) : Nat :=
  if wrap32 (size : Int) < wrap32 (e.dataSize - e.position) then size
  else toU32 (wrap32 (e.dataSize - e.position))

/-! ## Basic facts -/

@[simp] theorem withUsed_fields (e : SoundEffect) (u : Bool) :
    (e.withUsed u).used = u ∧ (e.withUsed u).cacheHandle = e.cacheHandle ∧
    (e.withUsed u).tag = e.tag ∧ (e.withUsed u).dataSize = e.dataSize ∧
    (e.withUsed u).fileSize = e.fileSize ∧ (e.withUsed u).position = e.position ∧
    (e.withUsed u).dataPosition = e.dataPosition ∧ (e.withUsed u).data = e.data :=
  ⟨rfl, rfl, rfl, rfl, rfl, rfl, rfl, rfl⟩

@[simp] theorem withPosition_fields (e : SoundEffect) (p : Int) :
    (e.withPosition p).used = e.used ∧ (e.withPosition p).cacheHandle = e.cacheHandle ∧
    (e.withPosition p).tag = e.tag ∧ (e.withPosition p).dataSize = e.dataSize ∧
    (e.withPosition p).fileSize = e.fileSize ∧ (e.withPosition p).position = p ∧
    (e.withPosition p).dataPosition = e.dataPosition ∧ (e.withPosition p).data = e.data :=
  ⟨rfl, rfl, rfl, rfl, rfl, rfl, rfl, rfl⟩

@[simp] theorem withDataPosition_fields (e : SoundEffect) (p : Int) :
    (e.withDataPosition p).used = e.used ∧
    (e.withDataPosition p).cacheHandle = e.cacheHandle ∧
    (e.withDataPosition p).tag = e.tag ∧ (e.withDataPosition p).dataSize = e.dataSize ∧
    (e.withDataPosition p).fileSize = e.fileSize ∧ (e.withDataPosition p).position = e.position ∧
    (e.withDataPosition p).dataPosition = p ∧ (e.withDataPosition p).data = e.data :=
  ⟨rfl, rfl, rfl, rfl, rfl, rfl, rfl, rfl⟩

theorem wrap32_of_isInt32 {x : Int} (h : IsInt32 x) : wrap32 x = x := by
  unfold IsInt32 at h
  unfold wrap32
  omega

@[simp] theorem setSlot_same (st : SfxcState) (h : Int) (e : SoundEffect) :
    (st.setSlot h e).sfxc_handle_list h = e := by
  simp [SfxcState.setSlot]

theorem setSlot_other (st : SfxcState) (h i : Int) (e : SoundEffect) (hne : i ≠ h) :
    (st.setSlot h e).sfxc_handle_list i = st.sfxc_handle_list i := by
  simp [SfxcState.setSlot, hne]

@[simp] theorem setSlot_cmpr (st : SfxcState) (h : Int) (e : SoundEffect) :
    (st.setSlot h e).sfxc_cmpr = st.sfxc_cmpr := rfl

@[simp] theorem setSlot_pcache (st : SfxcState) (h : Int) (e : SoundEffect) :
    (st.setSlot h e).sfxc_pcache = st.sfxc_pcache := rfl

@[simp] theorem setSlot_files_open (st : SfxcState) (h : Int) (e : SoundEffect) :
    (st.setSlot h e).sfxc_files_open = st.sfxc_files_open := rfl

@[simp] theorem setSlot_trace (st : SfxcState) (h : Int) (e : SoundEffect) :
    (st.setSlot h e).trace = st.trace := rfl

@[simp] theorem withPcache_fields (st : SfxcState) (pins : Int → Nat) :
    (st.withPcache pins).sfxc_pcache = pins ∧
    (st.withPcache pins).sfxc_handle_list = st.sfxc_handle_list ∧
    (st.withPcache pins).sfxc_cmpr = st.sfxc_cmpr ∧
    (st.withPcache pins).sfxc_files_open = st.sfxc_files_open ∧
    (st.withPcache pins).sfxc_initialized = st.sfxc_initialized ∧
    (st.withPcache pins).trace = st.trace :=
  ⟨rfl, rfl, rfl, rfl, rfl, rfl⟩

@[simp] theorem withDlevel_fields (st : SfxcState) (level : Int) :
    (st.withDlevel level).sfxc_dlevel = level ∧
    (st.withDlevel level).sfxc_pcache = st.sfxc_pcache ∧
    (st.withDlevel level).sfxc_handle_list = st.sfxc_handle_list ∧
    (st.withDlevel level).sfxc_cmpr = st.sfxc_cmpr ∧
    (st.withDlevel level).sfxc_files_open = st.sfxc_files_open ∧
    (st.withDlevel level).sfxc_initialized = st.sfxc_initialized ∧
    (st.withDlevel level).trace = st.trace :=
  ⟨rfl, rfl, rfl, rfl, rfl, rfl, rfl⟩

@[simp] theorem withEffectPath_fields (st : SfxcState) (path : Option String) :
    (st.withEffectPath path).sfxc_effect_path = path ∧
    (st.withEffectPath path).sfxc_pcache = st.sfxc_pcache ∧
    (st.withEffectPath path).sfxc_handle_list = st.sfxc_handle_list ∧
    (st.withEffectPath path).sfxc_cmpr = st.sfxc_cmpr ∧
    (st.withEffectPath path).sfxc_dlevel = st.sfxc_dlevel ∧
    (st.withEffectPath path).sfxc_files_open = st.sfxc_files_open ∧
    (st.withEffectPath path).sfxc_initialized = st.sfxc_initialized ∧
    (st.withEffectPath path).trace = st.trace :=
  ⟨rfl, rfl, rfl, rfl, rfl, rfl, rfl, rfl⟩

@[simp] theorem withFilesOpen_fields (st : SfxcState) (count : Int) :
    (st.withFilesOpen count).sfxc_files_open = count ∧
    (st.withFilesOpen count).sfxc_pcache = st.sfxc_pcache ∧
    (st.withFilesOpen count).sfxc_handle_list = st.sfxc_handle_list ∧
    (st.withFilesOpen count).sfxc_cmpr = st.sfxc_cmpr ∧
    (st.withFilesOpen count).sfxc_initialized = st.sfxc_initialized ∧
    (st.withFilesOpen count).trace = st.trace :=
  ⟨rfl, rfl, rfl, rfl, rfl, rfl⟩

@[simp] theorem withInitialized_fields (st : SfxcState) (flag : Bool) :
    (st.withInitialized flag).sfxc_initialized = flag ∧
    (st.withInitialized flag).sfxc_pcache = st.sfxc_pcache ∧
    (st.withInitialized flag).sfxc_handle_list = st.sfxc_handle_list ∧
    (st.withInitialized flag).sfxc_cmpr = st.sfxc_cmpr ∧
    (st.withInitialized flag).sfxc_files_open = st.sfxc_files_open ∧
    (st.withInitialized flag).trace = st.trace :=
  ⟨rfl, rfl, rfl, rfl, rfl, rfl⟩

@[simp] theorem setSlot_initialized (st : SfxcState) (h : Int) (e : SoundEffect) :
    (st.setSlot h e).sfxc_initialized = st.sfxc_initialized := rfl

@[simp] theorem log_initialized (st : SfxcState) (ev : Event) :
    (st.log ev).sfxc_initialized = st.sfxc_initialized := rfl

@[simp] theorem log_list (st : SfxcState) (ev : Event) :
    (st.log ev).sfxc_handle_list = st.sfxc_handle_list := rfl

@[simp] theorem log_cmpr (st : SfxcState) (ev : Event) :
    (st.log ev).sfxc_cmpr = st.sfxc_cmpr := rfl

@[simp] theorem log_pcache (st : SfxcState) (ev : Event) :
    (st.log ev).sfxc_pcache = st.sfxc_pcache := rfl

@[simp] theorem log_files_open (st : SfxcState) (ev : Event) :
    (st.log ev).sfxc_files_open = st.sfxc_files_open := rfl

@[simp] theorem log_trace (st : SfxcState) (ev : Event) :
    (st.log ev).trace = st.trace ++ [ev] := rfl

theorem rawCursorOnly_refl (st : SfxcState) : RawCursorOnly st st :=
  ⟨rfl, rfl, rfl, rfl, rfl, rfl, fun i => ⟨(st.sfxc_handle_list i).dataPosition, rfl⟩⟩

theorem rawCursorOnly_trans {a b c : SfxcState} (hab : RawCursorOnly a b)
    (hbc : RawCursorOnly b c) : RawCursorOnly a c := by
  obtain ⟨a1, a2, a3, a4, a5, a6, a7⟩ := hab
  obtain ⟨b1, b2, b3, b4, b5, b6, b7⟩ := hbc
  refine ⟨b1.trans a1, b2.trans a2, b3.trans a3, b4.trans a4, b5.trans a5, b6.trans a6, ?_⟩
  intro i
  obtain ⟨p, hp⟩ := a7 i
  obtain ⟨q, hq⟩ := b7 i
  exact ⟨q, by rw [hq, hp]; rfl⟩

theorem rawCursorOnly_log (st : SfxcState) (ev : Event) : RawCursorOnly st (st.log ev) :=
  ⟨rfl, rfl, rfl, rfl, rfl, rfl, fun i => ⟨(st.sfxc_handle_list i).dataPosition, rfl⟩⟩

theorem rawCursorOnly_setSlot (st : SfxcState) (h : Int) (p : Int) :
    RawCursorOnly st (st.setSlot h ((st.sfxc_handle_list h).withDataPosition p)) := by
  refine ⟨rfl, rfl, rfl, rfl, rfl, rfl, fun i => ?_⟩
  by_cases hi : i = h
  · subst hi
    exact ⟨p, by simp⟩
  · exact ⟨(st.sfxc_handle_list i).dataPosition, by rw [setSlot_other _ _ _ _ hi]; rfl⟩

theorem rawCursorOnly_ad_reader (st : SfxcState) (h : Int) (buf : List UInt8) (size : Nat) :
    RawCursorOnly st (sfxc_ad_reader st h buf size).2.2 := by
  simp only [sfxc_ad_reader]
  split
  · exact rawCursorOnly_refl st
  · exact rawCursorOnly_setSlot st h _

theorem rawCursorOnly_decoderInit (env : Env) (st : SfxcState) (h : Int) :
    RawCursorOnly st (soundDecoderInit env st h).2 := by
  unfold soundDecoderInit
  exact rawCursorOnly_trans (rawCursorOnly_log st _) (rawCursorOnly_ad_reader _ _ _ _)

theorem rawCursorOnly_decoderDecode (env : Env) (st : SfxcState) (d : SoundDecoder) (n : Nat) :
    RawCursorOnly st (soundDecoderDecode env st d n).2.2.2 := by
  unfold soundDecoderDecode
  exact rawCursorOnly_ad_reader _ _ _ _

theorem rawCursorOnly_decode_block (env : Env) (st : SfxcState) (d : SoundDecoder)
    (buf : List UInt8) (n : Nat) : RawCursorOnly st (sfxc_decode_block env st d buf n).2.2 := by
  have h1 := rawCursorOnly_decoderDecode env st d n
  have h2 := rawCursorOnly_log (soundDecoderDecode env st d n).2.2.2 Event.soundDecoderFree
  simp only [sfxc_decode_block]
  split <;> exact rawCursorOnly_trans h1 h2

theorem rawCursorOnly_decode (env : Env) (st : SfxcState) (h : Int) (buf : List UInt8)
    (n : Nat) : RawCursorOnly st (sfxc_decode env st h buf n).2.2 := by
  have h0 := rawCursorOnly_setSlot st h 0
  have h1 := rawCursorOnly_decoderInit env
    (st.setSlot h ((st.sfxc_handle_list h).withDataPosition 0)) h
  have h01 := rawCursorOnly_trans h0 h1
  simp only [sfxc_decode]
  split
  · exact rawCursorOnly_refl st
  · split
    · split
      · exact rawCursorOnly_trans h01 (rawCursorOnly_log _ _)
      · split
        · exact rawCursorOnly_trans (rawCursorOnly_trans h01
            (rawCursorOnly_decoderDecode _ _ _ _)) (rawCursorOnly_log _ _)
        · exact rawCursorOnly_trans (rawCursorOnly_trans h01
            (rawCursorOnly_decoderDecode _ _ _ _)) (rawCursorOnly_decode_block _ _ _ _ _)
    · exact rawCursorOnly_trans h01 (rawCursorOnly_decode_block _ _ _ _ _)

theorem legal_iff (env : Env) (st : SfxcState) (h : Int) :
    sfxc_handle_is_legal env st h = true ↔
      h < (env.SOUND_EFFECTS_MAX_COUNT : Int) ∧ (st.sfxc_handle_list h).used = true ∧
      (st.sfxc_handle_list h).position ≤ (st.sfxc_handle_list h).dataSize ∧
      env.soundEffectsListIsValidTag (st.sfxc_handle_list h).tag = true := by
  simp only [sfxc_handle_is_legal]
  split
  · constructor
    · intro h; cases h
    · intro ⟨h1, _⟩; omega
  · split
    · constructor
      · intro h; cases h
      · intro ⟨_, h2, _⟩; simp_all
    · split
      · constructor
        · intro h; cases h
        · intro ⟨_, _, h3, _⟩; omega
      · constructor
        · intro h4; refine ⟨by omega, by simp_all, by omega, h4⟩
        · intro ⟨_, _, _, h4⟩; exact h4

theorem bytesToRead_eq (ds pos : Int) (size : Nat) (hds : IsInt32 ds) (hpos : 0 ≤ pos)
    (hlt : pos < ds) (hsmall : size < 2147483648) :
    ¬ wrap32 (ds - pos) ≤ 0 ∧
    (if wrap32 (size : Int) < wrap32 (ds - pos) then size else toU32 (wrap32 (ds - pos)))
      = min size (ds - pos).toNat := by
  unfold IsInt32 at hds
  have h1 : wrap32 (ds - pos) = ds - pos := wrap32_of_isInt32 ⟨by omega, by omega⟩
  have h2 : wrap32 (size : Int) = size := wrap32_of_isInt32 ⟨by omega, by omega⟩
  rw [h1, h2]
  refine ⟨by omega, ?_⟩
  unfold toU32
  split <;> omega

theorem sfxc_cached_read_eq (env : Env) (st : SfxcState) (handle : Int) (buf : List UInt8)
    (size : Nat) (hlegal : sfxc_handle_is_legal env st handle = true)
    (hds : IsInt32 (st.sfxc_handle_list handle).dataSize)
    (hpos : 0 ≤ (st.sfxc_handle_list handle).position)
    (hlt : (st.sfxc_handle_list handle).position < (st.sfxc_handle_list handle).dataSize)
    (hsize : 0 < size) (hsmall : size < 2147483648) :
    sfxc_cached_read env st handle buf size =
      if st.sfxc_cmpr = 0 then
        ((sfxc_cached_read_advance st handle (readCount (st.sfxc_handle_list handle) size)).1,
          memcpy buf (readMem (st.sfxc_handle_list handle).data
            (st.sfxc_handle_list handle).position (readCount (st.sfxc_handle_list handle) size)),
          (sfxc_cached_read_advance st handle (readCount (st.sfxc_handle_list handle) size)).2)
      else if st.sfxc_cmpr = 1 then
        if (sfxc_decode env st handle buf (readCount (st.sfxc_handle_list handle) size)).1 ≠ 0 then
          (-1, (sfxc_decode env st handle buf (readCount (st.sfxc_handle_list handle) size)).2.1,
            (sfxc_decode env st handle buf (readCount (st.sfxc_handle_list handle) size)).2.2)
        else
          ((sfxc_cached_read_advance
              (sfxc_decode env st handle buf (readCount (st.sfxc_handle_list handle) size)).2.2
              handle (readCount (st.sfxc_handle_list handle) size)).1,
            (sfxc_decode env st handle buf (readCount (st.sfxc_handle_list handle) size)).2.1,
            (sfxc_cached_read_advance
              (sfxc_decode env st handle buf (readCount (st.sfxc_handle_list handle) size)).2.2
              handle (readCount (st.sfxc_handle_list handle) size)).2)
      else (-1, buf, st) := by
  obtain ⟨hne, hcount⟩ := bytesToRead_eq _ _ size hds hpos hlt hsmall
  have hsz : size ≠ 0 := by omega
  simp only [sfxc_cached_read, hlegal, hsz, hne, hcount, readCount]
  simp

theorem readCount_bounds (e : SoundEffect) (size : Nat) (hds : IsInt32 e.dataSize)
    (hpos : 0 ≤ e.position) (hlt : e.position < e.dataSize) (hsize : 0 < size) :
    0 < readCount e size ∧ (readCount e size : Int) = min (size : Int) (e.dataSize - e.position) ∧
    wrap32 (readCount e size : Int) = (readCount e size : Int) ∧
    wrap32 (e.position + (readCount e size : Int)) = e.position + (readCount e size : Int) ∧
    e.position + (readCount e size : Int) ≤ e.dataSize := by
  unfold IsInt32 at hds
  have h1 : (readCount e size : Int) = min (size : Int) (e.dataSize - e.position) := by
    unfold readCount
    omega
  refine ⟨by unfold readCount; omega, h1, ?_, ?_, by omega⟩
  · exact wrap32_of_isInt32 ⟨by omega, by omega⟩
  · exact wrap32_of_isInt32 ⟨by omega, by omega⟩

theorem rawCursorOnly_slot {st st' : SfxcState} (h : RawCursorOnly st st') (i : Int) :
    (st'.sfxc_handle_list i).used = (st.sfxc_handle_list i).used ∧
    (st'.sfxc_handle_list i).cacheHandle = (st.sfxc_handle_list i).cacheHandle ∧
    (st'.sfxc_handle_list i).tag = (st.sfxc_handle_list i).tag ∧
    (st'.sfxc_handle_list i).dataSize = (st.sfxc_handle_list i).dataSize ∧
    (st'.sfxc_handle_list i).fileSize = (st.sfxc_handle_list i).fileSize ∧
    (st'.sfxc_handle_list i).position = (st.sfxc_handle_list i).position ∧
    (st'.sfxc_handle_list i).data = (st.sfxc_handle_list i).data := by
  obtain ⟨p, hp⟩ := h.2.2.2.2.2.2 i
  rw [hp]
  exact ⟨rfl, rfl, rfl, rfl, rfl, rfl, rfl⟩

theorem toU32_lt (x : Int) : toU32 x < 4294967296 := by
  unfold toU32
  omega

theorem toU32_of_nonneg {x : Int} (h0 : 0 ≤ x) (h1 : IsInt32 x) : toU32 x = x.toNat := by
  unfold IsInt32 at h1
  unfold toU32
  omega

theorem memcpy_nil (bytes : List UInt8) : memcpy [] bytes = bytes := by
  simp [memcpy]

theorem readMem_length (p : Int → UInt8) (start : Int) (n : Nat) :
    (readMem p start n).length = n := by
  simp [readMem]

theorem soundDecoderInit_pending (env : Env) (st : SfxcState) (h : Int) :
    (soundDecoderInit env
        (st.setSlot h ((st.sfxc_handle_list h).withDataPosition 0)) h).1.pending
      = decodedStream env (st.sfxc_handle_list h) := by
  have hlt := toU32_lt (st.sfxc_handle_list h).fileSize
  have hmin : (if 4294967295 ≤ toU32 (st.sfxc_handle_list h).fileSize then 4294967295
      else toU32 (st.sfxc_handle_list h).fileSize) = toU32 (st.sfxc_handle_list h).fileSize := by
    split <;> omega
  simp [soundDecoderInit, sfxc_ad_reader, decodedStream, memcpy_nil, hmin]

theorem sfxc_decode_block_result (env : Env) (st : SfxcState) (d : SoundDecoder)
    (buf : List UInt8) (n : Nat) :
    (sfxc_decode_block env st d buf n).1
        = (if (d.pending.take n).length ≠ n then -1 else 0) ∧
    (sfxc_decode_block env st d buf n).2.1 = memcpy buf (d.pending.take n) := by
  simp only [sfxc_decode_block, soundDecoderDecode]
  split <;> exact ⟨rfl, rfl⟩

/-- What `sfxc_decode` returns on a legal handle whose cursor is at `p ≥ 0`,
in terms of the decoded stream `D` of the effect: it succeeds exactly when the
scratch allocation succeeds (for `p > 0`), `D` has `p` bytes to skip and `n`
further bytes; the caller's buffer then starts with `D[p .. p+n)`. -/
theorem sfxc_decode_result (env : Env) (st : SfxcState) (h : Int) (buf : List UInt8) (n : Nat)
    (hlegal : sfxc_handle_is_legal env st h = true)
    (hp0 : 0 ≤ (st.sfxc_handle_list h).position)
    (hpi : IsInt32 (st.sfxc_handle_list h).position) :
    (sfxc_decode env st h buf n).1 =
      (if (st.sfxc_handle_list h).position = 0 then
        (if ((decodedStream env (st.sfxc_handle_list h)).take n).length ≠ n then -1 else 0)
      else if !env.internal_malloc_ok (st.sfxc_handle_list h).position.toNat then -1
      else if ((decodedStream env (st.sfxc_handle_list h)).take
          (st.sfxc_handle_list h).position.toNat).length
            ≠ (st.sfxc_handle_list h).position.toNat then -1
      else if (((decodedStream env (st.sfxc_handle_list h)).drop
          (st.sfxc_handle_list h).position.toNat).take n).length ≠ n then -1
      else 0) ∧
    ((sfxc_decode env st h buf n).1 = 0 →
      (sfxc_decode env st h buf n).2.1 =
        memcpy buf (((decodedStream env (st.sfxc_handle_list h)).drop
          (st.sfxc_handle_list h).position.toNat).take n)) := by
  have hpend := soundDecoderInit_pending env st h
  have hpos1 := (rawCursorOnly_slot (rawCursorOnly_decoderInit env
    (st.setSlot h ((st.sfxc_handle_list h).withDataPosition 0)) h) h).2.2.2.2.2.1
  rw [setSlot_same, (withDataPosition_fields _ _).2.2.2.2.2.1] at hpos1
  have hu := toU32_of_nonneg hp0 hpi
  simp only [sfxc_decode, hlegal, Bool.not_true, Bool.false_eq_true, if_false, hpos1, hu]
  generalize soundDecoderInit env
    (st.setSlot h ((st.sfxc_handle_list h).withDataPosition 0)) h = I at hpend hpos1 ⊢
  by_cases hz : (st.sfxc_handle_list h).position = 0
  · obtain ⟨b1, b2⟩ := sfxc_decode_block_result env I.2 I.1 buf n
    rw [hpend] at b1 b2
    simp only [hz, ne_eq, not_true, if_false, if_true, Int.toNat_zero, List.drop_zero]
    exact ⟨b1, fun _ => b2⟩
  · simp only [hz, ne_eq, not_false_eq_true, if_true, if_false]
    by_cases hm : env.internal_malloc_ok (st.sfxc_handle_list h).position.toNat = true
    swap
    · have hm' : (!env.internal_malloc_ok (st.sfxc_handle_list h).position.toNat) = true := by
        simpa using hm
      rw [if_pos hm', if_pos hm']
      exact ⟨rfl, fun hc => absurd (show (-1 : Int) = 0 from hc) (by decide)⟩
    · simp only [hm, Bool.not_true, Bool.false_eq_true, if_false]
      have hpos2 := (rawCursorOnly_slot (rawCursorOnly_decoderDecode env I.2 I.1
        (st.sfxc_handle_list h).position.toNat) h).2.2.2.2.2.1
      rw [hpos1] at hpos2
      have hskip : (soundDecoderDecode env I.2 I.1 (st.sfxc_handle_list h).position.toNat).1
            = ((decodedStream env (st.sfxc_handle_list h)).take
                (st.sfxc_handle_list h).position.toNat).length := by
        simp only [soundDecoderDecode]
        rw [hpend]
      have hrest : (soundDecoderDecode env I.2 I.1
          (st.sfxc_handle_list h).position.toNat).2.2.1.pending
            = (decodedStream env (st.sfxc_handle_list h)).drop
                (st.sfxc_handle_list h).position.toNat := by
        simp only [soundDecoderDecode]
        rw [hpend]
      simp only [hpos2, hu, hskip]
      generalize soundDecoderDecode env I.2 I.1 (st.sfxc_handle_list h).position.toNat = S
        at hrest ⊢
      by_cases hs : ((decodedStream env (st.sfxc_handle_list h)).take
          (st.sfxc_handle_list h).position.toNat).length
            = (st.sfxc_handle_list h).position.toNat
      swap
      · rw [if_pos hs, if_pos hs]
        exact ⟨rfl, fun hc => absurd (show (-1 : Int) = 0 from hc) (by decide)⟩
      · rw [if_neg (not_not.mpr hs), if_neg (not_not.mpr hs)]
        obtain ⟨b1, b2⟩ := sfxc_decode_block_result env S.2.2.2 S.2.2.1 buf n
        rw [hrest] at b1 b2
        exact ⟨b1, fun _ => b2⟩

theorem delivered_memcpy (n : Nat) (buf bytes : List UInt8) (st : SfxcState)
    (hlen : bytes.length = n) : delivered ((n : Int), memcpy buf bytes, st) = bytes := by
  subst hlen
  simp [delivered, memcpy]

theorem readMem_append (p : Int → UInt8) (start : Int) (a b : Nat) :
    readMem p start a ++ readMem p (start + a) b = readMem p start (a + b) := by
  simp only [readMem, List.range_add, List.map_append, List.map_map]
  congr 1
  apply List.map_congr_left
  intro i _
  simp [Int.add_assoc]

/-- A read of `n` bytes that fit before the end of the decoded data, on a
legal handle: it returns `n`, delivers the `n` bytes at the cursor (raw bytes
in uncompressed mode, decoded bytes in compressed mode when the decoder has
them and the scratch allocation succeeds) and leaves a legal handle whose
cursor moved by `n`. -/
theorem sfxc_cached_read_exact (env : Env) (st : SfxcState) (h : Int) (buf : List UInt8)
    (n : Nat) (hlegal : sfxc_handle_is_legal env st h = true)
    (hp0 : 0 ≤ (st.sfxc_handle_list h).position)
    (hds : IsInt32 (st.sfxc_handle_list h).dataSize)
    (hfit : (st.sfxc_handle_list h).position + (n : Int) ≤ (st.sfxc_handle_list h).dataSize)
    (hmode : st.sfxc_cmpr = 0 ∨ (st.sfxc_cmpr = 1 ∧
      (st.sfxc_handle_list h).position.toNat + n
        ≤ (decodedStream env (st.sfxc_handle_list h)).length ∧
      (0 < (st.sfxc_handle_list h).position → 0 < n →
        env.internal_malloc_ok (st.sfxc_handle_list h).position.toNat = true))) :
    (sfxc_cached_read env st h buf n).1 = (n : Int) ∧
    delivered (sfxc_cached_read env st h buf n) =
      (if st.sfxc_cmpr = 0 then
        readMem (st.sfxc_handle_list h).data (st.sfxc_handle_list h).position n
      else ((decodedStream env (st.sfxc_handle_list h)).drop
        (st.sfxc_handle_list h).position.toNat).take n) ∧
    sfxc_handle_is_legal env (sfxc_cached_read env st h buf n).2.2 h = true ∧
    ((sfxc_cached_read env st h buf n).2.2.sfxc_handle_list h).position
      = (st.sfxc_handle_list h).position + (n : Int) ∧
    ((sfxc_cached_read env st h buf n).2.2.sfxc_handle_list h).dataSize
      = (st.sfxc_handle_list h).dataSize ∧
    ((sfxc_cached_read env st h buf n).2.2.sfxc_handle_list h).fileSize
      = (st.sfxc_handle_list h).fileSize ∧
    ((sfxc_cached_read env st h buf n).2.2.sfxc_handle_list h).data
      = (st.sfxc_handle_list h).data ∧
    (sfxc_cached_read env st h buf n).2.2.sfxc_cmpr = st.sfxc_cmpr := by
  by_cases hn : n = 0
  · subst hn
    have hr : sfxc_cached_read env st h buf 0 = (0, buf, st) := by
      simp [sfxc_cached_read, hlegal]
    rw [hr]
    refine ⟨rfl, ?_, hlegal, by simp, rfl, rfl, rfl, rfl⟩
    simp [delivered, readMem]
  have hn0 : 0 < n := Nat.pos_of_ne_zero hn
  have hlt : (st.sfxc_handle_list h).position < (st.sfxc_handle_list h).dataSize := by omega
  have hsmall : n < 2147483648 := by
    unfold IsInt32 at hds
    omega
  obtain ⟨-, hc1, hc2, hc3, -⟩ := readCount_bounds (st.sfxc_handle_list h) n hds hp0 hlt hn0
  have hcount : readCount (st.sfxc_handle_list h) n = n := by omega
  rw [hcount] at hc2 hc3
  obtain ⟨l1, l2, l3, l4⟩ := (legal_iff env st h).mp hlegal
  have hform := sfxc_cached_read_eq env st h buf n hlegal hds hp0 hlt hn0 hsmall
  rw [hcount] at hform
  rcases hmode with h0 | ⟨h1, hD, hmalloc⟩
  · rw [if_pos h0] at hform
    simp only [sfxc_cached_read_advance, hc2, hc3] at hform
    rw [hform, if_pos h0]
    refine ⟨rfl, delivered_memcpy n _ _ _ (readMem_length _ _ _), ?_, by simp, by simp,
      by simp, by simp, rfl⟩
    rw [legal_iff]
    simp only [setSlot_same, withPosition_fields]
    exact ⟨l1, l2, hfit, l4⟩
  · have h10 : ¬ st.sfxc_cmpr = 0 := by omega
    have hpi : IsInt32 (st.sfxc_handle_list h).position := by
      unfold IsInt32 at hds ⊢
      omega
    obtain ⟨d1, d2⟩ := sfxc_decode_result env st h buf n hlegal hp0 hpi
    have hraw := rawCursorOnly_decode env st h buf n
    obtain ⟨r1, -, r3, r4, r5, r6, r7⟩ := rawCursorOnly_slot hraw h
    have hlen1 : ((decodedStream env (st.sfxc_handle_list h)).take
        (st.sfxc_handle_list h).position.toNat).length
          = (st.sfxc_handle_list h).position.toNat := by
      rw [List.length_take]; omega
    have hlen2 : (((decodedStream env (st.sfxc_handle_list h)).drop
        (st.sfxc_handle_list h).position.toNat).take n).length = n := by
      rw [List.length_take, List.length_drop]; omega
    have hok : (sfxc_decode env st h buf n).1 = 0 := by
      rw [d1]
      by_cases hz : (st.sfxc_handle_list h).position = 0
      · rw [if_pos hz]
        have hlen3 : ((decodedStream env (st.sfxc_handle_list h)).take n).length = n := by
          rw [List.length_take]; omega
        rw [if_neg (not_not.mpr hlen3)]
      · rw [if_neg hz]
        have hm := hmalloc (by omega) hn0
        rw [hm, if_neg (by simp), if_neg (not_not.mpr hlen1), if_neg (not_not.mpr hlen2)]
    rw [if_neg h10, if_pos h1, if_neg (not_not.mpr hok)] at hform
    simp only [sfxc_cached_read_advance, hc2, r6, hc3, d2 hok] at hform
    rw [hform, if_neg h10]
    refine ⟨rfl, delivered_memcpy n _ _ _ hlen2, ?_, by simp, by simp [r4],
      by simp [r5], by simp [r7], hraw.2.1⟩
    rw [legal_iff]
    simp only [setSlot_same, withPosition_fields, r1, r3, r4]
    exact ⟨l1, l2, hfit, l4⟩

/-- Whatever the arguments, a read changes neither the compression mode nor
the size, raw size and raw bytes of the slot it is called on. -/
theorem sfxc_cached_read_frame (env : Env) (st : SfxcState) (handle : Int) (buf : List UInt8)
    (size : Nat) :
    (sfxc_cached_read env st handle buf size).2.2.sfxc_cmpr = st.sfxc_cmpr ∧
    ((sfxc_cached_read env st handle buf size).2.2.sfxc_handle_list handle).dataSize
      = (st.sfxc_handle_list handle).dataSize ∧
    ((sfxc_cached_read env st handle buf size).2.2.sfxc_handle_list handle).fileSize
      = (st.sfxc_handle_list handle).fileSize ∧
    ((sfxc_cached_read env st handle buf size).2.2.sfxc_handle_list handle).data
      = (st.sfxc_handle_list handle).data := by
  simp only [sfxc_cached_read]
  split
  · exact ⟨rfl, rfl, rfl, rfl⟩
  split
  · exact ⟨rfl, rfl, rfl, rfl⟩
  split
  · exact ⟨rfl, rfl, rfl, rfl⟩
  generalize (if wrap32 (size : Int) < wrap32 ((st.sfxc_handle_list handle).dataSize -
      (st.sfxc_handle_list handle).position) then size
    else toU32 (wrap32 ((st.sfxc_handle_list handle).dataSize -
      (st.sfxc_handle_list handle).position))) = n
  by_cases h0 : st.sfxc_cmpr = 0
  · rw [if_pos h0]
    simp only [sfxc_cached_read_advance, setSlot_same, setSlot_cmpr, withPosition_fields]
    exact ⟨trivial, trivial, trivial, trivial⟩
  rw [if_neg h0]
  by_cases h1 : st.sfxc_cmpr = 1
  · rw [if_pos h1]
    have hraw := rawCursorOnly_decode env st handle buf n
    obtain ⟨-, -, -, r4, r5, -, r7⟩ := rawCursorOnly_slot hraw handle
    by_cases hd : (sfxc_decode env st handle buf n).1 ≠ 0
    · rw [if_pos hd]
      exact ⟨hraw.2.1, r4, r5, r7⟩
    · rw [if_neg hd]
      simp only [sfxc_cached_read_advance, setSlot_same, setSlot_cmpr, withPosition_fields]
      exact ⟨hraw.2.1, r4, r5, r7⟩
  · rw [if_neg h1]
    exact ⟨rfl, rfl, rfl, rfl⟩

/-- In compressed mode a request of `2^31` bytes or more, on an effect whose
decoded stream is shorter than that, makes the read fail and leaves the
position where it was. -/
theorem sfxc_cached_read_huge_compressed (env : Env) (st : SfxcState) (handle : Int)
    (buf : List UInt8) (size : Nat)
    (hlegal : sfxc_handle_is_legal env st handle = true)
    (hds : IsInt32 (st.sfxc_handle_list handle).dataSize)
    (hpos : 0 ≤ (st.sfxc_handle_list handle).position)
    (hlt : (st.sfxc_handle_list handle).position < (st.sfxc_handle_list handle).dataSize)
    (hbig : 2147483648 ≤ size) (hu32 : size < 4294967296)
    (hmode : st.sfxc_cmpr = 1)
    (hstream : (decodedStream env (st.sfxc_handle_list handle)).length < 2147483648) :
    (sfxc_cached_read env st handle buf size).1 = -1 ∧
    ((sfxc_cached_read env st handle buf size).2.2.sfxc_handle_list handle).position
      = (st.sfxc_handle_list handle).position := by
  have hrem : wrap32 ((st.sfxc_handle_list handle).dataSize - (st.sfxc_handle_list handle).position)
      = (st.sfxc_handle_list handle).dataSize - (st.sfxc_handle_list handle).position := by
    unfold IsInt32 at hds
    exact wrap32_of_isInt32 ⟨by omega, by omega⟩
  have hsz : wrap32 (size : Int) < (st.sfxc_handle_list handle).dataSize
      - (st.sfxc_handle_list handle).position := by
    unfold wrap32
    omega
  have hne : ¬ (st.sfxc_handle_list handle).dataSize - (st.sfxc_handle_list handle).position ≤ 0 := by
    omega
  have hs0 : size ≠ 0 := by omega
  have hpi : IsInt32 (st.sfxc_handle_list handle).position := by
    unfold IsInt32 at hds ⊢
    omega
  obtain ⟨d1, -⟩ := sfxc_decode_result env st handle buf size hlegal hpos hpi
  have hfail : (sfxc_decode env st handle buf size).1 = -1 := by
    rw [d1]
    have t1 : ((decodedStream env (st.sfxc_handle_list handle)).take size).length ≠ size := by
      rw [List.length_take]; omega
    have t2 : (((decodedStream env (st.sfxc_handle_list handle)).drop
        (st.sfxc_handle_list handle).position.toNat).take size).length ≠ size := by
      rw [List.length_take, List.length_drop]; omega
    by_cases hz : (st.sfxc_handle_list handle).position = 0
    · rw [if_pos hz, if_pos t1]
    · rw [if_neg hz]
      by_cases hm : (!env.internal_malloc_ok (st.sfxc_handle_list handle).position.toNat) = true
      · rw [if_pos hm]
      · rw [if_neg hm]
        by_cases hk : ((decodedStream env (st.sfxc_handle_list handle)).take
            (st.sfxc_handle_list handle).position.toNat).length
              ≠ (st.sfxc_handle_list handle).position.toNat
        · rw [if_pos hk]
        · rw [if_neg hk, if_pos t2]
  have hne0 : (sfxc_decode env st handle buf size).1 ≠ 0 := by rw [hfail]; decide
  have hr : sfxc_cached_read env st handle buf size
      = (-1, (sfxc_decode env st handle buf size).2.1, (sfxc_decode env st handle buf size).2.2) := by
    simp only [sfxc_cached_read, hlegal, hs0, hrem, hsz, hne, hmode, hne0]
    simp
    intro hc
    exact absurd hc hne0
  rw [hr]
  exact ⟨rfl, (rawCursorOnly_slot (rawCursorOnly_decode env st handle buf size) handle).2.2.2.2.2.1⟩

theorem sfxc_cached_read_bounds (env : Env) (st : SfxcState) (handle : Int) (buf : List UInt8)
    (size : Nat) (hds : IsInt32 (st.sfxc_handle_list handle).dataSize)
    (hpos : 0 ≤ (st.sfxc_handle_list handle).position)
    (hle : (st.sfxc_handle_list handle).position ≤ (st.sfxc_handle_list handle).dataSize)
    (hok : ReadSizeOk env st handle size) :
    (st.sfxc_handle_list handle).position
        ≤ ((sfxc_cached_read env st handle buf size).2.2.sfxc_handle_list handle).position ∧
    ((sfxc_cached_read env st handle buf size).2.2.sfxc_handle_list handle).position
        ≤ (st.sfxc_handle_list handle).dataSize := by
  by_cases hlegal : sfxc_handle_is_legal env st handle = true
  swap
  · have : (sfxc_cached_read env st handle buf size) = (-1, buf, st) := by
      simp [sfxc_cached_read, hlegal]
    rw [this]; exact ⟨le_refl _, hle⟩
  by_cases hsize : size = 0
  · have : (sfxc_cached_read env st handle buf size) = (0, buf, st) := by
      simp [sfxc_cached_read, hlegal, hsize]
    rw [this]; exact ⟨le_refl _, hle⟩
  by_cases hlt : (st.sfxc_handle_list handle).position < (st.sfxc_handle_list handle).dataSize
  swap
  · have heq : (st.sfxc_handle_list handle).dataSize - (st.sfxc_handle_list handle).position = 0 := by
      omega
    have : (sfxc_cached_read env st handle buf size) = (0, buf, st) := by
      simp [sfxc_cached_read, hlegal, hsize, heq, wrap32]
    rw [this]; exact ⟨le_refl _, hle⟩
  by_cases hsmall : size < 2147483648
  swap
  · obtain ⟨hu32, hcase⟩ := hok
    rcases hcase with hc | ⟨hmode, hstream⟩
    · exact absurd hc hsmall
    · obtain ⟨-, hp⟩ := sfxc_cached_read_huge_compressed env st handle buf size hlegal hds hpos
        hlt (by omega) hu32 hmode hstream
      rw [hp]
      exact ⟨le_refl _, hle⟩
  obtain ⟨hc0, -, -, hc3, hc4⟩ :=
    readCount_bounds (st.sfxc_handle_list handle) size hds hpos hlt (by omega)
  rw [sfxc_cached_read_eq env st handle buf size hlegal hds hpos hlt (by omega) hsmall]
  split
  · simp only [sfxc_cached_read_advance, setSlot_same, withPosition_fields, hc3]
    exact ⟨by omega, hc4⟩
  · split
    · obtain ⟨-, -, -, r4, -, r6, -⟩ :=
        rawCursorOnly_slot (rawCursorOnly_decode env st handle buf
          (readCount (st.sfxc_handle_list handle) size)) handle
      split
      · simp only [r4, r6]
        exact ⟨le_refl _, hle⟩
      · simp only [sfxc_cached_read_advance, setSlot_same, withPosition_fields, r4, r6, hc3]
        exact ⟨by omega, hc4⟩
    · exact ⟨le_refl _, hle⟩

theorem sfxc_cached_read_seq_bounds (env : Env) (handle : Int)
    (reads : List (List UInt8 × Nat)) :
    ∀ st : SfxcState, IsInt32 (st.sfxc_handle_list handle).dataSize →
      0 ≤ (st.sfxc_handle_list handle).position →
      (st.sfxc_handle_list handle).position ≤ (st.sfxc_handle_list handle).dataSize →
      (∀ r ∈ reads, ReadSizeOk env st handle r.2) →
      ((sfxc_cached_read_seq env st handle reads).sfxc_handle_list handle).dataSize
          = (st.sfxc_handle_list handle).dataSize ∧
      (st.sfxc_handle_list handle).position
          ≤ ((sfxc_cached_read_seq env st handle reads).sfxc_handle_list handle).position ∧
      ((sfxc_cached_read_seq env st handle reads).sfxc_handle_list handle).position
          ≤ (st.sfxc_handle_list handle).dataSize := by
  induction reads with
  | nil => intro st _ _ hle _; exact ⟨rfl, le_refl _, hle⟩
  | cons r rest ih =>
    intro st hds hpos hle hall
    obtain ⟨b2, b3⟩ := sfxc_cached_read_bounds env st handle r.1 r.2 hds hpos hle
      (hall r (List.mem_cons_self _ _))
    obtain ⟨f1, f2, f3, f4⟩ := sfxc_cached_read_frame env st handle r.1 r.2
    obtain ⟨c1, c2, c3⟩ := ih (sfxc_cached_read env st handle r.1 r.2).2.2
      (by rw [f2]; exact hds) (by omega) (by rw [f2]; exact b3)
      (fun x hx => by
        have := hall x (List.mem_cons_of_mem _ hx)
        unfold ReadSizeOk decodedStream at this ⊢
        rw [f1, f3, f4]
        exact this)
    simp only [sfxc_cached_read_seq]
    rw [f2] at c1 c3
    exact ⟨c1, by omega, c3⟩

/-- Reads whose request is clamped (supports C1): for a legal handle with
`0 ≤ position < dataSize` and a requested size `> 0` that is below `2^31`, or
is any unsigned 32-bit value in compressed mode when the decoded stream has
fewer than `2^31` bytes, a read
that does not fail returns exactly `min(size, dataSize - position)` and
advances `position` by the returned count, without passing `dataSize`; for a
size below `2^31` the read does not fail in uncompressed mode and fails in
compressed mode exactly when the decode procedure does; and after any sequence
of reads with such sizes the position is still at most `dataSize`. -/
theorem sfxc_cached_read_returns_clamped_count (env : Env) (st : SfxcState) (handle : Int)
    (buf : List UInt8) (size : Nat)
    (hlegal : sfxc_handle_is_legal env st handle = true)
    (hds : IsInt32 (st.sfxc_handle_list handle).dataSize)
    (hpos : 0 ≤ (st.sfxc_handle_list handle).position)
    (hlt : (st.sfxc_handle_list handle).position < (st.sfxc_handle_list handle).dataSize)
    (hsize : 0 < size) (hok : ReadSizeOk env st handle size) :
    ((sfxc_cached_read env st handle buf size).1 ≠ -1 →
      (sfxc_cached_read env st handle buf size).1
          = min (size : Int)
              ((st.sfxc_handle_list handle).dataSize - (st.sfxc_handle_list handle).position) ∧
      ((sfxc_cached_read env st handle buf size).2.2.sfxc_handle_list handle).position
          = (st.sfxc_handle_list handle).position + (sfxc_cached_read env st handle buf size).1 ∧
      ((sfxc_cached_read env st handle buf size).2.2.sfxc_handle_list handle).position
          ≤ (st.sfxc_handle_list handle).dataSize) ∧
    (st.sfxc_cmpr = 0 → (sfxc_cached_read env st handle buf size).1 ≠ -1) ∧
    (st.sfxc_cmpr = 1 → size < 2147483648 →
      ((sfxc_cached_read env st handle buf size).1 ≠ -1 ↔
        (sfxc_decode env st handle buf (readCount (st.sfxc_handle_list handle) size)).1 = 0)) ∧
    (∀ reads : List (List UInt8 × Nat), (∀ r ∈ reads, ReadSizeOk env st handle r.2) →
      ((sfxc_cached_read_seq env st handle reads).sfxc_handle_list handle).position
          ≤ (st.sfxc_handle_list handle).dataSize) := by
  have hseq : ∀ reads : List (List UInt8 × Nat), (∀ r ∈ reads, ReadSizeOk env st handle r.2) →
      ((sfxc_cached_read_seq env st handle reads).sfxc_handle_list handle).position
          ≤ (st.sfxc_handle_list handle).dataSize := fun reads hall =>
    (sfxc_cached_read_seq_bounds env handle reads st hds hpos (le_of_lt hlt) hall).2.2
  by_cases hsmall : size < 2147483648
  swap
  · obtain ⟨hu32, hcase⟩ := hok
    rcases hcase with hc | ⟨hmode, hstream⟩
    · exact absurd hc hsmall
    · obtain ⟨hf, -⟩ := sfxc_cached_read_huge_compressed env st handle buf size hlegal hds hpos
        hlt (by omega) hu32 hmode hstream
      exact ⟨fun hc => absurd hf hc, fun h0 => absurd h0 (by omega),
        fun _ hc => absurd hc hsmall, hseq⟩
  obtain ⟨hc0, hc1, hc2, hc3, hc4⟩ :=
    readCount_bounds (st.sfxc_handle_list handle) size hds hpos hlt hsize
  have hcpos : (0 : Int) < (readCount (st.sfxc_handle_list handle) size : Int) := by omega
  obtain ⟨-, -, -, -, -, r6, -⟩ :=
    rawCursorOnly_slot (rawCursorOnly_decode env st handle buf
      (readCount (st.sfxc_handle_list handle) size)) handle
  rw [sfxc_cached_read_eq env st handle buf size hlegal hds hpos hlt hsize hsmall]
  refine ⟨?_, ?_, ?_, hseq⟩
  · split
    · intro _
      simp only [sfxc_cached_read_advance, setSlot_same, withPosition_fields, hc2, hc3]
      exact ⟨hc1, trivial, hc4⟩
    · split
      · split
        · intro h; exact absurd rfl h
        · intro _
          simp only [sfxc_cached_read_advance, setSlot_same, withPosition_fields, hc2, r6, hc3]
          exact ⟨hc1, trivial, hc4⟩
      · intro h; exact absurd rfl h
  · intro h0
    rw [if_pos h0]
    dsimp only [sfxc_cached_read_advance]
    rw [hc2]
    omega
  · intro h1 _
    have h10 : ¬ st.sfxc_cmpr = 0 := by omega
    rw [if_neg h10, if_pos h1]
    by_cases hd : (sfxc_decode env st handle buf (readCount (st.sfxc_handle_list handle) size)).1 = 0
    · rw [if_neg (not_not.mpr hd)]
      dsimp only [sfxc_cached_read_advance]
      rw [hc2]
      exact ⟨fun _ => hd, fun _ => by omega⟩
    · rw [if_pos hd]
      exact ⟨fun h => absurd rfl h, fun h => absurd h hd⟩

theorem sfxc_cached_read_returns_clamped_count_witness :
    (sfxc_cached_read (demoEnv true) (demoState 1 4) 0 [] 3).1 = (3 : Int) ∧
    ((sfxc_cached_read (demoEnv true) (demoState 1 4) 0 [] 3).2.2.sfxc_handle_list 0).position
      = 7 := by
  have h := sfxc_cached_read_returns_clamped_count (demoEnv true) (demoState 1 4) 0 [] 3
    (by decide) (by decide) (by decide) (by decide) (by decide)
    ⟨by decide, Or.inl (by decide)⟩
  have h0 : (sfxc_cached_read (demoEnv true) (demoState 1 4) 0 [] 3).1 ≠ -1 :=
    (h.2.2.1 rfl (by decide)).mpr (by decide)
  obtain ⟨h1, h2, -⟩ := h.1 h0
  constructor
  · rw [h1]; decide
  · rw [h2, h1]; decide

/-- C2 (amended): on a legal handle at position 0 of an effect of decoded size
`N`, for every `k ≤ N`, reading `k` bytes and then `N - k` bytes succeeds with
counts `k` and `N - k`, a single read of `N` bytes succeeds with count `N`, and
the bytes of the two chunks, concatenated, are the bytes of the single read:
unconditionally in uncompressed mode (the raw bytes `data[0 .. N)`); in
compressed mode when the decoder's stream has at least `N` bytes and the
scratch allocation of the second read (made when `0 < k < N`) succeeds (the
first `N` bytes of the decoded stream). -/
theorem sfxc_cached_read_two_chunks (env : Env) (st : SfxcState) (h : Int)
    (b1 b2 b : List UInt8) (k N : Nat)
    (hlegal : sfxc_handle_is_legal env st h = true)
    (hpos : (st.sfxc_handle_list h).position = 0)
    (hN : (st.sfxc_handle_list h).dataSize = (N : Int))
    (hds : IsInt32 (st.sfxc_handle_list h).dataSize)
    (hk : k ≤ N)
    (hmode : st.sfxc_cmpr = 0 ∨ (st.sfxc_cmpr = 1 ∧
      N ≤ (decodedStream env (st.sfxc_handle_list h)).length ∧
      (0 < k → k < N → env.internal_malloc_ok k = true))) :
    (sfxc_cached_read env st h b1 k).1 = (k : Int) ∧
    (sfxc_cached_read env (sfxc_cached_read env st h b1 k).2.2 h b2 (N - k)).1
      = ((N - k : Nat) : Int) ∧
    (sfxc_cached_read env st h b N).1 = (N : Int) ∧
    delivered (sfxc_cached_read env st h b1 k) ++
        delivered (sfxc_cached_read env (sfxc_cached_read env st h b1 k).2.2 h b2 (N - k))
      = delivered (sfxc_cached_read env st h b N) ∧
    delivered (sfxc_cached_read env st h b N) =
      (if st.sfxc_cmpr = 0 then readMem (st.sfxc_handle_list h).data 0 N
       else (decodedStream env (st.sfxc_handle_list h)).take N) := by
  have hp0 : 0 ≤ (st.sfxc_handle_list h).position := by omega
  have hp00 : (st.sfxc_handle_list h).position.toNat = 0 := by omega
  -- the single read
  obtain ⟨s1, s2, -⟩ := sfxc_cached_read_exact env st h b N hlegal hp0 hds (by omega)
    (by
      rcases hmode with h0 | ⟨h1, hD, -⟩
      · exact Or.inl h0
      · exact Or.inr ⟨h1, by omega, fun hc => absurd hc (by omega)⟩)
  -- the first chunk
  obtain ⟨f1, f2, f3, f4, f5, f6, f7, f8⟩ :=
    sfxc_cached_read_exact env st h b1 k hlegal hp0 hds (by omega)
      (by
        rcases hmode with h0 | ⟨h1, hD, -⟩
        · exact Or.inl h0
        · exact Or.inr ⟨h1, by omega, fun hc => absurd hc (by omega)⟩)
  -- the second chunk
  have hstream : decodedStream env
      ((sfxc_cached_read env st h b1 k).2.2.sfxc_handle_list h)
        = decodedStream env (st.sfxc_handle_list h) := by
    simp only [decodedStream, f6, f7]
  have hp1 : ((sfxc_cached_read env st h b1 k).2.2.sfxc_handle_list h).position.toNat = k := by
    rw [f4]; omega
  obtain ⟨g1, g2, -⟩ :=
    sfxc_cached_read_exact env (sfxc_cached_read env st h b1 k).2.2 h b2 (N - k) f3
      (by rw [f4]; omega) (by rw [f5]; exact hds) (by rw [f4, f5]; omega)
      (by
        rw [f8, hstream, hp1]
        rcases hmode with h0 | ⟨h1, hD, hm⟩
        · exact Or.inl h0
        · exact Or.inr ⟨h1, by omega, fun hc hc2 => hm (by rw [f4] at hc; omega) (by omega)⟩)
  rw [f8, hstream, hp1, f7, f4, hpos] at g2
  rw [hpos] at f2 s2
  simp only [Int.toNat_zero, List.drop_zero, zero_add] at f2 s2 g2
  refine ⟨f1, g1, s1, ?_, ?_⟩
  · rw [f2, g2, s2]
    by_cases h0 : st.sfxc_cmpr = 0
    · rw [if_pos h0, if_pos h0, if_pos h0]
      have := readMem_append (st.sfxc_handle_list h).data 0 k (N - k)
      rw [show k + (N - k) = N by omega, zero_add] at this
      exact this
    · rw [if_neg h0, if_neg h0, if_neg h0]
      rw [← List.take_add, show k + (N - k) = N by omega]
  · rw [s2]

theorem sfxc_cached_read_two_chunks_witness :
    (sfxc_cached_read (demoEnv true) (demoState 1 0) 0 [] 4).1 = 4 ∧
    delivered (sfxc_cached_read (demoEnv true) (demoState 1 0) 0 [] 4) ++
        delivered (sfxc_cached_read (demoEnv true)
          (sfxc_cached_read (demoEnv true) (demoState 1 0) 0 [] 4).2.2 0 [] (10 - 4))
      = delivered (sfxc_cached_read (demoEnv true) (demoState 1 0) 0 [] 10) := by
  have h := sfxc_cached_read_two_chunks (demoEnv true) (demoState 1 0) 0 [] [] [] 4 10
    (by decide) (by decide) (by decide) (by decide) (by decide)
    (Or.inr ⟨by decide, by decide, fun _ _ => rfl⟩)
  exact ⟨h.1, h.2.2.2.1⟩

/-- C2 (as stated) fails in compressed mode when the scratch allocation of the
second read fails: on a legal handle at position 0 of an effect of decoded
size 10 (the decoder's stream has 10 bytes), a single read of 10 bytes returns
10, while reading 4 bytes returns 4 and the following read of 6 bytes returns
-1 and delivers nothing. -/
theorem sfxc_cached_read_two_chunks_scratch_failure :
    sfxc_handle_is_legal (demoEnv false) (demoState 1 0) 0 = true ∧
    ((demoState 1 0).sfxc_handle_list 0).position = 0 ∧
    ((demoState 1 0).sfxc_handle_list 0).dataSize = 10 ∧
    (decodedStream (demoEnv false) ((demoState 1 0).sfxc_handle_list 0)).length = 10 ∧
    (sfxc_cached_read (demoEnv false) (demoState 1 0) 0 [] 10).1 = 10 ∧
    (sfxc_cached_read (demoEnv false) (demoState 1 0) 0 [] 4).1 = 4 ∧
    (sfxc_cached_read (demoEnv false)
      (sfxc_cached_read (demoEnv false) (demoState 1 0) 0 [] 4).2.2 0 [] 6).1 = -1 ∧
    delivered (sfxc_cached_read (demoEnv false) (demoState 1 0) 0 [] 4) ++
        delivered (sfxc_cached_read (demoEnv false)
          (sfxc_cached_read (demoEnv false) (demoState 1 0) 0 [] 4).2.2 0 [] 6)
      ≠ delivered (sfxc_cached_read (demoEnv false) (demoState 1 0) 0 [] 10) := by
  decide

/-- C3: the code at a forward seek from the end.  On a legal handle at
position 4 of 10 decoded bytes, `sfxc_cached_seek(h, 3, SEEK_END)` returns 13
and stores position 13, which exceeds `dataSize`; the handle is no longer
legal afterwards. -/
theorem sfxc_cached_seek_end_forward_passes_dataSize :
    sfxc_handle_is_legal (demoEnv true) (demoState 1 4) 0 = true ∧
    (sfxc_cached_seek (demoEnv true) (demoState 1 4) 0 3 SEEK_END).map
      (fun r => (r.1, (r.2.sfxc_handle_list 0).position, (r.2.sfxc_handle_list 0).dataSize,
        sfxc_handle_is_legal (demoEnv true) r.2 0))
      = some (13, 13, 10, false) := by
  decide

/-- C4: the code at a large forward seek from the start.  On a legal handle at
position 4 of 10 decoded bytes, `sfxc_cached_seek(h, 100, SEEK_SET)` returns 6
(the bytes that remained after the old position) and stores position 6, not
`dataSize = 10`. -/
theorem sfxc_cached_seek_set_large_offset_short :
    sfxc_handle_is_legal (demoEnv true) (demoState 1 4) 0 = true ∧
    (sfxc_cached_seek (demoEnv true) (demoState 1 4) 0 100 SEEK_SET).map
      (fun r => (r.1, (r.2.sfxc_handle_list 0).position, (r.2.sfxc_handle_list 0).dataSize))
      = some (6, 6, 10) := by
  decide

/-- C5: the code at the minimum offset.  On a legal handle at position 4 of 10
decoded bytes, `sfxc_cached_seek(h, -2147483648, SEEK_SET)` does not return -1:
the magnitude wraps to a negative number, the bound check passes, and the
call returns `-2147483648` and stores it as the position. -/
theorem sfxc_cached_seek_minimum_offset_accepted :
    sfxc_handle_is_legal (demoEnv true) (demoState 1 4) 0 = true ∧
    (sfxc_cached_seek (demoEnv true) (demoState 1 4) 0 (-2147483648) SEEK_SET).map
      (fun r => (r.1, (r.2.sfxc_handle_list 0).position))
      = some (-2147483648, -2147483648) := by
  decide

/-- The base position `sfxc_cached_seek` selects for an origin. -/
theorem seek_base_cases (origin : Int)
    (horigin : origin = SEEK_SET ∨ origin = SEEK_CUR ∨ origin = SEEK_END) (e : SoundEffect) :
    (if origin = SEEK_SET then some (0 : Int)
      else if origin = SEEK_CUR then some e.position
      else if origin = SEEK_END then some e.dataSize
      else none) = some (seekBase e origin) := by
  rcases horigin with h | h | h <;> subst h <;> simp [seekBase, SEEK_SET, SEEK_CUR, SEEK_END]

/-- Backward seeks with an offset above the minimum (supports C5): for a
legal handle, each of the three origins and `-2^31 < offset < 0`, the seek
returns -1 and changes nothing when `|offset|` exceeds the base position, and
otherwise stores and returns `base - |offset|`. -/
theorem sfxc_cached_seek_backward (env : Env) (st : SfxcState) (h : Int) (offset origin : Int)
    (hlegal : sfxc_handle_is_legal env st h = true)
    (horigin : origin = SEEK_SET ∨ origin = SEEK_CUR ∨ origin = SEEK_END)
    (hbase : IsInt32 (seekBase (st.sfxc_handle_list h) origin))
    (hneg : offset < 0) (hmin : -2147483648 < offset) :
    sfxc_cached_seek env st h offset origin =
      (if -offset > seekBase (st.sfxc_handle_list h) origin then some (-1, st)
       else some (seekBase (st.sfxc_handle_list h) origin + offset,
        st.setSlot h ((st.sfxc_handle_list h).withPosition
          (seekBase (st.sfxc_handle_list h) origin + offset)))) := by
  have habs : abs32 offset = -offset := by
    unfold abs32
    rw [if_pos hneg]
    exact wrap32_of_isInt32 ⟨by omega, by omega⟩
  have hnot : ¬ offset ≥ 0 := by omega
  simp only [sfxc_cached_seek, hlegal, Bool.not_true, Bool.false_eq_true, if_false,
    seek_base_cases origin horigin, habs, hnot]
  by_cases hgt : -offset > seekBase (st.sfxc_handle_list h) origin
  · rw [if_pos hgt, if_pos hgt]
  · rw [if_neg hgt, if_neg hgt]
    have hw : wrap32 (seekBase (st.sfxc_handle_list h) origin - -offset)
        = seekBase (st.sfxc_handle_list h) origin + offset := by
      unfold IsInt32 at hbase
      rw [wrap32_of_isInt32 ⟨by omega, by omega⟩]
      omega
    rw [hw]

/-- Forward seeks (supports C3 and C4): for a legal handle with
`0 ≤ position ≤ dataSize`, each of the three origins and `0 ≤ offset < 2^31`,
the seek stores and returns `base + min(offset, dataSize - position)` (wrapped
to 32 bits): the clamp is taken against the bytes after the current position,
whatever the origin. -/
theorem sfxc_cached_seek_forward (env : Env) (st : SfxcState) (h : Int) (offset origin : Int)
    (hlegal : sfxc_handle_is_legal env st h = true)
    (horigin : origin = SEEK_SET ∨ origin = SEEK_CUR ∨ origin = SEEK_END)
    (hds : IsInt32 (st.sfxc_handle_list h).dataSize)
    (hpos : 0 ≤ (st.sfxc_handle_list h).position)
    (hoff0 : 0 ≤ offset) (hoff : offset < 2147483648) :
    sfxc_cached_seek env st h offset origin =
      some (wrap32 (seekBase (st.sfxc_handle_list h) origin +
          min offset ((st.sfxc_handle_list h).dataSize - (st.sfxc_handle_list h).position)),
        st.setSlot h ((st.sfxc_handle_list h).withPosition
          (wrap32 (seekBase (st.sfxc_handle_list h) origin +
            min offset ((st.sfxc_handle_list h).dataSize - (st.sfxc_handle_list h).position))))) := by
  obtain ⟨-, -, l3, -⟩ := (legal_iff env st h).mp hlegal
  have habs : abs32 offset = offset := by
    unfold abs32
    rw [if_neg (by omega)]
    exact wrap32_of_isInt32 ⟨by omega, by omega⟩
  have hrem : wrap32 ((st.sfxc_handle_list h).dataSize - (st.sfxc_handle_list h).position)
      = (st.sfxc_handle_list h).dataSize - (st.sfxc_handle_list h).position := by
    unfold IsInt32 at hds
    exact wrap32_of_isInt32 ⟨by omega, by omega⟩
  have hge : offset ≥ 0 := hoff0
  simp only [sfxc_cached_seek, hlegal, Bool.not_true, Bool.false_eq_true, if_false,
    seek_base_cases origin horigin, habs, hrem, hge, if_true]
  have hmin : (if offset > (st.sfxc_handle_list h).dataSize - (st.sfxc_handle_list h).position
      then (st.sfxc_handle_list h).dataSize - (st.sfxc_handle_list h).position else offset)
      = min offset ((st.sfxc_handle_list h).dataSize - (st.sfxc_handle_list h).position) := by
    split <;> omega
  rw [hmin]

/-- The free-slot scan of `sfxc_handle_create`: it stops inside
`[index, index + remaining]`, at a slot that is not used unless it reaches the
end, and every slot it passed is used. -/
theorem sfxc_handle_create_scan_spec (list : Int → SoundEffect) (remaining : Nat) :
    ∀ index : Nat,
      index ≤ sfxc_handle_create_scan list remaining index ∧
      sfxc_handle_create_scan list remaining index ≤ index + remaining ∧
      (sfxc_handle_create_scan list remaining index < index + remaining →
        (list ((sfxc_handle_create_scan list remaining index : Nat) : Int)).used = false) ∧
      (∀ j : Nat, index ≤ j → j < sfxc_handle_create_scan list remaining index →
        (list (j : Int)).used = true) := by
  induction remaining with
  | zero =>
    intro index
    simp only [sfxc_handle_create_scan]
    exact ⟨le_refl _, le_refl _, fun hc => absurd hc (by omega), fun j h1 h2 => absurd h2 (by omega)⟩
  | succ n ih =>
    intro index
    by_cases hu : (list (index : Int)).used = true
    · obtain ⟨i1, i2, i3, i4⟩ := ih (index + 1)
      have hs : sfxc_handle_create_scan list (n + 1) index
          = sfxc_handle_create_scan list n (index + 1) := by
        simp [sfxc_handle_create_scan, hu]
      rw [hs]
      refine ⟨by omega, by omega, fun hc => i3 (by omega), fun j h1 h2 => ?_⟩
      by_cases hj : j = index
      · subst hj; exact hu
      · exact i4 j (by omega) h2
    · have hu' : (list (index : Int)).used = false := by simpa using hu
      have hs : sfxc_handle_create_scan list (n + 1) index = index := by
        simp [sfxc_handle_create_scan, hu']
      rw [hs]
      exact ⟨le_refl _, by omega, fun _ => hu', fun j h1 h2 => absurd h2 (by omega)⟩

theorem sfxc_handle_create_scan_full (list : Int → SoundEffect) (n : Nat)
    (hfull : ∀ i : Nat, i < n → (list (i : Int)).used = true) :
    sfxc_handle_create_scan list n 0 = n := by
  obtain ⟨-, h2, h3, -⟩ := sfxc_handle_create_scan_spec list n 0
  by_contra hne
  have hlt : sfxc_handle_create_scan list n 0 < 0 + n := by omega
  have := h3 hlt
  rw [hfull _ (by omega)] at this
  exact absurd this (by decide)

theorem cache_lock_some (env : Env) (st : SfxcState) (tag : Int) (data : Int → UInt8)
    (hfetch : env.cache_fetch tag = some data) :
    cache_lock env st tag = (some (data, tag),
      (st.log (Event.cache_lock tag)).withPcache
        (fun e => if e = tag then st.sfxc_pcache e + 1 else st.sfxc_pcache e)) := by
  simp only [cache_lock, hfetch, log_pcache]

theorem cache_lock_none (env : Env) (st : SfxcState) (tag : Int)
    (hfetch : env.cache_fetch tag = none) :
    cache_lock env st tag = (none, st.log (Event.cache_lock tag)) := by
  simp only [cache_lock, hfetch]

theorem cache_unlock_eq (st : SfxcState) (entry : Int) :
    cache_unlock st entry =
      if st.sfxc_pcache entry = 0 then (false, st.log (Event.cache_unlock entry))
      else (true, (st.log (Event.cache_unlock entry)).withPcache
        (fun e => if e = entry then st.sfxc_pcache e - 1 else st.sfxc_pcache e)) := by
  simp only [cache_unlock, log_pcache]

/-- A lock followed by an unlock of the entry it pinned leaves every pin
counter as it was and adds the two calls to the trace. -/
theorem cache_lock_unlock (env : Env) (st : SfxcState) (tag : Int) (data : Int → UInt8)
    (hfetch : env.cache_fetch tag = some data) :
    (cache_lock env st tag).1 = some (data, tag) ∧
    (cache_unlock (cache_lock env st tag).2 tag).1 = true ∧
    (cache_unlock (cache_lock env st tag).2 tag).2.sfxc_pcache = st.sfxc_pcache ∧
    (cache_unlock (cache_lock env st tag).2 tag).2.sfxc_handle_list = st.sfxc_handle_list ∧
    (cache_unlock (cache_lock env st tag).2 tag).2.trace
      = st.trace ++ [Event.cache_lock tag, Event.cache_unlock tag] := by
  rw [cache_lock_some env st tag data hfetch, cache_unlock_eq]
  have hne : ¬ ((st.log (Event.cache_lock tag)).withPcache
      (fun e => if e = tag then st.sfxc_pcache e + 1 else st.sfxc_pcache e)).sfxc_pcache tag = 0 := by
    simp
  rw [if_neg hne]
  refine ⟨rfl, rfl, ?_, by simp, by simp⟩
  simp only [withPcache_fields]
  funext e
  by_cases he : e = tag
  · simp [he]
  · simp [he]

/-- C7: with every one of the `SOUND_EFFECTS_MAX_COUNT` slots in use,
`sfxc_cached_open` of a resolvable name returns -1, leaves the handle table
and every pin counter as they were, and, when it got as far as locking the
cache entry, the lock is followed by exactly one unlock of the same entry. -/
theorem sfxc_cached_open_table_full (env : Env) (st : SfxcState) (fname : String) (tag : Int)
    (hfull : ∀ i : Nat, i < env.SOUND_EFFECTS_MAX_COUNT →
      (st.sfxc_handle_list (i : Int)).used = true)
    (hname : env.soundEffectsListGetTag fname = some tag) :
    (sfxc_cached_open env st fname).1 = -1 ∧
    (sfxc_cached_open env st fname).2.sfxc_handle_list = st.sfxc_handle_list ∧
    (sfxc_cached_open env st fname).2.sfxc_pcache = st.sfxc_pcache ∧
    (st.sfxc_files_open < (env.SOUND_EFFECTS_MAX_COUNT : Int) →
      env.internal_strdup_ok fname = true → (env.cache_fetch tag).isSome = true →
      (sfxc_cached_open env st fname).2.trace
        = st.trace ++ [Event.cache_lock tag, Event.cache_unlock tag]) := by
  by_cases hopen : st.sfxc_files_open ≥ (env.SOUND_EFFECTS_MAX_COUNT : Int)
  · have hr : sfxc_cached_open env st fname = (-1, st) := by
      simp only [sfxc_cached_open, hopen, if_true]
    rw [hr]
    exact ⟨rfl, rfl, rfl, fun hc => absurd hopen (by omega)⟩
  by_cases hdup : env.internal_strdup_ok fname = true
  swap
  · have hr : sfxc_cached_open env st fname = (-1, st) := by
      simp [sfxc_cached_open, hopen, hdup]
    rw [hr]
    exact ⟨rfl, rfl, rfl, fun _ hc => absurd hc hdup⟩
  cases hfetch : env.cache_fetch tag with
  | none =>
    have hr : sfxc_cached_open env st fname = (-1, st.log (Event.cache_lock tag)) := by
      simp [sfxc_cached_open, hopen, hdup, hname, cache_lock_none env st tag hfetch]
    rw [hr]
    exact ⟨rfl, rfl, rfl, fun _ _ hc => absurd hc (by simp)⟩
  | some data =>
    obtain ⟨c1, c2, c3, c4, c5⟩ := cache_lock_unlock env st tag data hfetch
    have hscan : sfxc_handle_create_scan (cache_lock env st tag).2.sfxc_handle_list
        env.SOUND_EFFECTS_MAX_COUNT 0 = env.SOUND_EFFECTS_MAX_COUNT := by
      apply sfxc_handle_create_scan_full
      intro i hi
      have : (cache_lock env st tag).2.sfxc_handle_list = st.sfxc_handle_list := by
        simp [cache_lock_some env st tag data hfetch]
      rw [this]
      exact hfull i hi
    have hcreate : sfxc_handle_create env (cache_lock env st tag).2 tag data tag = none := by
      simp [sfxc_handle_create, hscan]
    have hr : sfxc_cached_open env st fname
        = (-1, (cache_unlock (cache_lock env st tag).2 tag).2) := by
      simp only [sfxc_cached_open, hopen, hdup, hname, c1, hcreate]
      simp
    rw [hr]
    exact ⟨rfl, c4, c3, fun _ _ _ => c5⟩

theorem sfxc_cached_open_table_full_witness :
    (sfxc_cached_open (demoEnv true)
      { demoState 1 0 with sfxc_handle_list := fun _ => demoSlot 0 } "explosion").1 = -1 ∧
    (sfxc_cached_open (demoEnv true)
      { demoState 1 0 with sfxc_handle_list := fun _ => demoSlot 0 } "explosion").2.trace
        = [Event.cache_lock 7, Event.cache_unlock 7] := by
  have h := sfxc_cached_open_table_full (demoEnv true)
    { demoState 1 0 with sfxc_handle_list := fun _ => demoSlot 0 } "explosion" 7
    (fun _ _ => rfl) (by decide)
  exact ⟨h.1, h.2.2.2 (by decide) rfl rfl⟩

/-- C9: for a name the directory does not resolve, `sfxc_cached_open` returns
-1 and the whole state (handle table, pin counters, trace of collaborator
calls) is what it was: no slot is marked used and no cache entry is locked. -/
theorem sfxc_cached_open_unresolved (env : Env) (st : SfxcState) (fname : String)
    (hname : env.soundEffectsListGetTag fname = none) :
    sfxc_cached_open env st fname = (-1, st) := by
  simp only [sfxc_cached_open, hname]
  split
  · rfl
  · split <;> rfl

theorem sfxc_cached_open_unresolved_witness :
    sfxc_cached_open (demoEnv true) (demoState 1 0) "doesnotexist" = (-1, demoState 1 0) :=
  sfxc_cached_open_unresolved (demoEnv true) (demoState 1 0) "doesnotexist" (by decide)

/-- What a successful `sfxc_handle_create` does: it returns the index the
scan stopped at, inside the table, and stores the new slot there. -/
theorem sfxc_handle_create_some (env : Env) (st : SfxcState) (tag : Int) (data : Int → UInt8)
    (cacheHandle : Int) (created : Int × SfxcState)
    (hcreate : sfxc_handle_create env st tag data cacheHandle = some created) :
    created.1 = ((sfxc_handle_create_scan st.sfxc_handle_list env.SOUND_EFFECTS_MAX_COUNT 0 : Nat) : Int) ∧
    sfxc_handle_create_scan st.sfxc_handle_list env.SOUND_EFFECTS_MAX_COUNT 0
      < env.SOUND_EFFECTS_MAX_COUNT ∧
    created.2 = st.setSlot created.1
      { used := true
        cacheHandle := cacheHandle
        tag := tag
        dataSize := (env.soundEffectsListGetDataSize tag).getD (st.sfxc_handle_list created.1).dataSize
        fileSize := (env.soundEffectsListGetFileSize tag).getD (st.sfxc_handle_list created.1).fileSize
        position := 0
        dataPosition := 0
        data := data } := by
  obtain ⟨-, hle, -, -⟩ :=
    sfxc_handle_create_scan_spec st.sfxc_handle_list env.SOUND_EFFECTS_MAX_COUNT 0
  simp only [sfxc_handle_create] at hcreate
  split at hcreate
  · cases hcreate
  · split at hcreate
    · cases hcreate
    · next hne =>
      cases hcreate
      exact ⟨rfl, by omega, rfl⟩

/-- The outcome of `sfxc_cached_open` when it does not return -1: the name
resolved, the lock succeeded and `sfxc_handle_create` stored the new slot. -/
theorem sfxc_cached_open_success (env : Env) (st : SfxcState) (fname : String)
    (hok : (sfxc_cached_open env st fname).1 ≠ -1) :
    ∃ tag data created,
      env.soundEffectsListGetTag fname = some tag ∧ env.cache_fetch tag = some data ∧
      sfxc_handle_create env (cache_lock env st tag).2 tag data tag = some created ∧
      sfxc_cached_open env st fname = created := by
  simp only [sfxc_cached_open] at hok ⊢
  split at hok
  · exact absurd rfl hok
  · split at hok
    · exact absurd rfl hok
    · rename_i h1 h2
      rw [if_neg h1, if_neg h2]
      cases hname : env.soundEffectsListGetTag fname with
      | none => simp only [hname] at hok; exact absurd rfl hok
      | some tag =>
        simp only [hname] at hok ⊢
        cases hfetch : env.cache_fetch tag with
        | none =>
          have hl : (cache_lock env st tag).1 = none := by simp [cache_lock, hfetch]
          simp only [hl] at hok
          exact absurd rfl hok
        | some data =>
          have hl : (cache_lock env st tag).1 = some (data, tag) := by
            simp [cache_lock, hfetch]
          simp only [hl] at hok ⊢
          cases hcreate : sfxc_handle_create env (cache_lock env st tag).2 tag data tag with
          | none => simp only [hcreate] at hok; exact absurd rfl hok
          | some created => exact ⟨tag, data, created, rfl, hfetch, hcreate, rfl⟩

/-- C8: with a consistent directory, after a successful
`sfxc_cached_open(name)` returning `h`, slot `h` (an index of the table) is
used, carries the tag the directory resolves the name to, the directory's
decoded size as `dataSize` and raw size as `fileSize`, and
`position = dataPosition = 0`; hence `sfxc_cached_tell(h)` is 0 and
`sfxc_cached_file_size(h)` is the decoded size. -/
theorem sfxc_cached_open_success_fields (env : Env) (st : SfxcState) (fname : String)
    (hdir : DirectoryConsistent env)
    (hok : (sfxc_cached_open env st fname).1 ≠ -1) :
    0 ≤ (sfxc_cached_open env st fname).1 ∧
    (sfxc_cached_open env st fname).1 < (env.SOUND_EFFECTS_MAX_COUNT : Int) ∧
    ((sfxc_cached_open env st fname).2.sfxc_handle_list (sfxc_cached_open env st fname).1).used
      = true ∧
    env.soundEffectsListGetTag fname = some
      ((sfxc_cached_open env st fname).2.sfxc_handle_list (sfxc_cached_open env st fname).1).tag ∧
    env.soundEffectsListGetDataSize
        ((sfxc_cached_open env st fname).2.sfxc_handle_list (sfxc_cached_open env st fname).1).tag
      = some ((sfxc_cached_open env st fname).2.sfxc_handle_list
          (sfxc_cached_open env st fname).1).dataSize ∧
    env.soundEffectsListGetFileSize
        ((sfxc_cached_open env st fname).2.sfxc_handle_list (sfxc_cached_open env st fname).1).tag
      = some ((sfxc_cached_open env st fname).2.sfxc_handle_list
          (sfxc_cached_open env st fname).1).fileSize ∧
    ((sfxc_cached_open env st fname).2.sfxc_handle_list (sfxc_cached_open env st fname).1).position
      = 0 ∧
    ((sfxc_cached_open env st fname).2.sfxc_handle_list
      (sfxc_cached_open env st fname).1).dataPosition = 0 ∧
    (sfxc_cached_tell env (sfxc_cached_open env st fname).2 (sfxc_cached_open env st fname).1).1
      = 0 ∧
    (sfxc_cached_file_size env (sfxc_cached_open env st fname).2
      (sfxc_cached_open env st fname).1).1
      = ((sfxc_cached_open env st fname).2.sfxc_handle_list
          (sfxc_cached_open env st fname).1).dataSize := by
  obtain ⟨tag, data, created, hname, -, h3, h4⟩ := sfxc_cached_open_success env st fname hok
  obtain ⟨hvalid, ⟨d, hd, hd0⟩, ⟨f, hf⟩⟩ := hdir fname tag hname
  obtain ⟨c1, c2, c3⟩ := sfxc_handle_create_some env _ tag data tag created h3
  rw [h4]
  have hslot : created.2.sfxc_handle_list created.1 =
      { used := true, cacheHandle := tag, tag := tag, dataSize := d, fileSize := f,
        position := 0, dataPosition := 0, data := data } := by
    rw [c3, setSlot_same, hd, hf]
    rfl
  have hlt : created.1 < (env.SOUND_EFFECTS_MAX_COUNT : Int) := by rw [c1]; omega
  have hlegal : sfxc_handle_is_legal env created.2 created.1 = true := by
    rw [legal_iff, hslot]
    exact ⟨hlt, rfl, hd0, hvalid⟩
  refine ⟨by rw [c1]; omega, hlt, ?_, ?_, ?_, ?_, ?_, ?_, ?_, ?_⟩
  · rw [hslot]
  · rw [hslot]; exact hname
  · rw [hslot]; exact hd
  · rw [hslot]; exact hf
  · rw [hslot]
  · rw [hslot]
  · simp only [sfxc_cached_tell, hlegal, hslot]
    rfl
  · simp only [sfxc_cached_file_size, hlegal, hslot]
    rfl

theorem demoEnv_consistent (mallocOk : Bool) : DirectoryConsistent (demoEnv mallocOk) := by
  intro fname tag hname
  have htag : tag = 7 := by
    simp only [demoEnv] at hname
    split at hname
    · exact (Option.some.inj hname).symm
    · cases hname
  subst htag
  exact ⟨rfl, ⟨10, rfl, by decide⟩, ⟨10, rfl⟩⟩

theorem sfxc_cached_open_success_fields_witness :
    (sfxc_cached_open (demoEnv true) (demoState 1 4) "explosion").1 = 1 ∧
    ((sfxc_cached_open (demoEnv true) (demoState 1 4) "explosion").2.sfxc_handle_list
      (sfxc_cached_open (demoEnv true) (demoState 1 4) "explosion").1).position = 0 ∧
    (sfxc_cached_file_size (demoEnv true)
      (sfxc_cached_open (demoEnv true) (demoState 1 4) "explosion").2
      (sfxc_cached_open (demoEnv true) (demoState 1 4) "explosion").1).1 = 10 := by
  have h := sfxc_cached_open_success_fields (demoEnv true) (demoState 1 4) "explosion"
    (demoEnv_consistent true) (by decide)
  exact ⟨by decide, h.2.2.2.2.2.2.1, by decide⟩

/-- C10: for a legal handle whose cache unlock succeeds, `sfxc_cached_close`
returns 0 and marks the slot unused; an immediately following close, read,
seek or tell on the same handle returns -1. -/
theorem sfxc_cached_close_then_illegal (env : Env) (st : SfxcState) (h : Int)
    (hlegal : sfxc_handle_is_legal env st h = true)
    (hunlock : (cache_unlock st (st.sfxc_handle_list h).cacheHandle).1 = true) :
    (sfxc_cached_close env st h).1 = 0 ∧
    ((sfxc_cached_close env st h).2.sfxc_handle_list h).used = false ∧
    (sfxc_cached_close env (sfxc_cached_close env st h).2 h).1 = -1 ∧
    (∀ (buf : List UInt8) (size : Nat),
      (sfxc_cached_read env (sfxc_cached_close env st h).2 h buf size).1 = -1) ∧
    (∀ offset origin : Int,
      (sfxc_cached_seek env (sfxc_cached_close env st h).2 h offset origin).map (fun r => r.1)
        = some (-1)) ∧
    (sfxc_cached_tell env (sfxc_cached_close env st h).2 h).1 = -1 := by
  obtain ⟨l1, -, -, -⟩ := (legal_iff env st h).mp hlegal
  have hr : sfxc_cached_close env st h
      = (0, sfxc_handle_destroy env (cache_unlock st (st.sfxc_handle_list h).cacheHandle).2 h) := by
    simp [sfxc_cached_close, hlegal, hunlock]
  have hused : ((sfxc_handle_destroy env
      (cache_unlock st (st.sfxc_handle_list h).cacheHandle).2 h).sfxc_handle_list h).used
        = false := by
    simp only [sfxc_handle_destroy]
    rw [if_pos (by omega), setSlot_same]
    exact (withUsed_fields _ _).1
  have hill : sfxc_handle_is_legal env (sfxc_handle_destroy env
      (cache_unlock st (st.sfxc_handle_list h).cacheHandle).2 h) h = false := by
    cases hc : sfxc_handle_is_legal env (sfxc_handle_destroy env
      (cache_unlock st (st.sfxc_handle_list h).cacheHandle).2 h) h with
    | false => rfl
    | true =>
      have := ((legal_iff _ _ _).mp hc).2.1
      rw [hused] at this
      exact absurd this (by decide)
  rw [hr]
  refine ⟨rfl, hused, ?_, ?_, ?_, ?_⟩
  · simp [sfxc_cached_close, hill]
  · intro buf size
    simp [sfxc_cached_read, hill]
  · intro offset origin
    simp [sfxc_cached_seek, hill]
  · simp [sfxc_cached_tell, hill]

theorem sfxc_cached_close_then_illegal_witness :
    (sfxc_cached_close (demoEnv true) (demoState 1 4) 0).1 = 0 ∧
    (sfxc_cached_close (demoEnv true) (sfxc_cached_close (demoEnv true) (demoState 1 4) 0).2 0).1
      = -1 := by
  have h := sfxc_cached_close_then_illegal (demoEnv true) (demoState 1 4) 0 (by decide) (by decide)
  exact ⟨h.1, h.2.2.1⟩

theorem countP_range_flip (n i : Nat) (p q : Nat → Bool) (hi : i < n)
    (hsame : ∀ j, j ≠ i → q j = p j) (hp : p i = false) (hq : q i = true) :
    (List.range n).countP q = (List.range n).countP p + 1 := by
  induction n with
  | zero => omega
  | succ n ih =>
    rw [List.range_succ, List.countP_append, List.countP_append]
    by_cases hin : i = n
    · subst hin
      have hpre : (List.range i).countP q = (List.range i).countP p := by
        apply List.countP_congr
        intro j hj
        rw [List.mem_range] at hj
        rw [hsame j (by omega)]
      simp [hpre, hp, hq]
    · have := ih (by omega)
      have hn : q n = p n := hsame n (fun h => hin h.symm)
      have hs : List.countP q [n] = List.countP p [n] := by
        simp [List.countP_cons, hn]
      omega

theorem countP_range_same (n : Nat) (p q : Nat → Bool) (hsame : ∀ j, j < n → q j = p j) :
    (List.range n).countP q = (List.range n).countP p := by
  apply List.countP_congr
  intro j hj
  rw [List.mem_range] at hj
  rw [hsame j hj]

theorem sfxc_handle_list_create_clears (env : Env) (st : SfxcState)
    (hok : (sfxc_handle_list_create env st).1 = 0) :
    (∀ i : Nat, i < env.SOUND_EFFECTS_MAX_COUNT →
      ((sfxc_handle_list_create env st).2.sfxc_handle_list (i : Int)).used = false) ∧
    (sfxc_handle_list_create env st).2.sfxc_files_open = 0 := by
  have hfold : ∀ (n : Nat) (s : SfxcState) (i : Nat), i < n →
      (((List.range n).foldl (fun s (index : Nat) => s.setSlot (index : Int)
        ((s.sfxc_handle_list (index : Int)).withUsed false)) s).sfxc_handle_list (i : Int)).used
          = false := by
    intro n
    induction n with
    | zero => intro s i hi; omega
    | succ n ih =>
      intro s i hi
      rw [List.range_succ, List.foldl_append]
      simp only [List.foldl_cons, List.foldl_nil]
      by_cases hin : i = n
      · subst hin
        rw [setSlot_same]
        exact (withUsed_fields _ _).1
      · rw [setSlot_other _ _ _ _ (by omega)]
        exact ih s i (by omega)
  simp only [sfxc_handle_list_create] at hok ⊢
  split at hok
  · exact absurd (show (-1 : Int) = 0 from hok) (by decide)
  · rename_i hm
    rw [if_neg hm]
    exact ⟨fun i hi => hfold _ _ i hi, rfl⟩

/-- After a successful `sfxc_init` every slot of the handle table is unused
and no cache entry is pinned. -/
theorem sfxc_init_success (env : Env) (st : SfxcState) (cacheSize : Int)
    (effectsPath : Option String) (hok : (sfxc_init env st cacheSize effectsPath).1 = 0) :
    (∀ i : Nat, i < env.SOUND_EFFECTS_MAX_COUNT →
      ((sfxc_init env st cacheSize effectsPath).2.sfxc_handle_list (i : Int)).used = false) ∧
    (∀ e : Int, (sfxc_init env st cacheSize effectsPath).2.sfxc_pcache e = 0) ∧
    (sfxc_init env st cacheSize effectsPath).2.sfxc_initialized = true := by
  simp only [sfxc_init] at hok ⊢
  split at hok
  · exact absurd (show (-1 : Int) = 0 from hok) (by decide)
  rename_i h1
  rw [if_neg h1]
  split at hok
  · exact absurd (show (-1 : Int) = 0 from hok) (by decide)
  rename_i h2
  rw [if_neg h2]
  split at hok
  · exact absurd (show (-1 : Int) = 0 from hok) (by decide)
  rename_i h3
  rw [if_neg h3]
  split at hok
  · exact absurd (show (-1 : Int) = 0 from hok) (by decide)
  rename_i h4
  rw [if_neg h4]
  split at hok
  · exact absurd (show (-1 : Int) = 0 from hok) (by decide)
  rename_i h5
  rw [if_neg h5]
  split at hok
  · exact absurd (show (-1 : Int) = 0 from hok) (by decide)
  rename_i h6
  rw [if_neg h6]
  have hcreate := sfxc_handle_list_create_clears env _ (not_not.mp h4)
  have hc : env.cache_init_ok cacheSize = true := by
    by_contra hcn
    simp [cache_init, hcn] at h6
  simp only [cache_init, hc, if_true, withInitialized_fields, withPcache_fields, log_list]
  exact ⟨fun i hi => hcreate.1 i hi, fun e => trivial, trivial⟩

theorem pinBalanced_congr (env : Env) (st st' : SfxcState)
    (hlist : st'.sfxc_handle_list = st.sfxc_handle_list)
    (hpins : st'.sfxc_pcache = st.sfxc_pcache) (hbal : PinBalanced env st) :
    PinBalanced env st' := by
  unfold PinBalanced openHandles at *
  rw [hlist, hpins]
  exact hbal

/-- A failing `sfxc_cached_open` leaves the handle table and the pin counters
as they were. -/
theorem sfxc_cached_open_failure (env : Env) (st : SfxcState) (fname : String)
    (hfail : (sfxc_cached_open env st fname).1 = -1) :
    (sfxc_cached_open env st fname).2.sfxc_handle_list = st.sfxc_handle_list ∧
    (sfxc_cached_open env st fname).2.sfxc_pcache = st.sfxc_pcache := by
  simp only [sfxc_cached_open] at hfail ⊢
  split
  · exact ⟨rfl, rfl⟩
  · rename_i h1
    rw [if_neg h1] at hfail
    split
    · exact ⟨rfl, rfl⟩
    · rename_i h2
      rw [if_neg h2] at hfail
      cases hname : env.soundEffectsListGetTag fname with
      | none => exact ⟨rfl, rfl⟩
      | some tag =>
        simp only [hname] at hfail ⊢
        cases hfetch : env.cache_fetch tag with
        | none =>
          rw [cache_lock_none env st tag hfetch]
          exact ⟨rfl, rfl⟩
        | some data =>
          obtain ⟨c1, -, c3, c4, -⟩ := cache_lock_unlock env st tag data hfetch
          simp only [c1] at hfail ⊢
          cases hcreate : sfxc_handle_create env (cache_lock env st tag).2 tag data tag with
          | none => exact ⟨c4, c3⟩
          | some created =>
            simp only [hcreate] at hfail
            obtain ⟨k1, -, -⟩ := sfxc_handle_create_some env _ tag data tag created hcreate
            rw [k1] at hfail
            omega

theorem sfxc_cached_open_balanced (env : Env) (st : SfxcState) (fname : String)
    (hbal : PinBalanced env st) : PinBalanced env (sfxc_cached_open env st fname).2 := by
  by_cases hfail : (sfxc_cached_open env st fname).1 = -1
  · obtain ⟨f1, f2⟩ := sfxc_cached_open_failure env st fname hfail
    exact pinBalanced_congr env st _ f1 f2 hbal
  obtain ⟨tag, data, created, -, hfetch, hcreate, hopen⟩ :=
    sfxc_cached_open_success env st fname hfail
  obtain ⟨k1, k2, k3⟩ := sfxc_handle_create_some env _ tag data tag created hcreate
  rw [cache_lock_some env st tag data hfetch] at k1 k2 k3
  simp only [withPcache_fields, log_list] at k1 k2 k3
  obtain ⟨-, -, s3, -⟩ :=
    sfxc_handle_create_scan_spec st.sfxc_handle_list env.SOUND_EFFECTS_MAX_COUNT 0
  have hfree := s3 (by omega)
  generalize sfxc_handle_create_scan st.sfxc_handle_list env.SOUND_EFFECTS_MAX_COUNT 0 = idx
    at k1 k2 hfree
  rw [hopen, k3, k1]
  obtain ⟨b1, b2⟩ := hbal
  constructor
  · intro i hi hused
    by_cases hii : i = idx
    · subst hii
      rw [setSlot_same]
    · rw [setSlot_other _ _ _ _ (by omega)] at hused ⊢
      exact b1 i hi hused
  · intro e
    simp only [setSlot_pcache, withPcache_fields]
    unfold openHandles at b2 ⊢
    by_cases he : e = tag
    · subst he
      rw [if_pos rfl, b2 e]
      symm
      apply countP_range_flip _ idx _ _ k2
      · intro j hj
        rw [setSlot_other _ _ _ _ (by omega)]
        rfl
      · simp [hfree]
      · simp
    · rw [if_neg he, b2 e]
      symm
      apply countP_range_same
      intro j hj
      by_cases hji : j = idx
      · subst hji
        rw [setSlot_same]
        simp [hfree, Ne.symm he]
      · rw [setSlot_other _ _ _ _ (by omega)]
        rfl

theorem sfxc_cached_close_balanced (env : Env) (st : SfxcState) (handle : Int)
    (hnonneg : 0 ≤ handle) (hbal : PinBalanced env st) :
    PinBalanced env (sfxc_cached_close env st handle).2 := by
  by_cases hlegal : sfxc_handle_is_legal env st handle = true
  swap
  · have hr : sfxc_cached_close env st handle = (-1, st) := by
      simp [sfxc_cached_close, hlegal]
    rw [hr]; exact hbal
  obtain ⟨l1, l2, -, -⟩ := (legal_iff env st handle).mp hlegal
  lift handle to Nat using hnonneg with i
  have hi : i < env.SOUND_EFFECTS_MAX_COUNT := by omega
  obtain ⟨b1, b2⟩ := hbal
  have hentry := b1 i hi l2
  by_cases hzero : st.sfxc_pcache (st.sfxc_handle_list (i : Int)).cacheHandle = 0
  · have hr : sfxc_cached_close env st (i : Int)
        = (-1, st.log (Event.cache_unlock (st.sfxc_handle_list (i : Int)).cacheHandle)) := by
      simp [sfxc_cached_close, hlegal, cache_unlock_eq, hzero]
    rw [hr]
    exact pinBalanced_congr env st _ rfl rfl ⟨b1, b2⟩
  · have hr : sfxc_cached_close env st (i : Int)
        = (0, sfxc_handle_destroy env
            ((st.log (Event.cache_unlock (st.sfxc_handle_list (i : Int)).cacheHandle)).withPcache
              (fun e => if e = (st.sfxc_handle_list (i : Int)).cacheHandle
                then st.sfxc_pcache e - 1 else st.sfxc_pcache e)) (i : Int)) := by
      simp [sfxc_cached_close, hlegal, cache_unlock_eq, hzero]
    rw [hr]
    simp only [sfxc_handle_destroy]
    rw [if_pos (by omega)]
    simp only [withPcache_fields, log_list]
    constructor
    · intro j hj hused
      by_cases hji : j = i
      · subst hji
        rw [setSlot_same] at hused
        rw [(withUsed_fields _ _).1] at hused
        exact absurd hused (by decide)
      · rw [setSlot_other _ _ _ _ (by omega)] at hused ⊢
        exact b1 j hj hused
    · intro e
      simp only [setSlot_pcache, withPcache_fields]
      unfold openHandles at b2 ⊢
      rw [hentry]
      by_cases he : e = (st.sfxc_handle_list (i : Int)).tag
      · subst he
        rw [if_pos rfl]
        have hcount := countP_range_flip env.SOUND_EFFECTS_MAX_COUNT i
          (fun j => ((st.setSlot (i : Int) ((st.sfxc_handle_list (i : Int)).withUsed false)).sfxc_handle_list
              (j : Int)).used &&
            decide (((st.setSlot (i : Int)
              ((st.sfxc_handle_list (i : Int)).withUsed false)).sfxc_handle_list (j : Int)).tag
                = (st.sfxc_handle_list (i : Int)).tag))
          (fun j => (st.sfxc_handle_list (j : Int)).used &&
            decide ((st.sfxc_handle_list (j : Int)).tag = (st.sfxc_handle_list (i : Int)).tag))
          hi
          (by
            intro j hj
            simp only []
            rw [setSlot_other _ _ _ _ (by omega)])
          (by simp)
          (by simp [l2])
        rw [b2, hcount]
        rfl
      · rw [if_neg he, b2 e]
        symm
        apply countP_range_same
        intro j hj
        by_cases hji : j = i
        · subst hji
          rw [setSlot_same]
          simp [Ne.symm he]
        · rw [setSlot_other _ _ _ _ (by omega)]
          rfl

theorem sfxc_call_balanced (env : Env) (st : SfxcState) (call : Call)
    (hnonneg : ∀ handle, call = Call.doClose handle → 0 ≤ handle) (hbal : PinBalanced env st) :
    PinBalanced env (sfxc_call env st call) := by
  cases call with
  | doOpen fname => exact sfxc_cached_open_balanced env st fname hbal
  | doClose handle => exact sfxc_cached_close_balanced env st handle (hnonneg handle rfl) hbal

theorem sfxc_calls_balanced (env : Env) (calls : List Call) :
    ∀ st : SfxcState, (∀ handle, Call.doClose handle ∈ calls → 0 ≤ handle) →
      PinBalanced env st → PinBalanced env (sfxc_calls env st calls) := by
  induction calls with
  | nil => intro st _ hbal; exact hbal
  | cons call rest ih =>
    intro st hnonneg hbal
    simp only [sfxc_calls, List.foldl_cons]
    apply ih
    · intro handle hmem
      exact hnonneg handle (List.mem_cons_of_mem _ hmem)
    · apply sfxc_call_balanced env st call _ hbal
      intro handle heq
      exact hnonneg handle (by rw [heq]; exact List.mem_cons_self _ _)

theorem sfxc_init_balanced (env : Env) (st : SfxcState) (cacheSize : Int)
    (effectsPath : Option String) (hok : (sfxc_init env st cacheSize effectsPath).1 = 0) :
    PinBalanced env (sfxc_init env st cacheSize effectsPath).2 := by
  obtain ⟨h1, h2, -⟩ := sfxc_init_success env st cacheSize effectsPath hok
  constructor
  · intro i hi hused
    rw [h1 i hi] at hused
    exact absurd hused (by decide)
  · intro tag
    rw [h2 tag]
    unfold openHandles
    symm
    rw [List.countP_eq_zero]
    intro i hi
    rw [List.mem_range] at hi
    simp [h1 i hi]

/-- Pin balance without negative handles (supports C6): after a successful
`sfxc_init` and any finite sequence of `sfxc_cached_open` and
`sfxc_cached_close` calls, successful or failing,
whose handles are not negative, the pin counter of every tag equals the number
of handle slots that are used and carry that tag. -/
theorem sfxc_pin_balance (env : Env) (st : SfxcState) (cacheSize : Int)
    (effectsPath : Option String) (calls : List Call)
    (hinit : (sfxc_init env st cacheSize effectsPath).1 = 0)
    (hnonneg : ∀ handle, Call.doClose handle ∈ calls → 0 ≤ handle) :
    ∀ tag : Int,
      (sfxc_calls env (sfxc_init env st cacheSize effectsPath).2 calls).sfxc_pcache tag
        = openHandles env (sfxc_calls env (sfxc_init env st cacheSize effectsPath).2 calls) tag :=
  (sfxc_calls_balanced env calls _ hnonneg
    (sfxc_init_balanced env st cacheSize effectsPath hinit)).2

theorem sfxc_pin_balance_witness :
    (sfxc_calls (demoEnv true) (sfxc_init (demoEnv true) (demoState 1 0) 300000 (some "sfx/")).2
        [Call.doOpen "explosion", Call.doOpen "explosion", Call.doClose 0, Call.doClose 5,
          Call.doOpen "doesnotexist"]).sfxc_pcache 7
      = openHandles (demoEnv true)
        (sfxc_calls (demoEnv true)
          (sfxc_init (demoEnv true) (demoState 1 0) 300000 (some "sfx/")).2
          [Call.doOpen "explosion", Call.doOpen "explosion", Call.doClose 0, Call.doClose 5,
            Call.doOpen "doesnotexist"]) 7 ∧
    openHandles (demoEnv true)
        (sfxc_calls (demoEnv true)
          (sfxc_init (demoEnv true) (demoState 1 0) 300000 (some "sfx/")).2
          [Call.doOpen "explosion", Call.doOpen "explosion", Call.doClose 0, Call.doClose 5,
            Call.doOpen "doesnotexist"]) 7 = 1 := by
  refine ⟨sfxc_pin_balance (demoEnv true) (demoState 1 0) 300000 (some "sfx/") _ (by decide)
    ?_ 7, by decide⟩
  intro handle hmem
  simp at hmem
  omega

/-- C11: for a legal handle whose cache unlock reports failure,
`sfxc_cached_close` returns -1 and leaves the handle table as it was: slot `h`
is still used, with the same tag, sizes and position; the state differs only
by the unlock call recorded in the trace. -/
theorem sfxc_cached_close_unlock_failure (env : Env) (st : SfxcState) (h : Int)
    (hlegal : sfxc_handle_is_legal env st h = true)
    (hunlock : (cache_unlock st (st.sfxc_handle_list h).cacheHandle).1 = false) :
    (sfxc_cached_close env st h).1 = -1 ∧
    (sfxc_cached_close env st h).2.sfxc_handle_list h = st.sfxc_handle_list h ∧
    ((sfxc_cached_close env st h).2.sfxc_handle_list h).used = true ∧
    (sfxc_cached_close env st h).2
      = st.log (Event.cache_unlock (st.sfxc_handle_list h).cacheHandle) ∧
    sfxc_handle_is_legal env (sfxc_cached_close env st h).2 h = true := by
  have hzero : st.sfxc_pcache (st.sfxc_handle_list h).cacheHandle = 0 := by
    by_contra hne
    rw [cache_unlock_eq, if_neg hne] at hunlock
    exact absurd (show true = false from hunlock) (by decide)
  have hr : sfxc_cached_close env st h
      = (-1, st.log (Event.cache_unlock (st.sfxc_handle_list h).cacheHandle)) := by
    simp [sfxc_cached_close, hlegal, cache_unlock_eq, hzero]
  rw [hr]
  exact ⟨rfl, rfl, ((legal_iff env st h).mp hlegal).2.1, rfl, hlegal⟩

theorem sfxc_cached_close_unlock_failure_witness :
    (sfxc_cached_close (demoEnv true) ((demoState 1 4).withPcache (fun _ => 0)) 0).1 = -1 ∧
    ((sfxc_cached_close (demoEnv true) ((demoState 1 4).withPcache (fun _ => 0)) 0).2.sfxc_handle_list
      0).used = true := by
  have h := sfxc_cached_close_unlock_failure (demoEnv true)
    ((demoState 1 4).withPcache (fun _ => 0)) 0 (by decide) (by decide)
  exact ⟨h.1, h.2.2.1⟩

/-- The handles `sfxc_handle_is_legal` rejects: an index at or past the end of
the table, a slot (or memory read as a slot) that is not used, whose position
exceeds its `dataSize`, or whose tag is not valid. -/
theorem sfxc_handle_is_legal_rejects (env : Env) (st : SfxcState) (h : Int)
    (hbad : (env.SOUND_EFFECTS_MAX_COUNT : Int) ≤ h ∨ (st.sfxc_handle_list h).used = false ∨
      (st.sfxc_handle_list h).dataSize < (st.sfxc_handle_list h).position ∨
      env.soundEffectsListIsValidTag (st.sfxc_handle_list h).tag = false) :
    sfxc_handle_is_legal env st h = false := by
  cases hc : sfxc_handle_is_legal env st h with
  | false => rfl
  | true =>
    obtain ⟨l1, l2, l3, l4⟩ := (legal_iff env st h).mp hc
    rcases hbad with hb | hb | hb | hb
    · omega
    · rw [l2] at hb; exact absurd hb (by decide)
    · omega
    · rw [l4] at hb; exact absurd hb (by decide)

/-- Calls on a handle that `sfxc_handle_is_legal` rejects (supports C12):
read, seek, tell and close return -1, file size returns 0, and the state,
the caller's buffer included, is unchanged. -/
theorem sfxc_cached_calls_on_rejected_handle (env : Env) (st : SfxcState) (h : Int)
    (hill : sfxc_handle_is_legal env st h = false) :
    (∀ (buf : List UInt8) (size : Nat), sfxc_cached_read env st h buf size = (-1, buf, st)) ∧
    (∀ offset origin : Int, sfxc_cached_seek env st h offset origin = some (-1, st)) ∧
    sfxc_cached_tell env st h = (-1, st) ∧
    sfxc_cached_close env st h = (-1, st) ∧
    sfxc_cached_file_size env st h = (0, st) := by
  refine ⟨fun buf size => ?_, fun offset origin => ?_, ?_, ?_, ?_⟩
  · simp [sfxc_cached_read, hill]
  · simp [sfxc_cached_seek, hill]
  · simp [sfxc_cached_tell, hill]
  · simp [sfxc_cached_close, hill]
  · simp [sfxc_cached_file_size, hill]

/-- C12: the code at a negative handle.  `sfxc_handle_is_legal(-1)` passes the
only bound check (`handle >= SOUND_EFFECTS_MAX_COUNT`) and reads the memory
before the table; when that memory reads as an open slot (used, position 4 of
10, valid tag), the handle is accepted: tell returns 4, file size 10, a read of
3 bytes returns 3, a seek to the start returns 0, and close returns 0,
releases a pin and writes before the table. -/
theorem sfxc_negative_handle_accepted :
    sfxc_handle_is_legal (demoEnv true) (demoStrayState 1) (-1) = true ∧
    (sfxc_cached_tell (demoEnv true) (demoStrayState 1) (-1)).1 = 4 ∧
    (sfxc_cached_file_size (demoEnv true) (demoStrayState 1) (-1)).1 = 10 ∧
    (sfxc_cached_read (demoEnv true) (demoStrayState 1) (-1) [] 3).1 = 3 ∧
    (sfxc_cached_seek (demoEnv true) (demoStrayState 1) (-1) 0 SEEK_SET).map (fun r => r.1)
      = some 0 ∧
    (sfxc_cached_close (demoEnv true) (demoStrayState 1) (-1)).1 = 0 ∧
    (sfxc_cached_close (demoEnv true) (demoStrayState 1) (-1)).2.sfxc_pcache 7 = 0 ∧
    ((sfxc_cached_close (demoEnv true) (demoStrayState 1) (-1)).2.sfxc_handle_list (-1)).used
      = false ∧
    ((sfxc_cached_close (demoEnv true) (demoStrayState 1) (-1)).2.sfxc_handle_list 0).used
      = true := by
  decide

/-- C13: for a legal handle, a read of size 0, or a read with the cursor at
the end of the decoded data (`dataSize - position <= 0`, as a number or as the
32-bit value the code computes), returns 0 and leaves the state and the
caller's buffer as they were. -/
theorem sfxc_cached_read_nothing_to_read (env : Env) (st : SfxcState) (h : Int)
    (buf : List UInt8) (size : Nat)
    (hlegal : sfxc_handle_is_legal env st h = true)
    (hnone : size = 0 ∨
      (st.sfxc_handle_list h).dataSize - (st.sfxc_handle_list h).position ≤ 0 ∨
      wrap32 ((st.sfxc_handle_list h).dataSize - (st.sfxc_handle_list h).position) ≤ 0) :
    sfxc_cached_read env st h buf size = (0, buf, st) := by
  obtain ⟨-, -, l3, -⟩ := (legal_iff env st h).mp hlegal
  by_cases hs : size = 0
  · simp [sfxc_cached_read, hlegal, hs]
  · have hw : wrap32 ((st.sfxc_handle_list h).dataSize - (st.sfxc_handle_list h).position)
        ≤ 0 := by
      rcases hnone with h1 | h2 | h3
      · exact absurd h1 hs
      · have : (st.sfxc_handle_list h).dataSize - (st.sfxc_handle_list h).position = 0 := by
          omega
        rw [this]
        decide
      · exact h3
    simp [sfxc_cached_read, hlegal, hs, hw]

theorem sfxc_cached_read_nothing_to_read_witness :
    sfxc_cached_read (demoEnv true) (demoState 1 10) 0 [1, 2, 3] 5
      = (0, [1, 2, 3], demoState 1 10) ∧
    sfxc_cached_read (demoEnv true) (demoState 1 4) 0 [1, 2, 3] 0
      = (0, [1, 2, 3], demoState 1 4) :=
  ⟨sfxc_cached_read_nothing_to_read (demoEnv true) (demoState 1 10) 0 [1, 2, 3] 5 (by decide)
      (Or.inr (Or.inl (by decide))),
    sfxc_cached_read_nothing_to_read (demoEnv true) (demoState 1 4) 0 [1, 2, 3] 0 (by decide)
      (Or.inl rfl)⟩

/-- The count computed at lines 222-228 of `sfxc_cached_read`, for a slot with
`0 ≤ position < dataSize` and an unsigned 32-bit size: there is something to
read, and the count is `decodeRequest`. -/
theorem bytesToRead_eq_decodeRequest (e : SoundEffect) (size : Nat) (hds : IsInt32 e.dataSize)
    (hpos : 0 ≤ e.position) (hlt : e.position < e.dataSize) (hu32 : size < 4294967296) :
    ¬ wrap32 (e.dataSize - e.position) ≤ 0 ∧
    (if wrap32 (size : Int) < wrap32 (e.dataSize - e.position) then size
      else toU32 (wrap32 (e.dataSize - e.position))) = decodeRequest e size := by
  by_cases hsmall : size < 2147483648
  · obtain ⟨h1, h2⟩ := bytesToRead_eq e.dataSize e.position size hds hpos hlt hsmall
    refine ⟨h1, ?_⟩
    rw [h2]
    simp [decodeRequest, hsmall, readCount]
  · unfold IsInt32 at hds
    have hrem : wrap32 (e.dataSize - e.position) = e.dataSize - e.position :=
      wrap32_of_isInt32 ⟨by omega, by omega⟩
    have hsz : wrap32 (size : Int) < e.dataSize - e.position := by
      unfold wrap32
      omega
    rw [hrem]
    refine ⟨by omega, ?_⟩
    rw [if_pos hsz]
    simp [decodeRequest, hsmall]

theorem decodeRequest_pos (e : SoundEffect) (size : Nat) (hds : IsInt32 e.dataSize)
    (hpos : 0 ≤ e.position) (hlt : e.position < e.dataSize) (hsize : 0 < size) :
    0 < decodeRequest e size := by
  unfold decodeRequest
  split
  · exact (readCount_bounds e size hds hpos hlt hsize).1
  · exact hsize

/-- The read of a legal handle with something to read, in compressed mode:
the decode procedure is asked for `decodeRequest` bytes; its failure is the
failure of the read, its success advances the cursor. -/
theorem sfxc_cached_read_compressed_eq (env : Env) (st : SfxcState) (h : Int)
    (buf : List UInt8) (size : Nat)
    (hlegal : sfxc_handle_is_legal env st h = true)
    (hds : IsInt32 (st.sfxc_handle_list h).dataSize)
    (hpos : 0 ≤ (st.sfxc_handle_list h).position)
    (hlt : (st.sfxc_handle_list h).position < (st.sfxc_handle_list h).dataSize)
    (hsize : 0 < size) (hu32 : size < 4294967296) (hmode : st.sfxc_cmpr = 1) :
    sfxc_cached_read env st h buf size =
      if (sfxc_decode env st h buf (decodeRequest (st.sfxc_handle_list h) size)).1 ≠ 0 then
        (-1, (sfxc_decode env st h buf (decodeRequest (st.sfxc_handle_list h) size)).2.1,
          (sfxc_decode env st h buf (decodeRequest (st.sfxc_handle_list h) size)).2.2)
      else
        ((sfxc_cached_read_advance
            (sfxc_decode env st h buf (decodeRequest (st.sfxc_handle_list h) size)).2.2
            h (decodeRequest (st.sfxc_handle_list h) size)).1,
          (sfxc_decode env st h buf (decodeRequest (st.sfxc_handle_list h) size)).2.1,
          (sfxc_cached_read_advance
            (sfxc_decode env st h buf (decodeRequest (st.sfxc_handle_list h) size)).2.2
            h (decodeRequest (st.sfxc_handle_list h) size)).2) := by
  obtain ⟨hne, hcount⟩ := bytesToRead_eq_decodeRequest _ size hds hpos hlt hu32
  have hsz : size ≠ 0 := by omega
  have h10 : ¬ ((1 : Int) = 0) := by decide
  simp only [sfxc_cached_read, hlegal, hsz, hne, hcount, hmode, h10, Bool.not_true,
    Bool.false_eq_true, if_false, if_true]

/-- The read of a legal handle with something to read, in uncompressed mode:
`decodeRequest` bytes are copied from `data + position` and the cursor is
advanced by that count. -/
theorem sfxc_cached_read_uncompressed_eq (env : Env) (st : SfxcState) (h : Int)
    (buf : List UInt8) (size : Nat)
    (hlegal : sfxc_handle_is_legal env st h = true)
    (hds : IsInt32 (st.sfxc_handle_list h).dataSize)
    (hpos : 0 ≤ (st.sfxc_handle_list h).position)
    (hlt : (st.sfxc_handle_list h).position < (st.sfxc_handle_list h).dataSize)
    (hsize : 0 < size) (hu32 : size < 4294967296) (hmode : st.sfxc_cmpr = 0) :
    sfxc_cached_read env st h buf size =
      ((sfxc_cached_read_advance st h (decodeRequest (st.sfxc_handle_list h) size)).1,
        memcpy buf (readMem (st.sfxc_handle_list h).data (st.sfxc_handle_list h).position
          (decodeRequest (st.sfxc_handle_list h) size)),
        (sfxc_cached_read_advance st h (decodeRequest (st.sfxc_handle_list h) size)).2) := by
  obtain ⟨hne, hcount⟩ := bytesToRead_eq_decodeRequest _ size hds hpos hlt hu32
  have hsz : size ≠ 0 := by omega
  simp only [sfxc_cached_read, hlegal, hsz, hne, hcount, hmode, Bool.not_true,
    Bool.false_eq_true, if_false, if_true]

/-- C14: in compressed mode, for a legal handle with `0 ≤ position < dataSize`
and a size `> 0`, the decode procedure fails exactly when the scratch
allocation for the skipped prefix fails, or the decoder has fewer bytes than
the prefix, or fewer than prefix plus requested block; and when it fails,
`sfxc_cached_read` returns -1 and the position (like the sizes of the slot) is
what it was before the call. -/
theorem sfxc_cached_read_decode_failure (env : Env) (st : SfxcState) (h : Int)
    (buf : List UInt8) (size : Nat)
    (hlegal : sfxc_handle_is_legal env st h = true)
    (hds : IsInt32 (st.sfxc_handle_list h).dataSize)
    (hpos : 0 ≤ (st.sfxc_handle_list h).position)
    (hlt : (st.sfxc_handle_list h).position < (st.sfxc_handle_list h).dataSize)
    (hsize : 0 < size) (hu32 : size < 4294967296) (hmode : st.sfxc_cmpr = 1) :
    ((sfxc_decode env st h buf (decodeRequest (st.sfxc_handle_list h) size)).1 ≠ 0 ↔
      (0 < (st.sfxc_handle_list h).position ∧
        env.internal_malloc_ok (st.sfxc_handle_list h).position.toNat = false) ∨
      (0 < (st.sfxc_handle_list h).position ∧
        (decodedStream env (st.sfxc_handle_list h)).length
          < (st.sfxc_handle_list h).position.toNat) ∨
      (decodedStream env (st.sfxc_handle_list h)).length
        < (st.sfxc_handle_list h).position.toNat
          + decodeRequest (st.sfxc_handle_list h) size) ∧
    ((sfxc_decode env st h buf (decodeRequest (st.sfxc_handle_list h) size)).1 ≠ 0 →
      (sfxc_cached_read env st h buf size).1 = -1 ∧
      ((sfxc_cached_read env st h buf size).2.2.sfxc_handle_list h).position
        = (st.sfxc_handle_list h).position ∧
      ((sfxc_cached_read env st h buf size).2.2.sfxc_handle_list h).dataSize
        = (st.sfxc_handle_list h).dataSize ∧
      sfxc_handle_is_legal env (sfxc_cached_read env st h buf size).2.2 h = true) := by
  have hn := decodeRequest_pos (st.sfxc_handle_list h) size hds hpos hlt hsize
  have hpi : IsInt32 (st.sfxc_handle_list h).position := by
    unfold IsInt32 at hds ⊢
    omega
  obtain ⟨d1, -⟩ := sfxc_decode_result env st h buf
    (decodeRequest (st.sfxc_handle_list h) size) hlegal hpos hpi
  constructor
  · generalize decodeRequest (st.sfxc_handle_list h) size = n at hn d1 ⊢
    rw [d1]
    by_cases hz : (st.sfxc_handle_list h).position = 0
    · have hz' : (st.sfxc_handle_list h).position.toNat = 0 := by omega
      rw [if_pos hz, List.length_take, hz']
      by_cases hshort : (decodedStream env (st.sfxc_handle_list h)).length < n
      · rw [if_pos (by omega)]
        exact ⟨fun _ => Or.inr (Or.inr (by omega)), fun _ => by decide⟩
      · rw [if_neg (by omega)]
        constructor
        · intro hc; exact absurd rfl hc
        · intro hc
          rcases hc with ⟨hc, -⟩ | ⟨hc, -⟩ | hc <;> omega
    · rw [if_neg hz]
      have hp : 0 < (st.sfxc_handle_list h).position := by omega
      by_cases hm : env.internal_malloc_ok (st.sfxc_handle_list h).position.toNat = true
      swap
      · have hm' : env.internal_malloc_ok (st.sfxc_handle_list h).position.toNat = false := by
          simpa using hm
        rw [hm']
        simp only [Bool.not_false, if_true]
        exact ⟨fun _ => Or.inl ⟨hp, trivial⟩, fun _ => by decide⟩
      · rw [hm]
        simp only [Bool.not_true, Bool.false_eq_true, if_false, List.length_take,
          List.length_drop]
        by_cases hshort : (decodedStream env (st.sfxc_handle_list h)).length
            < (st.sfxc_handle_list h).position.toNat
        · rw [if_pos (by omega)]
          exact ⟨fun _ => Or.inr (Or.inl ⟨hp, hshort⟩), fun _ => by decide⟩
        · rw [if_neg (by omega)]
          by_cases hshort2 : (decodedStream env (st.sfxc_handle_list h)).length
              < (st.sfxc_handle_list h).position.toNat + n
          · rw [if_pos (by omega)]
            exact ⟨fun _ => Or.inr (Or.inr hshort2), fun _ => by decide⟩
          · rw [if_neg (by omega)]
            constructor
            · intro hc; exact absurd rfl hc
            · intro hc
              rcases hc with ⟨-, hc⟩ | ⟨-, hc⟩ | hc
              · exact absurd hc (by decide)
              · omega
              · omega
  · intro hfail
    have hform := sfxc_cached_read_compressed_eq env st h buf size hlegal hds hpos hlt hsize
      hu32 hmode
    have hframe := rawCursorOnly_slot (rawCursorOnly_decode env st h buf
      (decodeRequest (st.sfxc_handle_list h) size)) h
    obtain ⟨l1, l2, l3, l4⟩ := (legal_iff env st h).mp hlegal
    rw [hform, if_pos hfail]
    refine ⟨rfl, hframe.2.2.2.2.2.1, hframe.2.2.2.1, ?_⟩
    apply (legal_iff env _ h).mpr
    refine ⟨l1, ?_, ?_, ?_⟩
    · exact hframe.1.trans l2
    · show ((sfxc_decode env st h buf (decodeRequest (st.sfxc_handle_list h) size)).2.2.sfxc_handle_list
        h).position ≤ ((sfxc_decode env st h buf
          (decodeRequest (st.sfxc_handle_list h) size)).2.2.sfxc_handle_list h).dataSize
      rw [hframe.2.2.2.2.2.1, hframe.2.2.2.1]
      exact l3
    · show env.soundEffectsListIsValidTag ((sfxc_decode env st h buf
        (decodeRequest (st.sfxc_handle_list h) size)).2.2.sfxc_handle_list h).tag = true
      rw [hframe.2.2.1]
      exact l4

theorem sfxc_cached_read_decode_failure_witness :
    (sfxc_cached_read (demoEnv false) (demoState 1 4) 0 [] 3).1 = -1 ∧
    ((sfxc_cached_read (demoEnv false) (demoState 1 4) 0 [] 3).2.2.sfxc_handle_list 0).position
      = 4 := by
  have h := sfxc_cached_read_decode_failure (demoEnv false) (demoState 1 4) 0 [] 3
    (by decide) (by decide) (by decide) (by decide) (by decide) (by decide) (by decide)
  have hr := h.2 (h.1.mpr (Or.inl ⟨by decide, by decide⟩))
  exact ⟨hr.1, hr.2.1⟩

/-- The copy for sizes below `2^31` (supports C15): in uncompressed mode, for a
legal handle with `0 ≤ position < dataSize` and a size `> 0` below `2^31`,
`sfxc_cached_read` writes into the caller's buffer exactly the bytes
`data[position .. position + n)`
of the pinned block, where `n = min(size, dataSize - position)` and `position`
is the value before the call: they become the first `n` bytes of the buffer,
and the buffer past them is what it was. -/
theorem sfxc_cached_read_uncompressed_copies (env : Env) (st : SfxcState) (h : Int)
    (buf : List UInt8) (size : Nat)
    (hlegal : sfxc_handle_is_legal env st h = true)
    (hds : IsInt32 (st.sfxc_handle_list h).dataSize)
    (hpos : 0 ≤ (st.sfxc_handle_list h).position)
    (hlt : (st.sfxc_handle_list h).position < (st.sfxc_handle_list h).dataSize)
    (hsize : 0 < size) (hsmall : size < 2147483648) (hmode : st.sfxc_cmpr = 0) :
    (readCount (st.sfxc_handle_list h) size : Int)
      = min (size : Int) ((st.sfxc_handle_list h).dataSize - (st.sfxc_handle_list h).position) ∧
    (sfxc_cached_read env st h buf size).1 = (readCount (st.sfxc_handle_list h) size : Int) ∧
    (sfxc_cached_read env st h buf size).2.1
      = memcpy buf (readMem (st.sfxc_handle_list h).data (st.sfxc_handle_list h).position
          (readCount (st.sfxc_handle_list h) size)) ∧
    (sfxc_cached_read env st h buf size).2.1.take (readCount (st.sfxc_handle_list h) size)
      = readMem (st.sfxc_handle_list h).data (st.sfxc_handle_list h).position
          (readCount (st.sfxc_handle_list h) size) ∧
    (sfxc_cached_read env st h buf size).2.1.drop (readCount (st.sfxc_handle_list h) size)
      = buf.drop (readCount (st.sfxc_handle_list h) size) := by
  have hform := sfxc_cached_read_uncompressed_eq env st h buf size hlegal hds hpos hlt hsize
    (by omega) hmode
  have hreq : decodeRequest (st.sfxc_handle_list h) size = readCount (st.sfxc_handle_list h) size := by
    simp [decodeRequest, hsmall]
  obtain ⟨-, hmin, hw, -, -⟩ := readCount_bounds (st.sfxc_handle_list h) size hds hpos hlt hsize
  rw [hreq] at hform
  rw [hform]
  have hlen := readMem_length (st.sfxc_handle_list h).data (st.sfxc_handle_list h).position
    (readCount (st.sfxc_handle_list h) size)
  refine ⟨hmin, hw, rfl, ?_, ?_⟩
  · show (memcpy buf _).take _ = _
    unfold memcpy
    rw [List.take_append_of_le_length (by omega), List.take_of_length_le (by omega)]
  · show (memcpy buf _).drop _ = _
    unfold memcpy
    rw [List.drop_append_of_le_length (by omega), List.drop_of_length_le (by omega), hlen]
    rfl

theorem sfxc_cached_read_uncompressed_copies_witness :
    (sfxc_cached_read (demoEnv true) (demoState 0 4) 0 [0, 0, 0, 0] 3).2.1
      = memcpy [0, 0, 0, 0] (readMem ((demoState 0 4).sfxc_handle_list 0).data
          ((demoState 0 4).sfxc_handle_list 0).position
          (readCount ((demoState 0 4).sfxc_handle_list 0) 3)) ∧
    (sfxc_cached_read (demoEnv true) (demoState 0 4) 0 [0, 0, 0, 0] 3).2.1 = [4, 5, 6, 0] := by
  have h := sfxc_cached_read_uncompressed_copies (demoEnv true) (demoState 0 4) 0 [0, 0, 0, 0] 3
    (by decide) (by decide) (by decide) (by decide) (by decide) (by decide) (by decide)
  exact ⟨h.2.2.1, by decide⟩

/-- What does hold of a seek and the tell after it (supports C16): for a legal
handle, a seek that returns either fails with -1 and leaves the state as it
was, or stores the value it returns as the position of the handle; the
following `sfxc_cached_tell` returns that value when it is at most `dataSize`,
and -1 when it is above; and `sfxc_cached_tell` never changes the state. -/
theorem sfxc_cached_seek_then_tell (env : Env) (st : SfxcState) (h : Int) (offset origin : Int)
    (r : Int × SfxcState)
    (hlegal : sfxc_handle_is_legal env st h = true)
    (hseek : sfxc_cached_seek env st h offset origin = some r) :
    (r = (-1, st) ∨
      ((r.2.sfxc_handle_list h).position = r.1 ∧
        (r.2.sfxc_handle_list h).dataSize = (st.sfxc_handle_list h).dataSize ∧
        (r.1 ≤ (st.sfxc_handle_list h).dataSize → (sfxc_cached_tell env r.2 h).1 = r.1) ∧
        ((st.sfxc_handle_list h).dataSize < r.1 → (sfxc_cached_tell env r.2 h).1 = -1))) ∧
    (∀ (st0 : SfxcState) (h0 : Int), (sfxc_cached_tell env st0 h0).2 = st0) := by
  obtain ⟨l1, l2, l3, l4⟩ := (legal_iff env st h).mp hlegal
  have hstore : ∀ v : Int,
      (((st.setSlot h ((st.sfxc_handle_list h).withPosition v)).sfxc_handle_list h).position = v ∧
        ((st.setSlot h ((st.sfxc_handle_list h).withPosition v)).sfxc_handle_list h).dataSize
          = (st.sfxc_handle_list h).dataSize ∧
        (v ≤ (st.sfxc_handle_list h).dataSize →
          (sfxc_cached_tell env (st.setSlot h ((st.sfxc_handle_list h).withPosition v)) h).1 = v) ∧
        ((st.sfxc_handle_list h).dataSize < v →
          (sfxc_cached_tell env (st.setSlot h ((st.sfxc_handle_list h).withPosition v)) h).1
            = -1)) := by
    intro v
    have hslot : (st.setSlot h ((st.sfxc_handle_list h).withPosition v)).sfxc_handle_list h
        = (st.sfxc_handle_list h).withPosition v := setSlot_same st h _
    refine ⟨by rw [hslot]; simp, by rw [hslot]; simp, ?_, ?_⟩
    · intro hle
      have hl : sfxc_handle_is_legal env
          (st.setSlot h ((st.sfxc_handle_list h).withPosition v)) h = true := by
        apply (legal_iff env _ h).mpr
        rw [hslot]
        simp only [withPosition_fields]
        exact ⟨l1, l2, hle, l4⟩
      simp [sfxc_cached_tell, hl, hslot]
    · intro hgt
      have hl : sfxc_handle_is_legal env
          (st.setSlot h ((st.sfxc_handle_list h).withPosition v)) h = false := by
        apply sfxc_handle_is_legal_rejects
        rw [hslot]
        simp only [withPosition_fields]
        exact Or.inr (Or.inr (Or.inl hgt))
      simp [sfxc_cached_tell, hl]
  constructor
  · simp only [sfxc_cached_seek, hlegal, Bool.not_true, Bool.false_eq_true, if_false] at hseek
    have hcase : ∀ (base : Int),
        (if offset ≥ 0 then
          some (wrap32 (base + if abs32 offset >
                wrap32 ((st.sfxc_handle_list h).dataSize - (st.sfxc_handle_list h).position)
              then wrap32 ((st.sfxc_handle_list h).dataSize - (st.sfxc_handle_list h).position)
              else abs32 offset),
            st.setSlot h ((st.sfxc_handle_list h).withPosition (wrap32 (base + if abs32 offset >
                wrap32 ((st.sfxc_handle_list h).dataSize - (st.sfxc_handle_list h).position)
              then wrap32 ((st.sfxc_handle_list h).dataSize - (st.sfxc_handle_list h).position)
              else abs32 offset))))
        else if abs32 offset > base then some (-1, st)
        else some (wrap32 (base - abs32 offset),
          st.setSlot h ((st.sfxc_handle_list h).withPosition (wrap32 (base - abs32 offset)))))
          = some r →
        (r = (-1, st) ∨
          ((r.2.sfxc_handle_list h).position = r.1 ∧
            (r.2.sfxc_handle_list h).dataSize = (st.sfxc_handle_list h).dataSize ∧
            (r.1 ≤ (st.sfxc_handle_list h).dataSize → (sfxc_cached_tell env r.2 h).1 = r.1) ∧
            ((st.sfxc_handle_list h).dataSize < r.1 →
              (sfxc_cached_tell env r.2 h).1 = -1))) := by
      intro base hb
      by_cases h0 : offset ≥ 0
      · rw [if_pos h0] at hb
        have hr := (Option.some.inj hb).symm
        subst hr
        exact Or.inr (hstore _)
      · rw [if_neg h0] at hb
        by_cases h2 : abs32 offset > base
        · rw [if_pos h2] at hb
          exact Or.inl (Option.some.inj hb).symm
        · rw [if_neg h2] at hb
          have hr := (Option.some.inj hb).symm
          subst hr
          exact Or.inr (hstore _)
    by_cases h1 : origin = SEEK_SET
    · rw [if_pos h1] at hseek
      exact hcase 0 hseek
    · rw [if_neg h1] at hseek
      by_cases h2 : origin = SEEK_CUR
      · rw [if_pos h2] at hseek
        exact hcase _ hseek
      · rw [if_neg h2] at hseek
        by_cases h3 : origin = SEEK_END
        · rw [if_pos h3] at hseek
          exact hcase _ hseek
        · rw [if_neg h3] at hseek
          exact absurd hseek (by simp)
  · intro st0 h0
    unfold sfxc_cached_tell
    split <;> rfl

/-- C16: the code at a forward seek from the end.  On a legal handle at
position 4 of 10 bytes, `sfxc_cached_seek(h, 3, SEEK_END)` succeeds, returns
13 and stores 13 as the position of the handle, and the immediately following
`sfxc_cached_tell` returns -1, not 13. -/
theorem sfxc_cached_seek_then_tell_differs :
    sfxc_handle_is_legal (demoEnv true) (demoState 1 4) 0 = true ∧
    (sfxc_cached_seek (demoEnv true) (demoState 1 4) 0 3 SEEK_END).map
      (fun r => (r.1, (r.2.sfxc_handle_list 0).position,
        (sfxc_cached_tell (demoEnv true) r.2 0).1)) = some (13, 13, -1) := by
  decide

/-- C17: a successful `sfxc_cached_open` returns the lowest index of the table
whose slot was unused before the call (every slot below it was used), and
marks that slot used; and when the state before the call is the one a
successful `sfxc_init` left, the returned handle is 0. -/
theorem sfxc_cached_open_lowest_free (env : Env) (st : SfxcState) (fname : String)
    (hok : (sfxc_cached_open env st fname).1 ≠ -1) :
    (∃ idx : Nat, (sfxc_cached_open env st fname).1 = (idx : Int) ∧
      idx < env.SOUND_EFFECTS_MAX_COUNT ∧
      (st.sfxc_handle_list (idx : Int)).used = false ∧
      (∀ j : Nat, j < idx → (st.sfxc_handle_list (j : Int)).used = true) ∧
      ((sfxc_cached_open env st fname).2.sfxc_handle_list (idx : Int)).used = true) ∧
    (∀ (st0 : SfxcState) (cacheSize : Int) (effectsPath : Option String),
      (sfxc_init env st0 cacheSize effectsPath).1 = 0 →
      st = (sfxc_init env st0 cacheSize effectsPath).2 →
      (sfxc_cached_open env st fname).1 = 0) := by
  obtain ⟨tag, data, created, -, hfetch, hcreate, hopen⟩ :=
    sfxc_cached_open_success env st fname hok
  obtain ⟨k1, k2, k3⟩ := sfxc_handle_create_some env _ tag data tag created hcreate
  rw [cache_lock_some env st tag data hfetch] at k1 k2 k3
  simp only [withPcache_fields, log_list] at k1 k2 k3
  obtain ⟨-, -, s3, s4⟩ :=
    sfxc_handle_create_scan_spec st.sfxc_handle_list env.SOUND_EFFECTS_MAX_COUNT 0
  have hfree := s3 (by omega)
  generalize sfxc_handle_create_scan st.sfxc_handle_list env.SOUND_EFFECTS_MAX_COUNT 0 = idx
    at k1 k2 hfree s4
  have hret : (sfxc_cached_open env st fname).1 = (idx : Int) := by rw [hopen, k1]
  constructor
  · refine ⟨idx, hret, k2, hfree, fun j hj => s4 j (by omega) hj, ?_⟩
    rw [hopen, k3, k1, setSlot_same]
  · intro st0 cacheSize effectsPath hinit hst
    obtain ⟨hclear, -, -⟩ := sfxc_init_success env st0 cacheSize effectsPath hinit
    rw [hret]
    by_cases h0 : idx = 0
    · rw [h0]; rfl
    · have hused := s4 0 (by omega) (by omega)
      rw [hst, hclear 0 (by omega)] at hused
      exact absurd hused (by decide)

theorem sfxc_cached_open_lowest_free_witness :
    (sfxc_cached_open (demoEnv true)
      (sfxc_init (demoEnv true) (demoState 1 0) 524288 (some "sfx/")).2 "explosion").1 = 0 :=
  (sfxc_cached_open_lowest_free (demoEnv true)
    (sfxc_init (demoEnv true) (demoState 1 0) 524288 (some "sfx/")).2 "explosion"
    (by decide)).2 (demoState 1 0) 524288 (some "sfx/") (by decide) rfl

/-- C18: `sfxc_cached_write` returns -1 for every handle, buffer and size, in
every state, and the state after the call is the state before it. -/
theorem sfxc_cached_write_always_fails (st : SfxcState) (handle : Int) (buf : List UInt8)
    (size : Nat) :
    (sfxc_cached_write st handle buf size).1 = -1 ∧
    (sfxc_cached_write st handle buf size).2 = st :=
  ⟨rfl, rfl⟩

/-- C19: for a `cacheSize` below `SOUND_EFFECTS_CACHE_MIN_SIZE`, whatever the
collaborators would answer, `sfxc_init` returns -1 after the single call that
reads the debug level from the configuration: no path copy, directory, handle
table or cache call is made, the handle table, the cache and the stored path
are what they were, and `sfxc_is_initialized` is what it was, so an
uninitialised subsystem stays uninitialised. -/
theorem sfxc_init_below_minimum (env : Env) (st : SfxcState) (cacheSize : Int)
    (effectsPath : Option String) (hsmall : cacheSize < SOUND_EFFECTS_CACHE_MIN_SIZE) :
    (sfxc_init env st cacheSize effectsPath).1 = -1 ∧
    (sfxc_init env st cacheSize effectsPath).2.trace = st.trace ++ [Event.config_get_value] ∧
    (sfxc_init env st cacheSize effectsPath).2.sfxc_effect_path = st.sfxc_effect_path ∧
    (sfxc_init env st cacheSize effectsPath).2.sfxc_handle_list = st.sfxc_handle_list ∧
    (sfxc_init env st cacheSize effectsPath).2.sfxc_pcache = st.sfxc_pcache ∧
    (sfxc_init env st cacheSize effectsPath).2.sfxc_files_open = st.sfxc_files_open ∧
    sfxc_is_initialized (sfxc_init env st cacheSize effectsPath).2 = sfxc_is_initialized st ∧
    (st.sfxc_initialized = false →
      sfxc_is_initialized (sfxc_init env st cacheSize effectsPath).2 = 0) := by
  have hle : cacheSize ≤ SOUND_EFFECTS_CACHE_MIN_SIZE := by omega
  have hr : sfxc_init env st cacheSize effectsPath
      = (-1, (st.log Event.config_get_value).withDlevel (env.config_get_value.getD 1)) := by
    simp only [sfxc_init, hle, if_true]
  rw [hr]
  refine ⟨rfl, rfl, rfl, rfl, rfl, rfl, rfl, ?_⟩
  intro hun
  show sfxc_is_initialized st = 0
  simp [sfxc_is_initialized, hun]

theorem sfxc_init_below_minimum_witness :
    (sfxc_init (demoEnv true) ((demoState 1 0).withInitialized false) 1000 (some "sfx/")).1 = -1 ∧
    sfxc_is_initialized
      (sfxc_init (demoEnv true) ((demoState 1 0).withInitialized false) 1000 (some "sfx/")).2
        = 0 := by
  have h := sfxc_init_below_minimum (demoEnv true) ((demoState 1 0).withInitialized false) 1000
    (some "sfx/") (by decide)
  exact ⟨h.1, h.2.2.2.2.2.2.2 rfl⟩

/-- The loop of `sfxc_handle_list_create` touches the handle table only. -/
theorem sfxc_handle_list_create_loop_frame (n : Nat) (s : SfxcState) :
    ((List.range n).foldl (fun s (index : Nat) => s.setSlot (index : Int)
      ((s.sfxc_handle_list (index : Int)).withUsed false)) s).trace = s.trace ∧
    ((List.range n).foldl (fun s (index : Nat) => s.setSlot (index : Int)
      ((s.sfxc_handle_list (index : Int)).withUsed false)) s).sfxc_initialized
        = s.sfxc_initialized := by
  induction n with
  | zero => exact ⟨rfl, rfl⟩
  | succ n ih =>
    rw [List.range_succ, List.foldl_append]
    simp only [List.foldl_cons, List.foldl_nil, setSlot_trace, setSlot_initialized]
    exact ih

/-- The two outcomes of `sfxc_handle_list_create`: one allocation call either
way; on success the open-file counter is 0. -/
theorem sfxc_handle_list_create_outcome (env : Env) (st : SfxcState) :
    (sfxc_handle_list_create env st).2.trace = st.trace ++ [Event.malloc_handle_list] ∧
    (sfxc_handle_list_create env st).2.sfxc_initialized = st.sfxc_initialized ∧
    (env.malloc_handle_list_ok = true → (sfxc_handle_list_create env st).1 = 0 ∧
      (sfxc_handle_list_create env st).2.sfxc_files_open = 0) ∧
    (env.malloc_handle_list_ok = false → (sfxc_handle_list_create env st).1 ≠ 0) := by
  cases hm : env.malloc_handle_list_ok with
  | false =>
    have hr : sfxc_handle_list_create env st = (-1, st.log Event.malloc_handle_list) := by
      simp [sfxc_handle_list_create, hm]
    rw [hr]
    exact ⟨rfl, rfl, fun hc => absurd hc (by decide), fun _ => by show (-1 : Int) ≠ 0; decide⟩
  | true =>
    obtain ⟨f1, f2⟩ := sfxc_handle_list_create_loop_frame env.SOUND_EFFECTS_MAX_COUNT
      (st.log Event.malloc_handle_list)
    simp only [sfxc_handle_list_create, hm, Bool.not_true, Bool.false_eq_true, if_false,
      withFilesOpen_fields, f1, f2, log_trace, log_initialized]
    exact ⟨trivial, trivial, fun _ => ⟨trivial, trivial⟩, fun hc => absurd hc (by decide)⟩

/-- With no open file counted, `sfxc_handle_list_destroy` only frees the
table. -/
theorem sfxc_handle_list_destroy_idle (env : Env) (st : SfxcState)
    (hzero : st.sfxc_files_open = 0) :
    sfxc_handle_list_destroy env st = st.log Event.free_handle_list := by
  simp [sfxc_handle_list_destroy, hzero]

/-- C20: `sfxc_init` with a `cacheSize` above the minimum, in a subsystem that
is not initialised.  For each of the five steps that can fail (copy of the
path, directory init, handle-table allocation, cache allocation, `cache_init`)
with the steps before it succeeding, it returns -1, `sfxc_is_initialized` is
still 0, and the calls it made are the acquisitions up to the failing step
followed by one release of each acquired resource, latest first; when every
step succeeds it returns 0 with `sfxc_is_initialized` 1 and no release; and it
returns 0 only when every step succeeds. -/
theorem sfxc_init_all_or_nothing (env : Env) (st : SfxcState) (cacheSize : Int)
    (effectsPath : Option String)
    (hsize : SOUND_EFFECTS_CACHE_MIN_SIZE < cacheSize)
    (hun : st.sfxc_initialized = false) :
    (env.internal_strdup_ok (effectsPath.getD "") = false →
      (sfxc_init env st cacheSize effectsPath).1 = -1 ∧
      sfxc_is_initialized (sfxc_init env st cacheSize effectsPath).2 = 0 ∧
      (sfxc_init env st cacheSize effectsPath).2.trace = st.trace ++
        [Event.config_get_value, Event.strdup_effect_path]) ∧
    (env.internal_strdup_ok (effectsPath.getD "") = true →
      env.soundEffectsListInit_ok (effectsPath.getD "") st.sfxc_cmpr
        (env.config_get_value.getD 1) = false →
      (sfxc_init env st cacheSize effectsPath).1 = -1 ∧
      sfxc_is_initialized (sfxc_init env st cacheSize effectsPath).2 = 0 ∧
      (sfxc_init env st cacheSize effectsPath).2.trace = st.trace ++
        [Event.config_get_value, Event.strdup_effect_path, Event.soundEffectsListInit,
          Event.free_effect_path]) ∧
    (env.internal_strdup_ok (effectsPath.getD "") = true →
      env.soundEffectsListInit_ok (effectsPath.getD "") st.sfxc_cmpr
        (env.config_get_value.getD 1) = true →
      env.malloc_handle_list_ok = false →
      (sfxc_init env st cacheSize effectsPath).1 = -1 ∧
      sfxc_is_initialized (sfxc_init env st cacheSize effectsPath).2 = 0 ∧
      (sfxc_init env st cacheSize effectsPath).2.trace = st.trace ++
        [Event.config_get_value, Event.strdup_effect_path, Event.soundEffectsListInit,
          Event.malloc_handle_list,
          Event.soundEffectsListExit, Event.free_effect_path]) ∧
    (env.internal_strdup_ok (effectsPath.getD "") = true →
      env.soundEffectsListInit_ok (effectsPath.getD "") st.sfxc_cmpr
        (env.config_get_value.getD 1) = true →
      env.malloc_handle_list_ok = true → env.malloc_cache_ok = false →
      (sfxc_init env st cacheSize effectsPath).1 = -1 ∧
      sfxc_is_initialized (sfxc_init env st cacheSize effectsPath).2 = 0 ∧
      (sfxc_init env st cacheSize effectsPath).2.trace = st.trace ++
        [Event.config_get_value, Event.strdup_effect_path, Event.soundEffectsListInit,
          Event.malloc_handle_list, Event.malloc_cache,
          Event.free_handle_list, Event.soundEffectsListExit, Event.free_effect_path]) ∧
    (env.internal_strdup_ok (effectsPath.getD "") = true →
      env.soundEffectsListInit_ok (effectsPath.getD "") st.sfxc_cmpr
        (env.config_get_value.getD 1) = true →
      env.malloc_handle_list_ok = true → env.malloc_cache_ok = true →
      env.cache_init_ok cacheSize = false →
      (sfxc_init env st cacheSize effectsPath).1 = -1 ∧
      sfxc_is_initialized (sfxc_init env st cacheSize effectsPath).2 = 0 ∧
      (sfxc_init env st cacheSize effectsPath).2.trace = st.trace ++
        [Event.config_get_value, Event.strdup_effect_path, Event.soundEffectsListInit,
          Event.malloc_handle_list, Event.malloc_cache, Event.cache_init,
          Event.free_cache, Event.free_handle_list, Event.soundEffectsListExit,
          Event.free_effect_path]) ∧
    (env.internal_strdup_ok (effectsPath.getD "") = true →
      env.soundEffectsListInit_ok (effectsPath.getD "") st.sfxc_cmpr
        (env.config_get_value.getD 1) = true →
      env.malloc_handle_list_ok = true → env.malloc_cache_ok = true →
      env.cache_init_ok cacheSize = true →
      (sfxc_init env st cacheSize effectsPath).1 = 0 ∧
      sfxc_is_initialized (sfxc_init env st cacheSize effectsPath).2 = 1 ∧
      (sfxc_init env st cacheSize effectsPath).2.trace = st.trace ++
        [Event.config_get_value, Event.strdup_effect_path, Event.soundEffectsListInit,
          Event.malloc_handle_list, Event.malloc_cache, Event.cache_init]) ∧
    ((sfxc_init env st cacheSize effectsPath).1 = 0 →
      env.internal_strdup_ok (effectsPath.getD "") = true ∧
      env.soundEffectsListInit_ok (effectsPath.getD "") st.sfxc_cmpr
        (env.config_get_value.getD 1) = true ∧
      env.malloc_handle_list_ok = true ∧ env.malloc_cache_ok = true ∧
      env.cache_init_ok cacheSize = true) := by
  have hgt : ¬ cacheSize ≤ SOUND_EFFECTS_CACHE_MIN_SIZE := by omega
  have hflag : ∀ s : SfxcState, s.sfxc_initialized = false → sfxc_is_initialized s = 0 := by
    intro s hs
    simp [sfxc_is_initialized, hs]
  cases hS : env.internal_strdup_ok (effectsPath.getD "") with
  | false =>
    have hr : sfxc_init env st cacheSize effectsPath
        = (-1, ((((st.log Event.config_get_value).withDlevel (env.config_get_value.getD 1)).log
            Event.strdup_effect_path).withEffectPath none)) := by
      simp [sfxc_init, hgt, hS]
    have h1 : (sfxc_init env st cacheSize effectsPath).1 = -1 := by rw [hr]
    have h2 : sfxc_is_initialized (sfxc_init env st cacheSize effectsPath).2 = 0 := by
      rw [hr]; exact hflag _ hun
    have h3 : (sfxc_init env st cacheSize effectsPath).2.trace = st.trace ++
        [Event.config_get_value, Event.strdup_effect_path] := by
      rw [hr]; simp
    refine ⟨fun _ => ⟨h1, h2, h3⟩, ?_, ?_, ?_, ?_, ?_, ?_⟩
    · intro h; contradiction
    · intro h; contradiction
    · intro h; contradiction
    · intro h; contradiction
    · intro h; contradiction
    · intro h; rw [h1] at h; exact absurd h (by decide)
  | true =>
    obtain ⟨st5, hst5⟩ : ∃ s : SfxcState, s = ((((st.log Event.config_get_value).withDlevel
        (env.config_get_value.getD 1)).log Event.strdup_effect_path).withEffectPath
        (some (effectsPath.getD ""))).log Event.soundEffectsListInit := ⟨_, rfl⟩
    have t5 : st5.trace = st.trace ++
        [Event.config_get_value, Event.strdup_effect_path, Event.soundEffectsListInit] := by
      rw [hst5]; simp
    have i5 : st5.sfxc_initialized = false := by rw [hst5]; exact hun
    have hform : sfxc_init env st cacheSize effectsPath =
        if !env.soundEffectsListInit_ok (effectsPath.getD "") st.sfxc_cmpr
            (env.config_get_value.getD 1) then
          (-1, st5.log Event.free_effect_path)
        else if (sfxc_handle_list_create env st5).1 ≠ 0 then
          (-1, ((sfxc_handle_list_create env st5).2.log Event.soundEffectsListExit).log
            Event.free_effect_path)
        else if !env.malloc_cache_ok then
          (-1, (((sfxc_handle_list_destroy env
            ((sfxc_handle_list_create env st5).2.log Event.malloc_cache)).log
              Event.soundEffectsListExit).log Event.free_effect_path))
        else if !(cache_init env ((sfxc_handle_list_create env st5).2.log Event.malloc_cache)
            cacheSize).1 then
          (-1, (((sfxc_handle_list_destroy env
            ((cache_init env ((sfxc_handle_list_create env st5).2.log Event.malloc_cache)
              cacheSize).2.log Event.free_cache)).log
              Event.soundEffectsListExit).log Event.free_effect_path))
        else (0, (cache_init env ((sfxc_handle_list_create env st5).2.log Event.malloc_cache)
            cacheSize).2.withInitialized true) := by
      subst hst5
      simp only [sfxc_init, if_neg hgt, hS, Bool.not_true, Bool.false_eq_true, if_false]
      rfl
    obtain ⟨c1, c2, c3, c4⟩ := sfxc_handle_list_create_outcome env st5
    cases hL : env.soundEffectsListInit_ok (effectsPath.getD "") st.sfxc_cmpr
        (env.config_get_value.getD 1) with
    | false =>
      rw [hL] at hform
      simp only [Bool.not_false, if_true] at hform
      have h1 : (sfxc_init env st cacheSize effectsPath).1 = -1 := by rw [hform]
      have h2 : sfxc_is_initialized (sfxc_init env st cacheSize effectsPath).2 = 0 := by
        rw [hform]; exact hflag _ i5
      have h3 : (sfxc_init env st cacheSize effectsPath).2.trace = st.trace ++
          [Event.config_get_value, Event.strdup_effect_path, Event.soundEffectsListInit,
            Event.free_effect_path] := by
        rw [hform]; simp [t5]
      refine ⟨?_, ?_, ?_, ?_, ?_, ?_, ?_⟩
      all_goals first
        | (intros; contradiction)
        | (intros; exact ⟨h1, h2, h3⟩)
        | (intro h; rw [h1] at h; exact absurd h (by decide))
    | true =>
      rw [hL] at hform
      simp only [Bool.not_true, Bool.false_eq_true, if_false] at hform
      cases hH : env.malloc_handle_list_ok with
      | false =>
        rw [if_pos (c4 hH)] at hform
        have h1 : (sfxc_init env st cacheSize effectsPath).1 = -1 := by rw [hform]
        have h2 : sfxc_is_initialized (sfxc_init env st cacheSize effectsPath).2 = 0 := by
          rw [hform]; apply hflag; simp [c2, i5]
        have h3 : (sfxc_init env st cacheSize effectsPath).2.trace = st.trace ++
            [Event.config_get_value, Event.strdup_effect_path, Event.soundEffectsListInit,
              Event.malloc_handle_list,
              Event.soundEffectsListExit, Event.free_effect_path] := by
          rw [hform]; simp [c1, t5]
        refine ⟨?_, ?_, ?_, ?_, ?_, ?_, ?_⟩
        all_goals first
          | (intros; contradiction)
          | (intros; exact ⟨h1, h2, h3⟩)
          | (intro h; rw [h1] at h; exact absurd h (by decide))
      | true =>
        obtain ⟨z1, z2⟩ := c3 hH
        rw [if_neg (not_not.mpr z1)] at hform
        have hidle : ∀ ev : Event, sfxc_handle_list_destroy env
            ((sfxc_handle_list_create env st5).2.log ev)
              = ((sfxc_handle_list_create env st5).2.log ev).log Event.free_handle_list :=
          fun ev => sfxc_handle_list_destroy_idle env _ z2
        cases hC : env.malloc_cache_ok with
        | false =>
          rw [hC, hidle] at hform
          simp only [Bool.not_false, if_true] at hform
          have h1 : (sfxc_init env st cacheSize effectsPath).1 = -1 := by rw [hform]
          have h2 : sfxc_is_initialized (sfxc_init env st cacheSize effectsPath).2 = 0 := by
            rw [hform]; apply hflag; simp [c2, i5]
          have h3 : (sfxc_init env st cacheSize effectsPath).2.trace = st.trace ++
              [Event.config_get_value, Event.strdup_effect_path, Event.soundEffectsListInit,
                Event.malloc_handle_list, Event.malloc_cache,
                Event.free_handle_list, Event.soundEffectsListExit,
                Event.free_effect_path] := by
            rw [hform]; simp [c1, t5]
          refine ⟨?_, ?_, ?_, ?_, ?_, ?_, ?_⟩
          all_goals first
            | (intros; contradiction)
            | (intros; exact ⟨h1, h2, h3⟩)
            | (intro h; rw [h1] at h; exact absurd h (by decide))
        | true =>
          rw [hC] at hform
          simp only [Bool.not_true, Bool.false_eq_true, if_false] at hform
          cases hI : env.cache_init_ok cacheSize with
          | false =>
            have hci : cache_init env ((sfxc_handle_list_create env st5).2.log Event.malloc_cache)
                cacheSize = (false,
                  ((sfxc_handle_list_create env st5).2.log Event.malloc_cache).log
                    Event.cache_init) := by
              simp [cache_init, hI]
            rw [hci] at hform
            simp only [Bool.not_false, if_true] at hform
            rw [sfxc_handle_list_destroy_idle env _ (by simpa using z2)] at hform
            have h1 : (sfxc_init env st cacheSize effectsPath).1 = -1 := by rw [hform]
            have h2 : sfxc_is_initialized (sfxc_init env st cacheSize effectsPath).2 = 0 := by
              rw [hform]; apply hflag; simp [c2, i5]
            have h3 : (sfxc_init env st cacheSize effectsPath).2.trace = st.trace ++
                [Event.config_get_value, Event.strdup_effect_path, Event.soundEffectsListInit,
                  Event.malloc_handle_list, Event.malloc_cache, Event.cache_init,
                  Event.free_cache, Event.free_handle_list, Event.soundEffectsListExit,
                  Event.free_effect_path] := by
              rw [hform]; simp [c1, t5]
            refine ⟨?_, ?_, ?_, ?_, ?_, ?_, ?_⟩
            all_goals first
              | (intros; contradiction)
              | (intros; exact ⟨h1, h2, h3⟩)
              | (intro h; rw [h1] at h; exact absurd h (by decide))
          | true =>
            have hci : cache_init env ((sfxc_handle_list_create env st5).2.log Event.malloc_cache)
                cacheSize = (true,
                  (((sfxc_handle_list_create env st5).2.log Event.malloc_cache).log
                    Event.cache_init).withPcache (fun _ => 0)) := by
              simp [cache_init, hI]
            rw [hci] at hform
            simp only [Bool.not_true, Bool.false_eq_true, if_false] at hform
            have h1 : (sfxc_init env st cacheSize effectsPath).1 = 0 := by rw [hform]
            have h2 : sfxc_is_initialized (sfxc_init env st cacheSize effectsPath).2 = 1 := by
              rw [hform]; simp [sfxc_is_initialized]
            have h3 : (sfxc_init env st cacheSize effectsPath).2.trace = st.trace ++
                [Event.config_get_value, Event.strdup_effect_path, Event.soundEffectsListInit,
                  Event.malloc_handle_list, Event.malloc_cache, Event.cache_init] := by
              rw [hform]; simp [c1, t5]
            refine ⟨?_, ?_, ?_, ?_, ?_, ?_, ?_⟩
            all_goals first
              | (intros; contradiction)
              | (intros; exact ⟨h1, h2, h3⟩)
              | exact fun _ => ⟨rfl, rfl, rfl, rfl, rfl⟩

theorem sfxc_init_all_or_nothing_witness :
    (sfxc_init (demoInitEnv true true true true false) coldState 524288 (some "sfx/")).1 = -1 ∧
    sfxc_is_initialized
      (sfxc_init (demoInitEnv true true true true false) coldState 524288 (some "sfx/")).2 = 0 ∧
    (sfxc_init (demoInitEnv true true true true false) coldState 524288 (some "sfx/")).2.trace =
      [Event.config_get_value, Event.strdup_effect_path, Event.soundEffectsListInit,
        Event.malloc_handle_list, Event.malloc_cache, Event.cache_init,
        Event.free_cache, Event.free_handle_list, Event.soundEffectsListExit,
        Event.free_effect_path] :=
  (sfxc_init_all_or_nothing (demoInitEnv true true true true false) coldState 524288
    (some "sfx/") (by decide) rfl).2.2.2.2.1 rfl rfl rfl rfl rfl

/-- The loop of `sfxc_handle_list_destroy` (lines 387-392) changes nothing: it
calls `sfxc_cached_close` on indices of the table whose slot is not used, and
such a handle is not legal. -/
theorem sfxc_handle_list_destroy_loop (env : Env) (n : Nat) (hn : n ≤ env.SOUND_EFFECTS_MAX_COUNT)
    (s : SfxcState) :
    (List.range n).foldl
      (fun s (index : Nat) =>
        if !(s.sfxc_handle_list (index : Int)).used then (sfxc_cached_close env s (index : Int)).2
        else s) s = s := by
  induction n with
  | zero => rfl
  | succ n ih =>
    rw [List.range_succ, List.foldl_append, ih (by omega)]
    simp only [List.foldl_cons, List.foldl_nil]
    cases hu : (s.sfxc_handle_list (n : Int)).used with
    | true => rfl
    | false =>
      have hill : sfxc_handle_is_legal env s (n : Int) = false :=
        sfxc_handle_is_legal_rejects env s _ (Or.inr (Or.inl hu))
      simp [sfxc_cached_close, hill]

/-- Whatever the open-file counter says, `sfxc_handle_list_destroy` only
frees the table: no slot is closed. -/
theorem sfxc_handle_list_destroy_eq (env : Env) (st : SfxcState) :
    sfxc_handle_list_destroy env st = st.log Event.free_handle_list := by
  unfold sfxc_handle_list_destroy
  by_cases hz : st.sfxc_files_open ≠ 0
  · rw [if_pos hz, sfxc_handle_list_destroy_loop env _ (le_refl _)]
  · rw [if_neg hz]

/-- What `sfxc_exit` does on an initialised subsystem: five collaborator
calls, the flag cleared, the handle table left as it is. -/
theorem sfxc_exit_initialized (env : Env) (st : SfxcState) (hinit : st.sfxc_initialized = true) :
    sfxc_exit env st = ((((((st.log Event.cache_exit).withPcache (fun _ => 0)).log
      Event.free_cache).log Event.free_handle_list).log Event.soundEffectsListExit).log
      Event.free_effect_path).withInitialized false := by
  simp only [sfxc_exit, hinit, if_true, sfxc_handle_list_destroy_eq, cache_exit]

theorem sfxc_exit_uninitialized (env : Env) (st : SfxcState) (hinit : st.sfxc_initialized = false) :
    sfxc_exit env st = st := by
  simp [sfxc_exit, hinit]

/-- C21: the code at shutdown with a handle still open.  After a successful
`sfxc_init` and one successful open (handle 0, one pin on entry 7),
`sfxc_exit` tears the cache down first and never closes the handle: slot 0 is
still used afterwards and the calls made contain no cache unlock; the same
happens when the open-file counter is not 0, where the loop of
`sfxc_handle_list_destroy` visits the slots that are not used. -/
theorem sfxc_exit_leaves_handle_open :
    openedState.sfxc_initialized = true ∧
    (openedState.sfxc_handle_list 0).used = true ∧
    openedState.sfxc_pcache 7 = 1 ∧
    openedState.sfxc_files_open = 0 ∧
    ((sfxc_exit (demoEnv true) openedState).sfxc_handle_list 0).used = true ∧
    (sfxc_exit (demoEnv true) openedState).trace = openedState.trace ++
      [Event.cache_exit, Event.free_cache, Event.free_handle_list, Event.soundEffectsListExit,
        Event.free_effect_path] ∧
    ((sfxc_exit (demoEnv true) (openedState.withFilesOpen 1)).sfxc_handle_list 0).used = true ∧
    (sfxc_exit (demoEnv true) (openedState.withFilesOpen 1)).trace = openedState.trace ++
      [Event.cache_exit, Event.free_cache, Event.free_handle_list, Event.soundEffectsListExit,
        Event.free_effect_path] := by
  decide

/-- C22: `sfxc_exit` on a subsystem that is not initialised returns the state
it was given (no variable changes, no collaborator is called), and so does
`sfxc_flush`; after `sfxc_exit`, in every case, `sfxc_is_initialized` is 0;
hence a second `sfxc_exit` right after the first changes nothing more. -/
theorem sfxc_exit_idempotent (env : Env) (st : SfxcState) :
    (st.sfxc_initialized = false →
      sfxc_exit env st = st ∧ (sfxc_exit env st).trace = st.trace ∧
      sfxc_flush st = st ∧ (sfxc_flush st).trace = st.trace) ∧
    sfxc_is_initialized (sfxc_exit env st) = 0 ∧
    sfxc_exit env (sfxc_exit env st) = sfxc_exit env st := by
  have hflag : (sfxc_exit env st).sfxc_initialized = false := by
    cases hinit : st.sfxc_initialized with
    | false => rw [sfxc_exit_uninitialized env st hinit]; exact hinit
    | true => rw [sfxc_exit_initialized env st hinit]; rfl
  refine ⟨?_, ?_, sfxc_exit_uninitialized env _ hflag⟩
  · intro hinit
    have hf : sfxc_flush st = st := by simp [sfxc_flush, hinit]
    rw [sfxc_exit_uninitialized env st hinit, hf]
    exact ⟨rfl, rfl, rfl, rfl⟩
  · simp [sfxc_is_initialized, hflag]

theorem sfxc_exit_idempotent_witness :
    sfxc_exit (demoEnv true) coldState = coldState ∧
    sfxc_flush coldState = coldState ∧
    sfxc_exit (demoEnv true) (sfxc_exit (demoEnv true) openedState)
      = sfxc_exit (demoEnv true) openedState :=
  ⟨((sfxc_exit_idempotent (demoEnv true) coldState).1 rfl).1,
    ((sfxc_exit_idempotent (demoEnv true) coldState).1 rfl).2.2.1,
    (sfxc_exit_idempotent (demoEnv true) openedState).2.2⟩

theorem sfxc_cached_close_files_open (env : Env) (st : SfxcState) (handle : Int) :
    (sfxc_cached_close env st handle).2.sfxc_files_open = st.sfxc_files_open := by
  have hd : ∀ s : SfxcState,
      (sfxc_handle_destroy env s handle).sfxc_files_open = s.sfxc_files_open := by
    intro s
    unfold sfxc_handle_destroy
    split <;> rfl
  have hu : ∀ e : Int, (cache_unlock st e).2.sfxc_files_open = st.sfxc_files_open := by
    intro e
    rw [cache_unlock_eq]
    split <;> rfl
  unfold sfxc_cached_close
  split
  · rfl
  · simp only []
    split
    · exact hu _
    · rw [hd]; exact hu _

theorem sfxc_cached_open_files_open (env : Env) (st : SfxcState) (fname : String) :
    (sfxc_cached_open env st fname).2.sfxc_files_open = st.sfxc_files_open := by
  by_cases hfail : (sfxc_cached_open env st fname).1 = -1
  · simp only [sfxc_cached_open] at hfail ⊢
    split
    · rfl
    · split
      · rfl
      · cases hname : env.soundEffectsListGetTag fname with
        | none => rfl
        | some tag =>
          cases hfetch : env.cache_fetch tag with
          | none =>
            simp only [cache_lock_none env st tag hfetch]
            rfl
          | some data =>
            simp only [cache_lock_some env st tag data hfetch]
            cases hcreate : sfxc_handle_create env
                ((st.log (Event.cache_lock tag)).withPcache
                  (fun e => if e = tag then st.sfxc_pcache e + 1 else st.sfxc_pcache e))
                tag data tag with
            | none =>
              simp only [cache_unlock]
              split <;> rfl
            | some created =>
              obtain ⟨-, -, k3⟩ := sfxc_handle_create_some env _ tag data tag created hcreate
              simp only [k3]
              rfl
  · obtain ⟨tag, data, created, -, hfetch, hcreate, hopen⟩ :=
      sfxc_cached_open_success env st fname hfail
    obtain ⟨-, -, k3⟩ := sfxc_handle_create_some env _ tag data tag created hcreate
    rw [cache_lock_some env st tag data hfetch] at k3
    rw [hopen, k3]
    rfl

/-- What the code does with the open-file counter (supports C25): no open and
no close changes `sfxc_files_open`, so after a successful `sfxc_init` and any
sequence of `sfxc_cached_open` / `sfxc_cached_close` calls it is still 0. -/
theorem sfxc_files_open_stays_zero (env : Env) (st : SfxcState) (cacheSize : Int)
    (effectsPath : Option String) (calls : List Call)
    (hok : (sfxc_init env st cacheSize effectsPath).1 = 0) :
    (sfxc_calls env (sfxc_init env st cacheSize effectsPath).2 calls).sfxc_files_open = 0 := by
  have hstep : ∀ (cs : List Call) (s : SfxcState),
      (sfxc_calls env s cs).sfxc_files_open = s.sfxc_files_open := by
    intro cs
    induction cs with
    | nil => intro s; rfl
    | cons c rest ih =>
      intro s
      simp only [sfxc_calls, List.foldl_cons]
      have := ih (sfxc_call env s c)
      simp only [sfxc_calls] at this
      rw [this]
      cases c with
      | doOpen fname => exact sfxc_cached_open_files_open env s fname
      | doClose handle => exact sfxc_cached_close_files_open env s handle
  rw [hstep]
  simp only [sfxc_init] at hok ⊢
  split at hok
  · exact absurd (show (-1 : Int) = 0 from hok) (by decide)
  rename_i h1
  rw [if_neg h1]
  split at hok
  · exact absurd (show (-1 : Int) = 0 from hok) (by decide)
  rename_i h2
  rw [if_neg h2]
  split at hok
  · exact absurd (show (-1 : Int) = 0 from hok) (by decide)
  rename_i h3
  rw [if_neg h3]
  split at hok
  · exact absurd (show (-1 : Int) = 0 from hok) (by decide)
  rename_i h4
  rw [if_neg h4]
  split at hok
  · exact absurd (show (-1 : Int) = 0 from hok) (by decide)
  rename_i h5
  rw [if_neg h5]
  split at hok
  · exact absurd (show (-1 : Int) = 0 from hok) (by decide)
  rename_i h6
  rw [if_neg h6]
  have hcreate := sfxc_handle_list_create_clears env _ (not_not.mp h4)
  simp only [cache_init]
  split
  · exact hcreate.2
  · exact hcreate.2

/-- C25: the code after one open.  After a successful `sfxc_init` and one
successful `sfxc_cached_open` (handle 0), one slot of the table is used while
the open-file counter `sfxc_files_open` is 0. -/
theorem sfxc_files_open_not_counting :
    (sfxc_init (demoEnv true) coldState 524288 (some "sfx/")).1 = 0 ∧
    (sfxc_cached_open (demoEnv true)
      (sfxc_init (demoEnv true) coldState 524288 (some "sfx/")).2 "explosion").1 = 0 ∧
    usedSlots (demoEnv true) openedState = 1 ∧
    openedState.sfxc_files_open = 0 := by
  decide

theorem sfxc_ad_reader_other (st : SfxcState) (h : Int) (buf : List UInt8) (size : Nat)
    (i : Int) (hne : i ≠ h) :
    (sfxc_ad_reader st h buf size).2.2.sfxc_handle_list i = st.sfxc_handle_list i := by
  unfold sfxc_ad_reader
  split
  · rfl
  · exact setSlot_other _ _ _ _ hne

theorem soundDecoderInit_other (env : Env) (st : SfxcState) (h : Int) (i : Int) (hne : i ≠ h) :
    (soundDecoderInit env st h).2.sfxc_handle_list i = st.sfxc_handle_list i ∧
    (soundDecoderInit env st h).1.handle = h := by
  unfold soundDecoderInit
  exact ⟨sfxc_ad_reader_other _ h _ _ i hne, rfl⟩

theorem soundDecoderDecode_other (env : Env) (st : SfxcState) (d : SoundDecoder) (count : Nat)
    (i : Int) (hne : i ≠ d.handle) :
    (soundDecoderDecode env st d count).2.2.2.sfxc_handle_list i = st.sfxc_handle_list i ∧
    (soundDecoderDecode env st d count).2.2.1.handle = d.handle := by
  unfold soundDecoderDecode
  exact ⟨sfxc_ad_reader_other _ _ _ _ i hne, rfl⟩

theorem sfxc_decode_block_other (env : Env) (st : SfxcState) (d : SoundDecoder)
    (buf : List UInt8) (size : Nat) (i : Int) (hne : i ≠ d.handle) :
    (sfxc_decode_block env st d buf size).2.2.sfxc_handle_list i = st.sfxc_handle_list i := by
  have hd := (soundDecoderDecode_other env st d size i hne).1
  unfold sfxc_decode_block
  simp only []
  split <;> exact hd

/-- The decode procedure touches no slot of the handle table but the one of
its handle. -/
theorem sfxc_decode_other (env : Env) (st : SfxcState) (h : Int) (buf : List UInt8) (size : Nat)
    (i : Int) (hne : i ≠ h) :
    (sfxc_decode env st h buf size).2.2.sfxc_handle_list i = st.sfxc_handle_list i := by
  have h0 : (st.setSlot h ((st.sfxc_handle_list h).withDataPosition 0)).sfxc_handle_list i
      = st.sfxc_handle_list i := setSlot_other _ _ _ _ hne
  obtain ⟨h1, hh⟩ := soundDecoderInit_other env
    (st.setSlot h ((st.sfxc_handle_list h).withDataPosition 0)) h i hne
  rw [h0] at h1
  unfold sfxc_decode
  split
  · rfl
  · simp only []
    split
    · split
      · exact h1
      · have hne1 : i ≠ (soundDecoderInit env
            (st.setSlot h ((st.sfxc_handle_list h).withDataPosition 0)) h).1.handle := by
          rw [hh]; exact hne
        obtain ⟨h2, hh2⟩ := soundDecoderDecode_other env
          (soundDecoderInit env (st.setSlot h ((st.sfxc_handle_list h).withDataPosition 0)) h).2
          (soundDecoderInit env (st.setSlot h ((st.sfxc_handle_list h).withDataPosition 0)) h).1
          (toU32 ((soundDecoderInit env
            (st.setSlot h ((st.sfxc_handle_list h).withDataPosition 0)) h).2.sfxc_handle_list
              h).position) i hne1
        split
        · exact h2.trans h1
        · rw [sfxc_decode_block_other env _ _ buf size i (by rw [hh2]; exact hne1)]
          exact h2.trans h1
    · rw [sfxc_decode_block_other env _ _ buf size i (by rw [hh]; exact hne)]
      exact h1

theorem sfxc_cached_read_other (env : Env) (st : SfxcState) (h : Int) (buf : List UInt8)
    (size : Nat) (i : Int) (hne : i ≠ h) :
    (sfxc_cached_read env st h buf size).2.2.sfxc_handle_list i = st.sfxc_handle_list i := by
  have hd := fun n => sfxc_decode_other env st h buf n i hne
  have hadv : ∀ (s : SfxcState) (n : Nat),
      (sfxc_cached_read_advance s h n).2.sfxc_handle_list i = s.sfxc_handle_list i := by
    intro s n
    unfold sfxc_cached_read_advance
    exact setSlot_other _ _ _ _ hne
  simp only [sfxc_cached_read]
  generalize (if wrap32 (size : Int)
      < wrap32 ((st.sfxc_handle_list h).dataSize - (st.sfxc_handle_list h).position) then size
    else toU32 (wrap32 ((st.sfxc_handle_list h).dataSize - (st.sfxc_handle_list h).position))) = n
  by_cases c1 : (!sfxc_handle_is_legal env st h) = true
  · rw [if_pos c1]
  rw [if_neg c1]
  by_cases c2 : size = 0
  · rw [if_pos c2]
  rw [if_neg c2]
  by_cases c3 : wrap32 ((st.sfxc_handle_list h).dataSize - (st.sfxc_handle_list h).position) ≤ 0
  · rw [if_pos c3]
  rw [if_neg c3]
  by_cases c4 : st.sfxc_cmpr = 0
  · rw [if_pos c4]
    exact hadv st n
  rw [if_neg c4]
  by_cases c5 : st.sfxc_cmpr = 1
  · rw [if_pos c5]
    by_cases c6 : (sfxc_decode env st h buf n).1 ≠ 0
    · rw [if_pos c6]
      exact hd n
    · rw [if_neg c6]
      exact (hadv (sfxc_decode env st h buf n).2.2 n).trans (hd n)
  · rw [if_neg c5]

theorem sfxc_cached_close_other (env : Env) (st : SfxcState) (h : Int) (i : Int) (hne : i ≠ h) :
    (sfxc_cached_close env st h).2.sfxc_handle_list i = st.sfxc_handle_list i := by
  have hu : ∀ e : Int, (cache_unlock st e).2.sfxc_handle_list = st.sfxc_handle_list := by
    intro e
    rw [cache_unlock_eq]
    split <;> rfl
  unfold sfxc_cached_close
  split
  · rfl
  · simp only []
    split
    · rw [hu]
    · unfold sfxc_handle_destroy
      split
      · rw [setSlot_other _ _ _ _ hne, hu]
      · rw [hu]

theorem sfxc_cached_seek_other (env : Env) (st : SfxcState) (h : Int) (offset origin : Int)
    (r : Int × SfxcState) (hseek : sfxc_cached_seek env st h offset origin = some r)
    (i : Int) (hne : i ≠ h) :
    r.2.sfxc_handle_list i = st.sfxc_handle_list i := by
  have hstore : ∀ (v w : Int) (x : Int × SfxcState),
      some (v, st.setSlot h ((st.sfxc_handle_list h).withPosition w)) = some x →
      x.2.sfxc_handle_list i = st.sfxc_handle_list i := by
    intro v w x hx
    rw [← Option.some.inj hx]
    exact setSlot_other _ _ _ _ hne
  have hsame : ∀ (v : Int) (x : Int × SfxcState), some (v, st) = some x →
      x.2.sfxc_handle_list i = st.sfxc_handle_list i := by
    intro v x hx
    rw [← Option.some.inj hx]
  have hcase : ∀ (base : Int),
      (if offset ≥ 0 then
        some (wrap32 (base + if abs32 offset >
              wrap32 ((st.sfxc_handle_list h).dataSize - (st.sfxc_handle_list h).position)
            then wrap32 ((st.sfxc_handle_list h).dataSize - (st.sfxc_handle_list h).position)
            else abs32 offset),
          st.setSlot h ((st.sfxc_handle_list h).withPosition (wrap32 (base + if abs32 offset >
              wrap32 ((st.sfxc_handle_list h).dataSize - (st.sfxc_handle_list h).position)
            then wrap32 ((st.sfxc_handle_list h).dataSize - (st.sfxc_handle_list h).position)
            else abs32 offset))))
      else if abs32 offset > base then some (-1, st)
      else some (wrap32 (base - abs32 offset),
        st.setSlot h ((st.sfxc_handle_list h).withPosition (wrap32 (base - abs32 offset)))))
        = some r → r.2.sfxc_handle_list i = st.sfxc_handle_list i := by
    intro base hb
    by_cases h0 : offset ≥ 0
    · rw [if_pos h0] at hb
      exact hstore _ _ r hb
    · rw [if_neg h0] at hb
      by_cases h2 : abs32 offset > base
      · rw [if_pos h2] at hb
        exact hsame _ r hb
      · rw [if_neg h2] at hb
        exact hstore _ _ r hb
  by_cases hlegal : sfxc_handle_is_legal env st h = true
  swap
  · have hill : sfxc_handle_is_legal env st h = false := by simpa using hlegal
    simp only [sfxc_cached_seek, hill, Bool.not_false, if_true] at hseek
    exact hsame _ r hseek
  simp only [sfxc_cached_seek, hlegal, Bool.not_true, Bool.false_eq_true, if_false] at hseek
  by_cases h1 : origin = SEEK_SET
  · rw [if_pos h1] at hseek
    exact hcase 0 hseek
  · rw [if_neg h1] at hseek
    by_cases h2 : origin = SEEK_CUR
    · rw [if_pos h2] at hseek
      exact hcase _ hseek
    · rw [if_neg h2] at hseek
      by_cases h3 : origin = SEEK_END
      · rw [if_pos h3] at hseek
        exact hcase _ hseek
      · rw [if_neg h3] at hseek
        exact absurd hseek (by simp)

theorem sfxc_cached_open_other (env : Env) (st : SfxcState) (fname : String) (i : Int)
    (hne : i ≠ (sfxc_cached_open env st fname).1) :
    (sfxc_cached_open env st fname).2.sfxc_handle_list i = st.sfxc_handle_list i := by
  by_cases hfail : (sfxc_cached_open env st fname).1 = -1
  · rw [(sfxc_cached_open_failure env st fname hfail).1]
  · obtain ⟨tag, data, created, -, hfetch, hcreate, hopen⟩ :=
      sfxc_cached_open_success env st fname hfail
    obtain ⟨-, -, k3⟩ := sfxc_handle_create_some env _ tag data tag created hcreate
    rw [cache_lock_some env st tag data hfetch] at k3
    rw [hopen] at hne ⊢
    rw [k3, setSlot_other _ _ _ _ hne]
    rfl

/-- C27: frame property of the handle table.  For every handle `h` and every
index `i` other than `h`, slot `i` is the same after `sfxc_cached_close(h)`,
after `sfxc_cached_read(h, ...)` and after `sfxc_cached_seek(h, ...)` as it was
before; and after `sfxc_cached_open`, successful or not, every slot other than
the one whose index it returns is as it was before. -/
theorem sfxc_handle_table_frame (env : Env) (st : SfxcState) (h i : Int) (hne : i ≠ h) :
    (sfxc_cached_close env st h).2.sfxc_handle_list i = st.sfxc_handle_list i ∧
    (∀ (buf : List UInt8) (size : Nat),
      (sfxc_cached_read env st h buf size).2.2.sfxc_handle_list i = st.sfxc_handle_list i) ∧
    (∀ (offset origin : Int) (r : Int × SfxcState),
      sfxc_cached_seek env st h offset origin = some r →
      r.2.sfxc_handle_list i = st.sfxc_handle_list i) ∧
    (∀ fname : String, (sfxc_cached_open env st fname).1 = h →
      (sfxc_cached_open env st fname).2.sfxc_handle_list i = st.sfxc_handle_list i) :=
  ⟨sfxc_cached_close_other env st h i hne,
    fun buf size => sfxc_cached_read_other env st h buf size i hne,
    fun offset origin r hseek => sfxc_cached_seek_other env st h offset origin r hseek i hne,
    fun fname hret => sfxc_cached_open_other env st fname i (by rw [hret]; exact hne)⟩

theorem sfxc_handle_table_frame_witness :
    (sfxc_cached_close (demoEnv true) (demoState 1 4) 0).2.sfxc_handle_list 1
      = (demoState 1 4).sfxc_handle_list 1 ∧
    (sfxc_cached_read (demoEnv true) (demoState 1 4) 0 [] 3).2.2.sfxc_handle_list 1
      = (demoState 1 4).sfxc_handle_list 1 ∧
    (sfxc_cached_open (demoEnv true) (demoState 1 4) "explosion").2.sfxc_handle_list 0
      = (demoState 1 4).sfxc_handle_list 0 :=
  ⟨(sfxc_handle_table_frame (demoEnv true) (demoState 1 4) 0 1 (by decide)).1,
    (sfxc_handle_table_frame (demoEnv true) (demoState 1 4) 0 1 (by decide)).2.1 [] 3,
    (sfxc_handle_table_frame (demoEnv true) (demoState 1 4) 1 0 (by decide)).2.2.2 "explosion"
      (by decide)⟩

theorem setSlot_self (st : SfxcState) (h : Int) : st.setSlot h (st.sfxc_handle_list h) = st := by
  cases st
  simp only [SfxcState.setSlot, SfxcState.mk.injEq, true_and, and_true]
  funext i
  split
  · rename_i hi; rw [hi]
  · rfl

theorem setSlot_setSlot (st : SfxcState) (h : Int) (a b : SoundEffect) :
    (st.setSlot h a).setSlot h b = st.setSlot h b := by
  cases st
  simp only [SfxcState.setSlot, SfxcState.mk.injEq, true_and, and_true]
  funext i
  split <;> rfl

theorem withPosition_self (e : SoundEffect) : e.withPosition e.position = e := by
  cases e
  rfl

/-- Forward seeks from a current position that is not negative (supports
C26): for a legal handle at position `p ≥ 0` and an offset `≥ 0`,
`sfxc_cached_seek(h, offset, SEEK_CUR)` returns `min(p + offset, dataSize)` and
stores it as the position of the handle; with offset 0 it returns `p` and the
state after the call is the state before it. -/
theorem sfxc_cached_seek_cur_forward (env : Env) (st : SfxcState) (h : Int) (offset : Int)
    (hlegal : sfxc_handle_is_legal env st h = true)
    (hds : IsInt32 (st.sfxc_handle_list h).dataSize)
    (hpos : 0 ≤ (st.sfxc_handle_list h).position)
    (hoff0 : 0 ≤ offset) (hoff : offset < 2147483648) :
    sfxc_cached_seek env st h offset SEEK_CUR =
      some (min ((st.sfxc_handle_list h).position + offset) (st.sfxc_handle_list h).dataSize,
        st.setSlot h ((st.sfxc_handle_list h).withPosition
          (min ((st.sfxc_handle_list h).position + offset) (st.sfxc_handle_list h).dataSize))) ∧
    (offset = 0 →
      sfxc_cached_seek env st h offset SEEK_CUR = some ((st.sfxc_handle_list h).position, st)) := by
  obtain ⟨-, -, l3, -⟩ := (legal_iff env st h).mp hlegal
  have hform := sfxc_cached_seek_forward env st h offset SEEK_CUR hlegal (Or.inr (Or.inl rfl))
    hds hpos hoff0 hoff
  have hbase : seekBase (st.sfxc_handle_list h) SEEK_CUR = (st.sfxc_handle_list h).position := by
    simp [seekBase, SEEK_SET, SEEK_CUR]
  have hval : wrap32 ((st.sfxc_handle_list h).position +
      min offset ((st.sfxc_handle_list h).dataSize - (st.sfxc_handle_list h).position))
      = min ((st.sfxc_handle_list h).position + offset) (st.sfxc_handle_list h).dataSize := by
    unfold IsInt32 at hds
    rw [wrap32_of_isInt32 (by unfold IsInt32; omega)]
    omega
  rw [hbase, hval] at hform
  refine ⟨hform, ?_⟩
  intro hz
  rw [hform, hz]
  have hmin : min ((st.sfxc_handle_list h).position + 0) (st.sfxc_handle_list h).dataSize
      = (st.sfxc_handle_list h).position := by omega
  rw [hmin, withPosition_self, setSlot_self]

theorem sfxc_cached_seek_cur_forward_witness :
    sfxc_cached_seek (demoEnv true) (demoState 1 4) 0 100 SEEK_CUR =
      some (min (((demoState 1 4).sfxc_handle_list 0).position + 100)
          ((demoState 1 4).sfxc_handle_list 0).dataSize,
        (demoState 1 4).setSlot 0 (((demoState 1 4).sfxc_handle_list 0).withPosition
          (min (((demoState 1 4).sfxc_handle_list 0).position + 100)
            ((demoState 1 4).sfxc_handle_list 0).dataSize))) ∧
    sfxc_cached_seek (demoEnv true) (demoState 1 4) 0 0 SEEK_CUR = some (4, demoState 1 4) :=
  ⟨(sfxc_cached_seek_cur_forward (demoEnv true) (demoState 1 4) 0 100 (by decide) (by decide)
      (by decide) (by decide) (by decide)).1,
    (sfxc_cached_seek_cur_forward (demoEnv true) (demoState 1 4) 0 0 (by decide) (by decide)
      (by decide) (by decide) (by decide)).2 rfl⟩

/-- When every collaborator succeeds and the size is above the minimum,
`sfxc_init` returns 0. -/
theorem sfxc_init_all_succeed (env : Env) (st : SfxcState) (cacheSize : Int)
    (effectsPath : Option String)
    (hgt : ¬ cacheSize ≤ SOUND_EFFECTS_CACHE_MIN_SIZE)
    (hS : env.internal_strdup_ok (effectsPath.getD "") = true)
    (hL : env.soundEffectsListInit_ok (effectsPath.getD "") st.sfxc_cmpr
      (env.config_get_value.getD 1) = true)
    (hH : env.malloc_handle_list_ok = true) (hC : env.malloc_cache_ok = true)
    (hI : env.cache_init_ok cacheSize = true) :
    (sfxc_init env st cacheSize effectsPath).1 = 0 := by
  obtain ⟨st5, hst5⟩ : ∃ s : SfxcState, s = ((((st.log Event.config_get_value).withDlevel
      (env.config_get_value.getD 1)).log Event.strdup_effect_path).withEffectPath
      (some (effectsPath.getD ""))).log Event.soundEffectsListInit := ⟨_, rfl⟩
  have hL5 : env.soundEffectsListInit_ok (effectsPath.getD "") st5.sfxc_cmpr st5.sfxc_dlevel
      = true := by
    rw [hst5]; exact hL
  have z1 := ((sfxc_handle_list_create_outcome env st5).2.2.1 hH).1
  have hci : ∀ s : SfxcState, (cache_init env s cacheSize).1 = true := by
    intro s
    simp [cache_init, hI]
  subst hst5
  simp only [sfxc_init, if_neg hgt, hS, hL5, z1, hC, hci, Bool.not_true, Bool.false_eq_true,
    if_false, ne_eq, not_true_eq_false]

/-- C28: with every collaborator succeeding (copy of the path, directory
init, the two allocations, `cache_init`), `sfxc_init(cacheSize, path)` returns
0 exactly when `cacheSize > 0x40000`, and -1 otherwise; a `cacheSize` equal to
`0x40000` gives -1. -/
theorem sfxc_init_minimum_exclusive (env : Env) (st : SfxcState) (cacheSize : Int)
    (effectsPath : Option String)
    (hS : env.internal_strdup_ok (effectsPath.getD "") = true)
    (hL : env.soundEffectsListInit_ok (effectsPath.getD "") st.sfxc_cmpr
      (env.config_get_value.getD 1) = true)
    (hH : env.malloc_handle_list_ok = true) (hC : env.malloc_cache_ok = true)
    (hI : env.cache_init_ok cacheSize = true) :
    ((sfxc_init env st cacheSize effectsPath).1 = 0 ↔ cacheSize > 0x40000) ∧
    (¬ cacheSize > 0x40000 → (sfxc_init env st cacheSize effectsPath).1 = -1) ∧
    (cacheSize = 0x40000 → (sfxc_init env st cacheSize effectsPath).1 = -1) := by
  have hlow : cacheSize ≤ 0x40000 → (sfxc_init env st cacheSize effectsPath).1 = -1 := by
    intro hle
    have hle' : cacheSize ≤ SOUND_EFFECTS_CACHE_MIN_SIZE := hle
    simp only [sfxc_init, hle', if_true]
  have hhigh : cacheSize > 0x40000 → (sfxc_init env st cacheSize effectsPath).1 = 0 := by
    intro hgt
    have hgt' : ¬ cacheSize ≤ SOUND_EFFECTS_CACHE_MIN_SIZE := by
      unfold SOUND_EFFECTS_CACHE_MIN_SIZE
      omega
    exact sfxc_init_all_succeed env st cacheSize effectsPath hgt' hS hL hH hC hI
  refine ⟨⟨fun h0 => ?_, hhigh⟩, fun hn => hlow (by omega), fun he => hlow (by omega)⟩
  by_contra hn
  rw [hlow (by omega)] at h0
  exact absurd h0 (by decide)

theorem sfxc_init_minimum_exclusive_witness :
    (sfxc_init (demoEnv true) coldState 262144 (some "sfx/")).1 = -1 ∧
    (sfxc_init (demoEnv true) coldState 262145 (some "sfx/")).1 = 0 :=
  ⟨(sfxc_init_minimum_exclusive (demoEnv true) coldState 262144 (some "sfx/") rfl rfl rfl rfl
      rfl).2.2 rfl,
    (sfxc_init_minimum_exclusive (demoEnv true) coldState 262145 (some "sfx/") rfl rfl rfl rfl
      rfl).1.mpr (by decide)⟩

/-- C24: for a slot with `0 ≤ dataPosition ≤ fileSize` and an unsigned 32-bit
size, `sfxc_ad_reader` returns `n = min(size, fileSize - dataPosition)`, which
is never negative and is 0 when `dataPosition == fileSize`; it copies the raw
bytes `data[dataPosition .. dataPosition + n)` into the buffer, advances
`dataPosition` by `n` and leaves it within `0 .. fileSize`; the other fields
of the slot are as they were. -/
theorem sfxc_ad_reader_clamped (st : SfxcState) (h : Int) (buf : List UInt8) (size : Nat)
    (hfs : IsInt32 (st.sfxc_handle_list h).fileSize)
    (hlo : 0 ≤ (st.sfxc_handle_list h).dataPosition)
    (hhi : (st.sfxc_handle_list h).dataPosition ≤ (st.sfxc_handle_list h).fileSize)
    (hu32 : size < 4294967296) :
    (sfxc_ad_reader st h buf size).1
      = min (size : Int) ((st.sfxc_handle_list h).fileSize - (st.sfxc_handle_list h).dataPosition) ∧
    0 ≤ (sfxc_ad_reader st h buf size).1 ∧
    ((st.sfxc_handle_list h).dataPosition = (st.sfxc_handle_list h).fileSize →
      (sfxc_ad_reader st h buf size).1 = 0) ∧
    (sfxc_ad_reader st h buf size).2.1
      = memcpy buf (readMem (st.sfxc_handle_list h).data (st.sfxc_handle_list h).dataPosition
          (sfxc_ad_reader st h buf size).1.toNat) ∧
    ((sfxc_ad_reader st h buf size).2.2.sfxc_handle_list h).dataPosition
      = (st.sfxc_handle_list h).dataPosition + (sfxc_ad_reader st h buf size).1 ∧
    0 ≤ ((sfxc_ad_reader st h buf size).2.2.sfxc_handle_list h).dataPosition ∧
    ((sfxc_ad_reader st h buf size).2.2.sfxc_handle_list h).dataPosition
      ≤ ((sfxc_ad_reader st h buf size).2.2.sfxc_handle_list h).fileSize ∧
    ((sfxc_ad_reader st h buf size).2.2.sfxc_handle_list h).fileSize
      = (st.sfxc_handle_list h).fileSize ∧
    ((sfxc_ad_reader st h buf size).2.2.sfxc_handle_list h).data = (st.sfxc_handle_list h).data ∧
    ((sfxc_ad_reader st h buf size).2.2.sfxc_handle_list h).position
      = (st.sfxc_handle_list h).position := by
  unfold IsInt32 at hfs
  by_cases hz : size = 0
  · subst hz
    have hr : sfxc_ad_reader st h buf 0 = (0, buf, st) := by simp [sfxc_ad_reader]
    rw [hr]
    simp only [Int.toNat_zero, add_zero]
    refine ⟨by simp; omega, le_refl _, fun _ => trivial, ?_, trivial, hlo, hhi, trivial, trivial,
      trivial⟩
    simp [readMem, memcpy]
  · have hrem : toU32 ((st.sfxc_handle_list h).fileSize - (st.sfxc_handle_list h).dataPosition)
        = ((st.sfxc_handle_list h).fileSize - (st.sfxc_handle_list h).dataPosition).toNat := by
      unfold toU32
      omega
    obtain ⟨n, hn⟩ : ∃ n : Nat, n = (if size ≤
        ((st.sfxc_handle_list h).fileSize - (st.sfxc_handle_list h).dataPosition).toNat
        then size
        else ((st.sfxc_handle_list h).fileSize - (st.sfxc_handle_list h).dataPosition).toNat) :=
      ⟨_, rfl⟩
    have hr : sfxc_ad_reader st h buf size = (wrap32 (n : Int),
        memcpy buf (readMem (st.sfxc_handle_list h).data (st.sfxc_handle_list h).dataPosition n),
        st.setSlot h ((st.sfxc_handle_list h).withDataPosition
          (wrap32 ((st.sfxc_handle_list h).dataPosition + (n : Int))))) := by
      rw [hn]
      simp only [sfxc_ad_reader, if_neg hz, hrem]
    have hnval : (n : Int)
        = min (size : Int)
          ((st.sfxc_handle_list h).fileSize - (st.sfxc_handle_list h).dataPosition) := by
      rw [hn]
      split <;> omega
    have hw1 : wrap32 (n : Int) = (n : Int) := wrap32_of_isInt32 (by unfold IsInt32; omega)
    have hw2 : wrap32 ((st.sfxc_handle_list h).dataPosition + (n : Int))
        = (st.sfxc_handle_list h).dataPosition + (n : Int) :=
      wrap32_of_isInt32 (by unfold IsInt32; omega)
    rw [hr, hw1, hw2]
    simp only [setSlot_same, withDataPosition_fields, Int.toNat_ofNat]
    refine ⟨hnval, by omega, fun _ => by omega, trivial, trivial, by omega, by omega, trivial,
      trivial, trivial⟩

theorem sfxc_ad_reader_clamped_witness :
    (sfxc_ad_reader (demoState 1 0) 0 [] 100).1
      = min ((100 : Nat) : Int) (((demoState 1 0).sfxc_handle_list 0).fileSize
          - ((demoState 1 0).sfxc_handle_list 0).dataPosition) ∧
    (sfxc_ad_reader (demoState 1 0) 0 [] 100).1 = 10 :=
  ⟨(sfxc_ad_reader_clamped (demoState 1 0) 0 [] 100 (by decide) (by decide) (by decide)
      (by decide)).1, by decide⟩

theorem sfxc_ad_reader_trace (st : SfxcState) (h : Int) (buf : List UInt8) (size : Nat) :
    (sfxc_ad_reader st h buf size).2.2.trace = st.trace := by
  unfold sfxc_ad_reader
  split <;> rfl

theorem sfxc_decode_block_trace (env : Env) (st : SfxcState) (d : SoundDecoder)
    (buf : List UInt8) (size : Nat) :
    (sfxc_decode_block env st d buf size).2.2.trace = st.trace ++ [Event.soundDecoderFree] := by
  have hd : (soundDecoderDecode env st d size).2.2.2.trace = st.trace := by
    unfold soundDecoderDecode
    exact sfxc_ad_reader_trace _ _ _ _
  unfold sfxc_decode_block soundDecoderFree
  simp only []
  split <;> rw [log_trace, hd]

/-- On a legal handle `sfxc_decode` creates the decoder once and releases it
once, on every path. -/
theorem sfxc_decode_trace (env : Env) (st : SfxcState) (h : Int) (buf : List UInt8) (size : Nat)
    (hlegal : sfxc_handle_is_legal env st h = true) :
    (sfxc_decode env st h buf size).2.2.trace
      = st.trace ++ [Event.soundDecoderInit h, Event.soundDecoderFree] := by
  have hi : (soundDecoderInit env
      (st.setSlot h ((st.sfxc_handle_list h).withDataPosition 0)) h).2.trace
      = st.trace ++ [Event.soundDecoderInit h] := by
    unfold soundDecoderInit
    rw [sfxc_ad_reader_trace]
    rfl
  have hd : ∀ (d : SoundDecoder) (count : Nat),
      (soundDecoderDecode env (soundDecoderInit env
        (st.setSlot h ((st.sfxc_handle_list h).withDataPosition 0)) h).2 d count).2.2.2.trace
        = st.trace ++ [Event.soundDecoderInit h] := by
    intro d count
    unfold soundDecoderDecode
    rw [sfxc_ad_reader_trace, hi]
  simp only [sfxc_decode, hlegal, Bool.not_true, Bool.false_eq_true, if_false]
  by_cases c1 : ((soundDecoderInit env
      (st.setSlot h ((st.sfxc_handle_list h).withDataPosition 0)) h).2.sfxc_handle_list h).position
      ≠ 0
  · rw [if_pos c1]
    split
    · unfold soundDecoderFree
      rw [log_trace, hi]
      simp
    · split
      · unfold soundDecoderFree
        rw [log_trace, hd]
        simp
      · rw [sfxc_decode_block_trace, hd]
        simp
  · rw [if_neg c1, sfxc_decode_block_trace, hi]
    simp

/-- The outcome of `sfxc_decode` does not depend on the raw cursor before the
call: the cursor is set to 0 first. -/
theorem sfxc_decode_resets_dataPosition (env : Env) (st : SfxcState) (h : Int)
    (buf : List UInt8) (size : Nat) (q : Int) :
    sfxc_decode env (st.setSlot h ((st.sfxc_handle_list h).withDataPosition q)) h buf size
      = (if sfxc_handle_is_legal env st h then sfxc_decode env st h buf size
        else (-1, buf, st.setSlot h ((st.sfxc_handle_list h).withDataPosition q))) := by
  have hleg : sfxc_handle_is_legal env
      (st.setSlot h ((st.sfxc_handle_list h).withDataPosition q)) h
      = sfxc_handle_is_legal env st h := by
    simp only [sfxc_handle_is_legal, setSlot_same, withDataPosition_fields]
  have hreset : (st.setSlot h ((st.sfxc_handle_list h).withDataPosition q)).setSlot h
      ((((st.setSlot h ((st.sfxc_handle_list h).withDataPosition q)).sfxc_handle_list
        h)).withDataPosition 0)
      = st.setSlot h ((st.sfxc_handle_list h).withDataPosition 0) := by
    rw [setSlot_setSlot, setSlot_same]
    rfl
  cases hl : sfxc_handle_is_legal env st h with
  | false =>
    simp [sfxc_decode, hleg, hl]
  | true =>
    simp only [sfxc_decode, hleg, hl, hreset, Bool.not_true, Bool.false_eq_true, if_false,
      if_true]

/-- C23 (amended): with the decoder a sequential producer of the decoded
stream `D` of the raw bytes of the handle from offset 0, for a legal handle at
position `p ≥ 0` and every size `s`: the outcome does not depend on the raw
cursor before the call (it is set to 0 first); `sfxc_decode` returns 0 exactly
when the scratch allocation succeeds (when `p > 0`) and `D` yields `p` bytes
for the discarded prefix and then `s` further bytes, and -1 otherwise; on
success the first `s` bytes of the caller's buffer are `D[p .. p+s)`; the
decoder is created once and released once on every path; `position` is not
modified. -/
theorem sfxc_decode_contract (env : Env) (st : SfxcState) (h : Int) (buf : List UInt8)
    (size : Nat)
    (hlegal : sfxc_handle_is_legal env st h = true)
    (hp0 : 0 ≤ (st.sfxc_handle_list h).position)
    (hpi : IsInt32 (st.sfxc_handle_list h).position) :
    (∀ q : Int,
      sfxc_decode env (st.setSlot h ((st.sfxc_handle_list h).withDataPosition q)) h buf size
        = sfxc_decode env st h buf size) ∧
    ((sfxc_decode env st h buf size).1 = 0 ↔
      ((st.sfxc_handle_list h).position ≠ 0 →
        env.internal_malloc_ok (st.sfxc_handle_list h).position.toNat = true) ∧
      (st.sfxc_handle_list h).position.toNat + size
        ≤ (decodedStream env (st.sfxc_handle_list h)).length) ∧
    ((sfxc_decode env st h buf size).1 = 0 ∨ (sfxc_decode env st h buf size).1 = -1) ∧
    ((sfxc_decode env st h buf size).1 = 0 →
      (sfxc_decode env st h buf size).2.1.take size
        = ((decodedStream env (st.sfxc_handle_list h)).drop
            (st.sfxc_handle_list h).position.toNat).take size ∧
      (((decodedStream env (st.sfxc_handle_list h)).drop
            (st.sfxc_handle_list h).position.toNat).take size).length = size) ∧
    (sfxc_decode env st h buf size).2.2.trace
      = st.trace ++ [Event.soundDecoderInit h, Event.soundDecoderFree] ∧
    ((sfxc_decode env st h buf size).2.2.sfxc_handle_list h).position
      = (st.sfxc_handle_list h).position := by
  obtain ⟨d1, d2⟩ := sfxc_decode_result env st h buf size hlegal hp0 hpi
  have hcases : (sfxc_decode env st h buf size).1 =
      if ((st.sfxc_handle_list h).position ≠ 0 →
          env.internal_malloc_ok (st.sfxc_handle_list h).position.toNat = true) ∧
        (st.sfxc_handle_list h).position.toNat + size
          ≤ (decodedStream env (st.sfxc_handle_list h)).length then 0 else -1 := by
    rw [d1]
    by_cases hz : (st.sfxc_handle_list h).position = 0
    · have hz' : (st.sfxc_handle_list h).position.toNat = 0 := by omega
      rw [if_pos hz, List.length_take, hz']
      by_cases hshort : (decodedStream env (st.sfxc_handle_list h)).length < size
      · rw [if_pos (by omega), if_neg (by omega)]
      · rw [if_neg (by omega), if_pos ⟨fun hc => absurd hz hc, by omega⟩]
    · rw [if_neg hz]
      cases hm : env.internal_malloc_ok (st.sfxc_handle_list h).position.toNat with
      | false =>
        simp only [Bool.not_false, if_true]
        rw [if_neg]
        intro hc
        exact absurd (hc.1 hz) (by decide)
      | true =>
        simp only [Bool.not_true, Bool.false_eq_true, if_false, List.length_take,
          List.length_drop]
        by_cases hshort : (decodedStream env (st.sfxc_handle_list h)).length
            < (st.sfxc_handle_list h).position.toNat
        · rw [if_pos (by omega), if_neg (by omega)]
        · rw [if_neg (by omega)]
          by_cases hshort2 : (decodedStream env (st.sfxc_handle_list h)).length
              < (st.sfxc_handle_list h).position.toNat + size
          · rw [if_pos (by omega), if_neg (by omega)]
          · rw [if_neg (by omega), if_pos ⟨fun _ => trivial, by omega⟩]
  refine ⟨?_, ?_, ?_, ?_, sfxc_decode_trace env st h buf size hlegal,
    (rawCursorOnly_slot (rawCursorOnly_decode env st h buf size) h).2.2.2.2.2.1⟩
  · intro q
    rw [sfxc_decode_resets_dataPosition, hlegal]
    rfl
  · rw [hcases]
    constructor
    · intro h0
      by_contra hn
      rw [if_neg hn] at h0
      exact absurd h0 (by decide)
    · intro hc
      rw [if_pos hc]
  · rw [hcases]
    split
    · exact Or.inl rfl
    · exact Or.inr rfl
  · intro h0
    have hlen : (((decodedStream env (st.sfxc_handle_list h)).drop
        (st.sfxc_handle_list h).position.toNat).take size).length = size := by
      rw [hcases] at h0
      by_cases hc : ((st.sfxc_handle_list h).position ≠ 0 →
          env.internal_malloc_ok (st.sfxc_handle_list h).position.toNat = true) ∧
        (st.sfxc_handle_list h).position.toNat + size
          ≤ (decodedStream env (st.sfxc_handle_list h)).length
      · rw [List.length_take, List.length_drop]
        omega
      · rw [if_neg hc] at h0
        exact absurd h0 (by decide)
    refine ⟨?_, hlen⟩
    rw [d2 h0]
    unfold memcpy
    rw [List.take_append_of_le_length (by omega), List.take_of_length_le (by omega)]

theorem sfxc_decode_contract_witness :
    (sfxc_decode (demoEnv true) (demoState 1 4) 0 [0, 0, 0] 3).1 = 0 ∧
    (sfxc_decode (demoEnv true) (demoState 1 4) 0 [0, 0, 0] 3).2.1.take 3 = [104, 105, 106] := by
  have h := sfxc_decode_contract (demoEnv true) (demoState 1 4) 0 [0, 0, 0] 3 (by decide)
    (by decide) (by decide)
  exact ⟨h.2.1.mpr ⟨fun _ => rfl, by decide⟩, by decide⟩

/-- C23 (as stated) fails when the scratch allocation fails.  On a legal
handle at position 4 whose decoded stream has 10 bytes, the decoder can yield
the 4 bytes of the prefix and 3 further bytes, yet with a failing allocator
`sfxc_decode(h, buf, 3)` returns -1. -/
theorem sfxc_decode_scratch_failure :
    sfxc_handle_is_legal (demoEnv false) (demoState 1 4) 0 = true ∧
    ((demoState 1 4).sfxc_handle_list 0).position = 4 ∧
    (decodedStream (demoEnv false) ((demoState 1 4).sfxc_handle_list 0)).length = 10 ∧
    (sfxc_decode (demoEnv false) (demoState 1 4) 0 [0, 0, 0] 3).1 = -1 ∧
    (sfxc_decode (demoEnv true) (demoState 1 4) 0 [0, 0, 0] 3).1 = 0 := by
  decide

/-- The loop of `_selectWindow`: it stops inside `[index, index + remaining]`,
and when it stops before the end, at an entry with a window whose name
matches. -/
theorem selectWindow_scan_spec (windows : Int → ManagedWindow) (windowName : String)
    (remaining : Nat) :
    ∀ index : Nat,
      index ≤ _selectWindow_scan windows windowName remaining index ∧
      _selectWindow_scan windows windowName remaining index ≤ index + remaining ∧
      (_selectWindow_scan windows windowName remaining index < index + remaining →
        (windows ((_selectWindow_scan windows windowName remaining index : Nat) : Int)).window
          ≠ -1 ∧
        stricmp (windows ((_selectWindow_scan windows windowName remaining index : Nat)
          : Int)).name windowName = 0) := by
  induction remaining with
  | zero =>
    intro index
    simp only [_selectWindow_scan]
    exact ⟨le_refl _, le_refl _, fun hc => absurd hc (by omega)⟩
  | succ n ih =>
    intro index
    obtain ⟨i1, i2, i3⟩ := ih (index + 1)
    by_cases hw : (windows (index : Int)).window ≠ -1
    · by_cases hs : stricmp (windows (index : Int)).name windowName = 0
      · have hscan : _selectWindow_scan windows windowName (n + 1) index = index := by
          simp only [_selectWindow_scan, if_pos hw, if_pos hs]
        rw [hscan]
        exact ⟨le_refl _, by omega, fun _ => ⟨hw, hs⟩⟩
      · have hscan : _selectWindow_scan windows windowName (n + 1) index
            = _selectWindow_scan windows windowName n (index + 1) := by
          simp only [_selectWindow_scan, if_pos hw, if_neg hs]
        rw [hscan]
        exact ⟨by omega, by omega, fun hc => i3 (by omega)⟩
    · have hscan : _selectWindow_scan windows windowName (n + 1) index
          = _selectWindow_scan windows windowName n (index + 1) := by
        simp only [_selectWindow_scan, if_neg hw]
      rw [hscan]
      exact ⟨by omega, by omega, fun hc => i3 (by omega)⟩

/-- What `_selectWindow` returns when the name is not the one of the current
window (supports C29): when the loop finds an existing window with a matching
name, that window becomes the current one and the result is -1; when it finds
none, the result is `MANAGED_WINDOW_COUNT` and the state is unchanged. -/
theorem selectWindow_result (count : Nat) (st : WindowState) (windowName : String)
    (hcur : ¬ (st.gCurrentManagedWindowIndex ≠ -1 ∧
      stricmp (st.gManagedWindows st.gCurrentManagedWindowIndex).name windowName = 0)) :
    (_selectWindow_scan st.gManagedWindows windowName count 0 < count →
      (_selectWindow count st windowName).1 = -1 ∧
      (_selectWindow count st windowName).2.gCurrentManagedWindowIndex
        = ((_selectWindow_scan st.gManagedWindows windowName count 0 : Nat) : Int)) ∧
    (¬ _selectWindow_scan st.gManagedWindows windowName count 0 < count →
      (_selectWindow count st windowName).1 = (count : Int) ∧
      (_selectWindow count st windowName).2 = st) := by
  obtain ⟨-, s2, s3⟩ := selectWindow_scan_spec st.gManagedWindows windowName count 0
  have hform : _selectWindow count st windowName =
      if !(_selectWindowID count st
          ((_selectWindow_scan st.gManagedWindows windowName count 0 : Nat) : Int)).1 then
        (((_selectWindow_scan st.gManagedWindows windowName count 0 : Nat) : Int),
          (_selectWindowID count st
            ((_selectWindow_scan st.gManagedWindows windowName count 0 : Nat) : Int)).2)
      else (-1, (_selectWindowID count st
          ((_selectWindow_scan st.gManagedWindows windowName count 0 : Nat) : Int)).2) := by
    simp only [_selectWindow, if_neg hcur]
  rw [hform]
  generalize _selectWindow_scan st.gManagedWindows windowName count 0 = idx at s2 s3 ⊢
  constructor
  · intro hlt
    obtain ⟨hw, -⟩ := s3 (by omega)
    have hrange : ¬ ((idx : Int) < 0 ∨ (idx : Int) ≥ (count : Int)) := by omega
    have hsel : (_selectWindowID count st (idx : Int)).1 = true ∧
        (_selectWindowID count st (idx : Int)).2.gCurrentManagedWindowIndex = (idx : Int) := by
      simp only [_selectWindowID, if_neg hrange, if_neg hw]
      refine ⟨trivial, ?_⟩
      split <;> rfl
    rw [hsel.1]
    exact ⟨rfl, hsel.2⟩
  · intro hge
    have hidx : idx = count := by omega
    have hrange : (idx : Int) < 0 ∨ (idx : Int) ≥ (count : Int) := by omega
    have hsel : _selectWindowID count st (idx : Int) = (false, st) := by
      simp only [_selectWindowID, if_pos hrange]
    rw [hsel, hidx]
    exact ⟨rfl, rfl⟩

/-- C29: the code on the two cases of the claim.  With `"main"` (index 0) the
current window and `"dialog"` an existing window at index 1,
`_selectWindow("DIALOG")` makes window 1 the current one but returns -1, not
1; and `_selectWindow("nosuch")`, a name of no existing window, returns
`MANAGED_WINDOW_COUNT` (16 here), not -1, leaving the current window as it
was. -/
theorem selectWindow_return_values_swapped :
    (demoWindows.gManagedWindows 1).window ≠ -1 ∧
    stricmp (demoWindows.gManagedWindows 1).name "DIALOG" = 0 ∧
    (_selectWindow 16 demoWindows "DIALOG").2.gCurrentManagedWindowIndex = 1 ∧
    (_selectWindow 16 demoWindows "DIALOG").1 = -1 ∧
    (_selectWindow 16 demoWindows "nosuch").1 = 16 ∧
    (_selectWindow 16 demoWindows "nosuch").2.gCurrentManagedWindowIndex = 0 := by
  decide

/-- The parts of C30 that hold: `dialogStart` returns 1 and changes nothing
when `tods == 3`; otherwise, for `tods` in `-1 .. 2`, it returns 0, adds one
to `tods`, writes the record at the index `tods` had before the call (not at
the new top of stack) and no other; and from `tods` in `-1 .. 3` every
sequence of calls keeps `tods` in `-1 .. 3`. -/
theorem dialogStart_effect (st : DialogState) (a1 : Int) (hlo : -1 ≤ st.tods)
    (hhi : st.tods ≤ 3) :
    (st.tods = 3 → dialogStart st a1 = (1, st)) ∧
    (st.tods ≠ 3 →
      (dialogStart st a1).1 = 0 ∧ (dialogStart st a1).2.tods = st.tods + 1 ∧
      ((dialogStart st a1).2.dialog st.tods).field_0 = a1 ∧
      (∀ i : Int, i ≠ st.tods → (dialogStart st a1).2.dialog i = st.dialog i)) ∧
    (∀ programs : List Int,
      -1 ≤ (dialogStarts st programs).tods ∧ (dialogStarts st programs).tods ≤ 3) := by
  have hstep : ∀ (s : DialogState) (a : Int), -1 ≤ s.tods → s.tods ≤ 3 →
      -1 ≤ (dialogStart s a).2.tods ∧ (dialogStart s a).2.tods ≤ 3 := by
    intro s a h1 h2
    unfold dialogStart
    by_cases h3 : s.tods = 3
    · rw [if_pos h3]; exact ⟨h1, h2⟩
    · rw [if_neg h3]
      show -1 ≤ wrap32 (s.tods + 1) ∧ wrap32 (s.tods + 1) ≤ 3
      unfold wrap32
      omega
  refine ⟨?_, ?_, ?_⟩
  · intro h3
    simp only [dialogStart, if_pos h3]
  · intro h3
    simp only [dialogStart, if_neg h3]
    refine ⟨trivial, ?_, ?_, ?_⟩
    · show wrap32 (st.tods + 1) = st.tods + 1
      unfold wrap32
      omega
    · simp
    · intro i hi
      simp [hi]
  · intro programs
    induction programs generalizing st with
    | nil => exact ⟨hlo, hhi⟩
    | cons a rest ih =>
      simp only [dialogStarts, List.foldl_cons]
      obtain ⟨g1, g2⟩ := hstep st a hlo hhi
      exact ih (dialogStart st a).2 g1 g2

/-- C30: the code on the first call.  From the initial state (`tods == -1`)
`dialogStart(p)` returns 0 and leaves `tods == 0`, but the record it wrote is
`dialog[-1]`, outside the 4-element array; `dialog[0]`, the top of stack after
the call, is what it was.  After four calls the records written are those at
indices -1, 0, 1 and 2, and `dialog[3]`, the top of stack, was never
written. -/
theorem dialogStart_writes_below_stack :
    dialogInitial.tods = -1 ∧
    (dialogStart dialogInitial 42).1 = 0 ∧
    (dialogStart dialogInitial 42).2.tods = 0 ∧
    ((dialogStart dialogInitial 42).2.dialog (-1)).field_0 = 42 ∧
    (dialogStart dialogInitial 42).2.dialog (-1) ≠ dialogInitial.dialog (-1) ∧
    (dialogStart dialogInitial 42).2.dialog 0 = dialogInitial.dialog 0 ∧
    (dialogStarts dialogInitial [42, 43, 44, 45]).tods = 3 ∧
    ((dialogStarts dialogInitial [42, 43, 44, 45]).dialog (-1)).field_0 = 42 ∧
    ((dialogStarts dialogInitial [42, 43, 44, 45]).dialog 2).field_0 = 45 ∧
    (dialogStarts dialogInitial [42, 43, 44, 45]).dialog 3 = dialogInitial.dialog 3 := by
  decide

/-- The function `sfxc_cached_read` written with the count of lines 221-228:
after the three early returns, the copy (uncompressed mode) or the decode
(compressed mode) is made for `sfxc_cached_read_count` bytes. -/
theorem sfxc_cached_read_by_count (env : Env) (st : SfxcState) (h : Int) (buf : List UInt8)
    (size : Nat) :
    sfxc_cached_read env st h buf size =
      if !sfxc_handle_is_legal env st h then (-1, buf, st)
      else if size = 0 then (0, buf, st)
      else if wrap32 ((st.sfxc_handle_list h).dataSize - (st.sfxc_handle_list h).position) ≤ 0 then
        (0, buf, st)
      else if st.sfxc_cmpr = 0 then
        ((sfxc_cached_read_advance st h (sfxc_cached_read_count (st.sfxc_handle_list h) size)).1,
          memcpy buf (readMem (st.sfxc_handle_list h).data (st.sfxc_handle_list h).position
            (sfxc_cached_read_count (st.sfxc_handle_list h) size)),
          (sfxc_cached_read_advance st h (sfxc_cached_read_count (st.sfxc_handle_list h) size)).2)
      else if st.sfxc_cmpr = 1 then
        if (sfxc_decode env st h buf (sfxc_cached_read_count (st.sfxc_handle_list h) size)).1 ≠ 0
        then
          (-1, (sfxc_decode env st h buf (sfxc_cached_read_count (st.sfxc_handle_list h) size)).2.1,
            (sfxc_decode env st h buf (sfxc_cached_read_count (st.sfxc_handle_list h) size)).2.2)
        else
          ((sfxc_cached_read_advance
              (sfxc_decode env st h buf (sfxc_cached_read_count (st.sfxc_handle_list h) size)).2.2
              h (sfxc_cached_read_count (st.sfxc_handle_list h) size)).1,
            (sfxc_decode env st h buf (sfxc_cached_read_count (st.sfxc_handle_list h) size)).2.1,
            (sfxc_cached_read_advance
              (sfxc_decode env st h buf (sfxc_cached_read_count (st.sfxc_handle_list h) size)).2.2
              h (sfxc_cached_read_count (st.sfxc_handle_list h) size)).2)
      else (-1, buf, st) := by
  rfl

/-- The count of lines 221-228 for a slot with `0 ≤ position < dataSize`: the
clamped count `min(size, dataSize - position)` for a size below `2^31`, and
the size itself, unclamped, for an unsigned 32-bit size from `2^31` on. -/
theorem sfxc_cached_read_count_cases (e : SoundEffect) (size : Nat) (hds : IsInt32 e.dataSize)
    (hpos : 0 ≤ e.position) (hlt : e.position < e.dataSize) (hu32 : size < 4294967296) :
    (size < 2147483648 →
      (sfxc_cached_read_count e size : Int) = min (size : Int) (e.dataSize - e.position)) ∧
    (2147483648 ≤ size → sfxc_cached_read_count e size = size ∧
      (e.dataSize - e.position).toNat < sfxc_cached_read_count e size) := by
  obtain ⟨-, hcount⟩ := bytesToRead_eq_decodeRequest e size hds hpos hlt hu32
  have hc : sfxc_cached_read_count e size = decodeRequest e size := hcount
  unfold IsInt32 at hds
  constructor
  · intro hsmall
    rw [hc]
    simp only [decodeRequest, if_pos hsmall, readCount]
    omega
  · intro hbig
    have hnot : ¬ size < 2147483648 := by omega
    rw [hc]
    simp only [decodeRequest, if_neg hnot]
    exact ⟨trivial, by omega⟩

/-- C15: the code at a size of `2^31` in uncompressed mode.  On a legal handle
at position 0 of a 10-byte block neither early return is taken, `(int)size` is
`-2^31` and passes the signed test of line 224, and the count `bytesToRead`
handed to `memcpy` is `size = 2^31`, not `n = min(size, dataSize - position) =
10`: the copy is asked to run `2^31 - 10` bytes past the end of the block. -/
theorem sfxc_cached_read_uncompressed_huge_size_unclamped :
    sfxc_handle_is_legal (demoEnv true) (demoState 0 0) 0 = true ∧
    (demoState 0 0).sfxc_cmpr = 0 ∧
    ((demoState 0 0).sfxc_handle_list 0).position < ((demoState 0 0).sfxc_handle_list 0).dataSize ∧
    ¬ wrap32 (((demoState 0 0).sfxc_handle_list 0).dataSize
        - ((demoState 0 0).sfxc_handle_list 0).position) ≤ 0 ∧
    wrap32 ((2147483648 : Nat) : Int)
      < wrap32 (((demoState 0 0).sfxc_handle_list 0).dataSize
        - ((demoState 0 0).sfxc_handle_list 0).position) ∧
    min ((2147483648 : Nat) : Int)
      (((demoState 0 0).sfxc_handle_list 0).dataSize - ((demoState 0 0).sfxc_handle_list 0).position)
      = 10 ∧
    sfxc_cached_read_count ((demoState 0 0).sfxc_handle_list 0) 2147483648 = 2147483648 ∧
    sfxc_cached_read_count ((demoState 0 0).sfxc_handle_list 0) 2147483648
      - (((demoState 0 0).sfxc_handle_list 0).dataSize
        - ((demoState 0 0).sfxc_handle_list 0).position).toNat = 2147483638 := by
  decide

/-- C6: the code with a close of handle -1.  The subsystem is not initialised
and the memory just before the handle table reads as an open slot on tag 7;
`sfxc_init` succeeds,
`sfxc_cached_open("explosion")` returns handle 0 and pins entry 7, and
`sfxc_cached_close(-1)` is accepted, returns 0 and releases that pin: one slot
of the table is still used with tag 7 while the pin counter of tag 7 is 0. -/
theorem sfxc_pin_balance_broken_by_negative_close :
    (sfxc_init (demoEnv true) ((demoStrayState 1).withInitialized false) 524288
        (some "sfx/")).1 = 0 ∧
    (sfxc_cached_open (demoEnv true)
      (sfxc_init (demoEnv true) ((demoStrayState 1).withInitialized false) 524288
        (some "sfx/")).2 "explosion").1 = 0 ∧
    (sfxc_calls (demoEnv true)
      (sfxc_init (demoEnv true) ((demoStrayState 1).withInitialized false) 524288
        (some "sfx/")).2
      [Call.doOpen "explosion"]).sfxc_pcache 7 = 1 ∧
    (sfxc_cached_close (demoEnv true)
      (sfxc_calls (demoEnv true)
        (sfxc_init (demoEnv true) ((demoStrayState 1).withInitialized false) 524288
        (some "sfx/")).2
        [Call.doOpen "explosion"]) (-1)).1 = 0 ∧
    (sfxc_calls (demoEnv true)
      (sfxc_init (demoEnv true) ((demoStrayState 1).withInitialized false) 524288
        (some "sfx/")).2
      [Call.doOpen "explosion", Call.doClose (-1)]).sfxc_pcache 7 = 0 ∧
    openHandles (demoEnv true)
      (sfxc_calls (demoEnv true)
        (sfxc_init (demoEnv true) ((demoStrayState 1).withInitialized false) 524288
        (some "sfx/")).2
        [Call.doOpen "explosion", Call.doClose (-1)]) 7 = 1 := by
  decide

/-- C26: the code at the position the seek of C5 leaves.  On a legal handle at
position 4 of 10 decoded bytes, `sfxc_cached_seek(h, -2147483648, SEEK_SET)`
stores position `-2^31` and the handle is still legal; from there
`sfxc_cached_seek(h, 0, SEEK_CUR)` returns 10 and stores 10, not `p = -2^31`
with nothing changed, and `sfxc_cached_seek(h, 5, SEEK_CUR)` returns 10, not
`min(p + 5, dataSize) = -2147483643`. -/
theorem sfxc_cached_seek_cur_from_minimum_position :
    (sfxc_cached_seek (demoEnv true) (demoState 1 4) 0 (-2147483648) SEEK_SET).map
      (fun r => ((r.2.sfxc_handle_list 0).position, (r.2.sfxc_handle_list 0).dataSize,
        sfxc_handle_is_legal (demoEnv true) r.2 0)) = some (-2147483648, 10, true) ∧
    ((sfxc_cached_seek (demoEnv true) (demoState 1 4) 0 (-2147483648) SEEK_SET).bind
      (fun r => sfxc_cached_seek (demoEnv true) r.2 0 0 SEEK_CUR)).map
      (fun r => (r.1, (r.2.sfxc_handle_list 0).position)) = some (10, 10) ∧
    ((sfxc_cached_seek (demoEnv true) (demoState 1 4) 0 (-2147483648) SEEK_SET).bind
      (fun r => sfxc_cached_seek (demoEnv true) r.2 0 5 SEEK_CUR)).map
      (fun r => (r.1, (r.2.sfxc_handle_list 0).position)) = some (10, 10) ∧
    min ((-2147483648 : Int) + 5) 10 = -2147483643 ∧
    sfxc_handle_is_legal (demoEnv true) (demoState 1 (-2147483648)) 0 = true ∧
    (sfxc_cached_seek (demoEnv true) (demoState 1 (-2147483648)) 0 0 SEEK_CUR).map
      (fun r => (r.1, (r.2.sfxc_handle_list 0).position)) = some (10, 10) := by
  decide

end Sfxcache
